import Mathlib

/-!
Terrain visibility fading (`src/advvis.cpp`) and target selection weights
(`src/ai.h`) of Warzone 2100: a shallow embedding of the code, and the
properties of its specification.

Arithmetic.

The C code computes with `float`.  A finite `float` is modelled by the rational
number it denotes, and every arithmetic operation is the exact operation
followed by `F32.rnd`, the IEEE-754 binary32 rounding (24 significant bits,
round to nearest, ties to even, gradual underflow with quantum `2 ^ (-149)`):
the arithmetic of a platform that evaluates `float` expressions in `float`
(`FLT_EVAL_METHOD` 0), as SSE code does.  Comparisons are exact.  NaN and the
infinities are not modelled: all inputs are finite.  `F32.rnd` has no overflow
threshold; the only operations of the source that can overflow on finite inputs
are `level + increment` and `level - increment`, whose result is at once
clamped against the finite `maxLevel` by `MIN` / `MAX`, so an infinite or a
huge finite value give the same tile level.

Bit masks (`PlayerMask`) are natural numbers with the bitwise operations of
`Nat`.  The mask `1 << selectedPlayer` of `avUpdateTiles` is a shift of a 32-bit
`int`: C++ defines it for a shift count below 32 only (`playermaskChecked`).
The total `playermask` used by the loop takes the count modulo 32 from there
on, as the shift instruction of x86 does.  A property that names the explored
bit of the selected player, `1 <<< selectedPlayer`, is stated for
`selectedPlayer < 32`; the others go through the test of the loop itself,
`tileSeen`.
-/

namespace F32

/-- Round a rational to the nearest integer, ties to the even integer. -/
def rne (q : ℚ) : ℤ :=
  if q - ⌊q⌋ < 1 / 2 then ⌊q⌋
  else if 1 / 2 < q - ⌊q⌋ then ⌊q⌋ + 1
  else if ⌊q⌋ % 2 = 0 then ⌊q⌋ else ⌊q⌋ + 1

/-- Exponent of the unit in the last place of `x`, counted from `2 ^ (-149)`:
`0` throughout the subnormal range and the first normal binade, and
`⌊log2 |x|⌋ + 149 - 23` above. -/
def ulpExp (x : ℚ) : ℕ := Nat.log 2 ⌊|x| * 2 ^ 149⌋₊ - 23

/-- Binary32 rounding of a rational (round to nearest, ties to even). -/
def rnd (x : ℚ) : ℚ :=
  (rne (x * 2 ^ 149 / 2 ^ ulpExp x) : ℚ) * 2 ^ ulpExp x / 2 ^ 149

/-- The rational `x` is a finite binary32 value. -/
def IsF32 (x : ℚ) : Prop := rnd x = x ∧ |x| < 2 ^ 128

instance (x : ℚ) : Decidable (IsF32 x) := by
  unfold IsF32; infer_instance

/-- Binary32 addition. -/
def add (a b : ℚ) : ℚ := rnd (a + b)

/-- Binary32 subtraction. -/
def sub (a b : ℚ) : ℚ := rnd (a - b)

/-- Binary32 multiplication. -/
def mul (a b : ℚ) : ℚ := rnd (a * b)

/-- Binary32 division. -/
def div (a b : ℚ) : ℚ := rnd (a / b)

/-- Conversion of an unsigned integer to `float`. -/
def ofNat (n : ℕ) : ℚ := rnd n

/-- Conversion `static_cast<unsigned int>(x)` of a `float`: the fractional part
is discarded; the conversion is undefined (`none`) when the integral part is not
a 32-bit unsigned value. -/
def toUnsigned (x : ℚ) : Option ℕ :=
  let z : ℤ := if 0 ≤ x then ⌊x⌋ else ⌈x⌉
  if 0 ≤ z ∧ z < 2 ^ 32 then some z.toNat else none

end F32

/-- Constant `START_DIVIDE` of `advvis.cpp`. -/
def START_DIVIDE : ℕ := 8

/-- Constant `MIN_ILLUM` of `advvis.cpp` (`45.0f`). -/
def MIN_ILLUM : ℚ := 45

/-- Modelled from the spec: the framework macro `MAX`, which is not among the
sources at hand; the spec has the downward step clamped at the target, and the
macro is taken as `((a) > (b)) ? (a) : (b)`. -/
def MAX (a b : ℚ) : ℚ := if a > b then a else b

/-- Modelled from the spec: the framework macro `MIN`, which is not among the
sources at hand; the spec has the upward step clamped at the target, and the
macro is taken as `((a) < (b)) ? (a) : (b)`. -/
def MIN (a b : ℚ) : ℚ := if a < b then a else b

/-- The two terrain shader types named in `getTileIllumination`. -/
inductive TerrainShaderType where
  | FALLBACK
  | SINGLE_PASS
  deriving DecidableEq, Repr

/-- The fields of `MAPTILE` that `advvis.cpp` reads or writes.  The two lighting
values are finite `float`s, as in the data model of the spec. -/
structure MAPTILE where
  /-- Bit per player: who has explored the tile. -/
  tileExploredBits : ℕ
  /-- Bit per player: who sees the tile with a sensor. -/
  sensorBits : ℕ
  /-- Static illumination value. -/
  illumination : ℚ
  /-- Ambient occlusion value. -/
  ambientOcclusion : ℚ
  /-- The smoothed visibility level that is rendered. -/
  level : ℚ

/-- The globals that `advvis.cpp` reads or writes.  `MAX_PLAYER_SLOTS` is a
compile-time constant of a header that is not among the sources at hand and is
carried as a parameter; `tileVisible i` is the value of the macro
`TEST_TILE_VISIBLE_TO_SELECTEDPLAYER` on tile `i`. -/
structure World where
  /-- Width of the map in tiles. -/
  mapWidth : ℕ
  /-- Height of the map in tiles. -/
  mapHeight : ℕ
  /-- The tile array, by index. -/
  psMapTiles : ℕ → MAPTILE
  /-- The file-static flag `bRevealActive`. -/
  bRevealActive : Bool
  /-- The active terrain shader. -/
  terrainShaderType : TerrainShaderType
  /-- Index of the player whose view is displayed. -/
  selectedPlayer : ℕ
  /-- Number of player slots. -/
  MAX_PLAYER_SLOTS : ℕ
  /-- Alliance bit mask of each player. -/
  alliancebits : ℕ → ℕ
  /-- Bit mask of the players that own a satellite uplink. -/
  satuplinkbits : ℕ
  /-- Omniscient display. -/
  godMode : Bool
  /-- Modelled from the spec: the macro `TEST_TILE_VISIBLE_TO_SELECTEDPLAYER`,
  which is not among the sources at hand; the spec calls it the authoritative
  game-state test of whether the tile is visible to the observing player, a
  fact of the game state that does not read the display-only `level`. -/
  tileVisible : ℕ → Bool

/-- The initial value of the file-static `bRevealActive`. -/
def bRevealActive_init : Bool := true

/-- Function `getTileIllumination` of `advvis.cpp`. -/
def getTileIllumination (terrainShaderType : TerrainShaderType) (psTile : MAPTILE) : ℚ :=
  match terrainShaderType with
  | TerrainShaderType.SINGLE_PASS => psTile.ambientOcclusion
  | TerrainShaderType.FALLBACK => psTile.illumination

/-- Local `playermask` of `avUpdateTiles`: `1 << selectedPlayer`, a shift of the
32-bit `int` constant `1`.  For a shift count below 32 this is the single bit
`selectedPlayer`; from 32 on the C++ expression is undefined, and the count is
taken modulo 32, as the shift instruction of x86 does. -/
def playermask (w : World) : ℕ := 1 <<< (w.selectedPlayer % 32)

/-- The expression `1 << selectedPlayer` as C++ defines it: it has no value when
the shift count reaches the 32 bits of `int`. -/
def playermaskChecked (w : World) : Option ℕ :=
  if w.selectedPlayer < 32 then some (1 <<< w.selectedPlayer) else none

/-- Local `playerAllianceBits` of `avUpdateTiles`. -/
def playerAllianceBits (w : World) : ℕ :=
  if w.selectedPlayer < w.MAX_PLAYER_SLOTS then w.alliancebits w.selectedPlayer else 0

/-- The outer condition of the loop body of `avUpdateTiles` (marked `seen` in the
source): the level exceeds `MIN_ILLUM` or the selected player has explored the
tile. -/
def tileSeen (w : World) (psTile : MAPTILE) : Prop :=
  psTile.level > MIN_ILLUM ∨ psTile.tileExploredBits &&& playermask w ≠ 0

instance (w : World) (psTile : MAPTILE) : Decidable (tileSeen w psTile) := by
  unfold tileSeen; infer_instance

/-- The inner condition of the loop body of `avUpdateTiles`: not omniscient, and
neither the selected player nor an ally sees the tile. -/
def tileUnwatched (w : World) (psTile : MAPTILE) : Prop :=
  w.godMode = false ∧ playerAllianceBits w &&& (w.satuplinkbits ||| psTile.sensorBits) = 0

instance (w : World) (psTile : MAPTILE) : Decidable (tileUnwatched w psTile) := by
  unfold tileUnwatched; infer_instance

/-- The value of the local `maxLevel` of `avUpdateTiles` when the level is
compared with it: the tile illumination, divided by two for an unwatched tile. -/
def tileMaxLevel (w : World) (psTile : MAPTILE) : ℚ :=
  if tileUnwatched w psTile then F32.div (getTileIllumination w.terrainShaderType psTile) 2
  else getTileIllumination w.terrainShaderType psTile

/-- The loop body of `avUpdateTiles` on one tile; `increment` is the value of
`graphicsTimeAdjustedIncrement(FADE_IN_TIME)` for the frame. -/
def avUpdateTile (w : World) (increment : ℚ) (psTile : MAPTILE) : MAPTILE :=
  if tileSeen w psTile then
    let maxLevel := tileMaxLevel w psTile
    if psTile.level > maxLevel then
      { psTile with level := MAX (F32.sub psTile.level increment) maxLevel }
    else if psTile.level < maxLevel then
      { psTile with level := MIN (F32.add psTile.level increment) maxLevel }
    else psTile
  else psTile

/-- Function `avUpdateTiles` of `advvis.cpp`: the loop over the tile indices
`0 .. mapHeight * mapWidth - 1`. -/
def avUpdateTiles (w : World) (increment : ℚ) : World :=
  { w with
    psMapTiles :=
      (List.range (w.mapHeight * w.mapWidth)).foldl
        (fun tiles i => Function.update tiles i (avUpdateTile w increment (tiles i)))
        w.psMapTiles }

/-- Function `avGetObjLightLevel` of `advvis.cpp`; `visible` is the value of
`psObj->visibleForLocalDisplay()`.  The result is `none` when the conversion of
the scaled level to `unsigned int` is undefined. -/
def avGetObjLightLevel (visible : ℕ) (origLevel : ℕ) : Option ℕ :=
  let div := F32.div (F32.ofNat visible) 255
  let lowest := origLevel / START_DIVIDE
  match F32.toUnsigned (F32.mul div (F32.ofNat origLevel)) with
  | none => none
  | some newLevel => some (if newLevel < lowest then lowest else newLevel)

/-- Function `getRevealStatus` of `advvis.cpp`. -/
def getRevealStatus (w : World) : Bool := w.bRevealActive

/-- Function `setRevealStatus` of `advvis.cpp` (the debug log line has no effect
on the state). -/
def setRevealStatus (w : World) (val : Bool) : World := { w with bRevealActive := val }

/-- Modelled from the spec: the accessor `mapTile(x, y)`, which is not among the
sources at hand; the spec has one tile per cell of a `mapWidth × mapHeight` grid
in row-major order, so the tile of cell `(x, y)` has index `x + y * mapWidth`. -/
def mapTile (w : World) (x y : ℕ) : ℕ := x + y * w.mapWidth

/-- The loop body of `preProcessVisibility` on the tile of index `i`. -/
def preProcessTile (w : World) (i : ℕ) (psTile : MAPTILE) : MAPTILE :=
  let psTile1 : MAPTILE :=
    { psTile with
      level :=
        if w.bRevealActive then
          MIN MIN_ILLUM (F32.div (getTileIllumination w.terrainShaderType psTile) 4)
        else 0 }
  if w.tileVisible i then
    { psTile1 with level := getTileIllumination w.terrainShaderType psTile1 }
  else psTile1

/-- Function `preProcessVisibility` of `advvis.cpp`: the two nested loops over
`i < mapWidth` and `j < mapHeight`. -/
def preProcessVisibility (w : World) : World :=
  { w with
    psMapTiles :=
      (List.range w.mapWidth).foldl
        (fun tiles i =>
          (List.range w.mapHeight).foldl
            (fun tiles j =>
              Function.update tiles (mapTile w i j)
                (preProcessTile w (mapTile w i j) (tiles (mapTile w i j))))
            tiles)
        w.psMapTiles }

/-- The world after `n` frames with the same increment. -/
def avUpdateTilesN (w : World) (increment : ℚ) : ℕ → World
  | 0 => w
  | n + 1 => avUpdateTiles (avUpdateTilesN w increment n) increment

/-- The new level lies between the old level and the target, and is no farther
from the target than the old level. -/
def NoOvershoot (old new target : ℚ) : Prop :=
  |new - target| ≤ |old - target| ∧ min old target ≤ new ∧ new ≤ max old target

/-- The tile of the scenario of the spec: ambient occlusion 100, explored by
player 0, seen by no sensor, level 0. -/
def scenarioTile : MAPTILE :=
  { tileExploredBits := 1, sensorBits := 0, illumination := 100,
    ambientOcclusion := 100, level := 0 }

/-- A one-tile world around the tile `t`: `SINGLE_PASS` shading, reveal flag on,
player 0 selected and allied with itself only, no satellite uplink, god mode
off, the tile not visible to the selected player. -/
def oneTileWorld (t : MAPTILE) : World :=
  { mapWidth := 1, mapHeight := 1, psMapTiles := fun _ => t,
    bRevealActive := true, terrainShaderType := TerrainShaderType.SINGLE_PASS,
    selectedPlayer := 0, MAX_PLAYER_SLOTS := 8, alliancebits := fun p => 1 <<< p,
    satuplinkbits := 0, godMode := false, tileVisible := fun _ => false }

/-- The one-tile world of the scenario of the spec. -/
def scenarioWorld : World := oneTileWorld scenarioTile

/-- An unexplored tile above the threshold: illumination 40, seen by no sensor,
level 60. -/
def stallTile : MAPTILE :=
  { tileExploredBits := 0, sensorBits := 0, illumination := 40,
    ambientOcclusion := 40, level := 60 }

/-- The one-tile world of `stallTile`. -/
def stallWorld : World := oneTileWorld stallTile

/-- An explored tile two levels above its target: illumination 180, seen by no
sensor, level 92. -/
def driftTile : MAPTILE :=
  { tileExploredBits := 1, sensorBits := 0, illumination := 180,
    ambientOcclusion := 180, level := 92 }

/-- The one-tile world of `driftTile`. -/
def driftWorld : World := oneTileWorld driftTile

/-- The `float` nearest to two thirds, `0.6666667f`. -/
def twoThirds : ℚ := 11184811 / 16777216

/-- The world of `scenarioWorld` in `FALLBACK` shading with the reveal flag off
and its tile visible to the selected player. -/
def visibleWorld : World :=
  { scenarioWorld with
    bRevealActive := false
    terrainShaderType := TerrainShaderType.FALLBACK
    tileVisible := fun _ => true }

/-- An unexplored tile below the threshold: ambient occlusion 100, level 10. -/
def darkTile : MAPTILE := { scenarioTile with tileExploredBits := 0, level := 10 }

/-- The one-tile world of `darkTile`. -/
def darkWorld : World := oneTileWorld darkTile

/-- The tile of the scenario at level 10. -/
def dimTile : MAPTILE := { scenarioTile with level := 10 }

/-- The one-tile world of `dimTile`. -/
def dimWorld : World := oneTileWorld dimTile

/-- The `float` nearest to one tenth, `0.1f`. -/
def oneTenth : ℚ := 13421773 / 134217728

/-- The world after a run of frames, one increment per frame. -/
def avUpdateTilesSeq (w : World) (increments : List ℚ) : World :=
  increments.foldl avUpdateTiles w

/-- A tile explored by player 9 and covered by the sensors of every player:
ambient occlusion 100, level 0. -/
def watchedTile : MAPTILE :=
  { tileExploredBits := 512, sensorBits := 1023, illumination := 100,
    ambientOcclusion := 100, level := 0 }

/-- A one-tile world whose selected player, 9, is beyond the 8 player slots;
every player has a satellite uplink and the alliance table is full. -/
def spectatorWorld : World :=
  { oneTileWorld watchedTile with
    selectedPlayer := 9
    alliancebits := fun _ => 1023
    satuplinkbits := 1023 }

/-- The level after `n` exact steps of the increment from `level` toward
`target`, before any clamping against the target. -/
def idealLevel (level target increment : ℚ) (n : ℕ) : ℚ :=
  if target ≤ level then level - n * increment else level + n * increment

/-- An unexplored tile well above the threshold: ambient occlusion 100, seen by
no sensor, level 90. -/
def brightTile : MAPTILE :=
  { tileExploredBits := 0, sensorBits := 0, illumination := 100,
    ambientOcclusion := 100, level := 90 }

/-- The one-tile world of `brightTile`. -/
def brightWorld : World := oneTileWorld brightTile

/-- The tile of the scenario under a sensor of player 0. -/
def sensedTile : MAPTILE := { scenarioTile with sensorBits := 1 }

/-- The one-tile world of `sensedTile`. -/
def sensedWorld : World := oneTileWorld sensedTile

/-- The world of the scenario with player 1 selected, allied with player 0 (its
alliance bits are 3), and the tile explored by player 1 and under a sensor of
player 0 only. -/
def allyWorld : World :=
  { mapWidth := 1, mapHeight := 1,
    psMapTiles := fun _ => { scenarioTile with tileExploredBits := 2, sensorBits := 1 },
    bRevealActive := true, terrainShaderType := TerrainShaderType.SINGLE_PASS,
    selectedPlayer := 1, MAX_PLAYER_SLOTS := 8, alliancebits := fun _ => 3,
    satuplinkbits := 0, godMode := false, tileVisible := fun _ => false }

/-- The world of the scenario with a satellite uplink of player 0. -/
def uplinkWorld : World :=
  { mapWidth := 1, mapHeight := 1, psMapTiles := fun _ => scenarioTile,
    bRevealActive := true, terrainShaderType := TerrainShaderType.SINGLE_PASS,
    selectedPlayer := 0, MAX_PLAYER_SLOTS := 8, alliancebits := fun p => 1 <<< p,
    satuplinkbits := 1, godMode := false, tileVisible := fun _ => false }

/-- The world of the scenario in god mode. -/
def godWorld : World :=
  { mapWidth := 1, mapHeight := 1, psMapTiles := fun _ => scenarioTile,
    bRevealActive := true, terrainShaderType := TerrainShaderType.SINGLE_PASS,
    selectedPlayer := 0, MAX_PLAYER_SLOTS := 8, alliancebits := fun p => 1 <<< p,
    satuplinkbits := 0, godMode := true, tileVisible := fun _ => false }

/-- A dark tile explored by player 8 only: ambient occlusion 100, seen by no
sensor, level 0. -/
def neighbourTile : MAPTILE :=
  { tileExploredBits := 256, sensorBits := 0, illumination := 100,
    ambientOcclusion := 100, level := 0 }

/-- A one-tile world around `neighbourTile` whose selected player, 40, is
beyond the 8 player slots and beyond the 32 bits of `int`. -/
def farSpectatorWorld : World :=
  { mapWidth := 1, mapHeight := 1, psMapTiles := fun _ => neighbourTile,
    bRevealActive := true, terrainShaderType := TerrainShaderType.SINGLE_PASS,
    selectedPlayer := 40, MAX_PLAYER_SLOTS := 8, alliancebits := fun p => 1 <<< p,
    satuplinkbits := 0, godMode := false, tileVisible := fun _ => false }

/-! Target selection weights (`src/ai.h`). -/

/-- Constant `WEIGHT_DIST_TILE` of `ai.h`. -/
def WEIGHT_DIST_TILE : ℤ := 11

/-- Constant `WEIGHT_DIST_TILE_DROID` of `ai.h`. -/
def WEIGHT_DIST_TILE_DROID : ℤ := WEIGHT_DIST_TILE

/-- Constant `WEIGHT_DIST_TILE_STRUCT` of `ai.h`. -/
def WEIGHT_DIST_TILE_STRUCT : ℤ := WEIGHT_DIST_TILE

/-- Constant `WEIGHT_HEALTH_DROID` of `ai.h`. -/
def WEIGHT_HEALTH_DROID : ℤ := WEIGHT_DIST_TILE

/-- Constant `WEIGHT_HEALTH_STRUCT` of `ai.h`. -/
def WEIGHT_HEALTH_STRUCT : ℤ := WEIGHT_DIST_TILE

/-- Constant `WEIGHT_NOT_VISIBLE_F` of `ai.h`. -/
def WEIGHT_NOT_VISIBLE_F : ℤ := 10

/-- Constant `WEIGHT_SERVICE_DROIDS` of `ai.h`. -/
def WEIGHT_SERVICE_DROIDS : ℤ := WEIGHT_DIST_TILE_DROID * 5

/-- Constant `WEIGHT_WEAPON_DROIDS` of `ai.h`. -/
def WEIGHT_WEAPON_DROIDS : ℤ := WEIGHT_DIST_TILE_DROID * 3

/-- Constant `WEIGHT_MILITARY_STRUCT` of `ai.h`. -/
def WEIGHT_MILITARY_STRUCT : ℤ := WEIGHT_DIST_TILE_STRUCT

/-- Constant `WEIGHT_WEAPON_STRUCT` of `ai.h`. -/
def WEIGHT_WEAPON_STRUCT : ℤ := WEIGHT_WEAPON_DROIDS

/-- Constant `WEIGHT_DERRICK_STRUCT` of `ai.h`. -/
def WEIGHT_DERRICK_STRUCT : ℤ := WEIGHT_WEAPON_STRUCT + WEIGHT_DIST_TILE_STRUCT * 4

/-- Constant `WEIGHT_STRUCT_NOTBUILT_F` of `ai.h`. -/
def WEIGHT_STRUCT_NOTBUILT_F : ℤ := 8

/-- Constant `OLD_TARGET_THRESHOLD` of `ai.h`. -/
def OLD_TARGET_THRESHOLD : ℤ := WEIGHT_DIST_TILE * 4

/-- The two object types of the data model of the spec. -/
inductive ObjectType where
  | DROID
  | STRUCTURE
  deriving DecidableEq, Repr

/-- The roles of the data model of the spec. -/
inductive ObjectRole where
  | GENERIC
  | SERVICE
  | WEAPON
  | MILITARY_STRUCTURE
  | WEAPON_STRUCTURE
  | RESOURCE_STRUCTURE
  deriving DecidableEq, Repr

/-- Modelled from the spec: the `GameObject` of its data model, as far as the
target scorer reads it; the object model is not among the sources at hand.
`tileDistance` is the value of the external tile-distance function between the
scoring unit and the object. -/
structure GameObject where
  /-- Droid or structure. -/
  type : ObjectType
  /-- Role of the object. -/
  role : ObjectRole
  /-- Health, from 0 to 1. -/
  healthFraction : ℚ
  /-- Build completion, from 0 to 1 (1 is fully built). -/
  buildCompletionFraction : ℚ
  /-- Whether the observer sees the object. -/
  isCurrentlyVisibleToObserver : Bool
  /-- Distance from the scoring unit, in tiles. -/
  tileDistance : ℕ

/-- Modelled from the spec: the cost of a candidate of `aiBestNearestTarget`,
whose body is not among the sources at hand.  The spec has all terms additive,
in tile-distance units (the visibility penalty too, as in the scenario it
computes): the tile distance times the distance weight of the
object type; minus the health weight per 10% of damage; plus
`WEIGHT_NOT_VISIBLE_F` for an object that is not visible; minus
`WEIGHT_SERVICE_DROIDS` for a service droid, `WEIGHT_WEAPON_DROIDS` or
`WEIGHT_WEAPON_STRUCT` for an object that carries a weapon and
`WEIGHT_DERRICK_STRUCT` for a resource-extraction structure (the spec names no
adjustment for the other roles); plus `WEIGHT_STRUCT_NOTBUILT_F` times the
unbuilt fraction of a structure. -/
def targetCost (c : GameObject) : ℚ :=
  let distanceCost : ℚ :=
    (c.tileDistance : ℚ) *
      (match c.type with
        | ObjectType.DROID => (WEIGHT_DIST_TILE_DROID : ℚ)
        | ObjectType.STRUCTURE => (WEIGHT_DIST_TILE_STRUCT : ℚ))
  let damageBonus : ℚ :=
    -((100 - c.healthFraction * 100) / 10 *
      (match c.type with
        | ObjectType.DROID => (WEIGHT_HEALTH_DROID : ℚ)
        | ObjectType.STRUCTURE => (WEIGHT_HEALTH_STRUCT : ℚ)))
  let visibilityPenalty : ℚ :=
    if c.isCurrentlyVisibleToObserver then 0 else (WEIGHT_NOT_VISIBLE_F : ℚ)
  let roleAdjustment : ℚ :=
    match c.role with
    | ObjectRole.SERVICE => -(WEIGHT_SERVICE_DROIDS : ℚ)
    | ObjectRole.WEAPON => -(WEIGHT_WEAPON_DROIDS : ℚ)
    | ObjectRole.WEAPON_STRUCTURE => -(WEIGHT_WEAPON_STRUCT : ℚ)
    | ObjectRole.RESOURCE_STRUCTURE => -(WEIGHT_DERRICK_STRUCT : ℚ)
    | ObjectRole.GENERIC => 0
    | ObjectRole.MILITARY_STRUCTURE => 0
  let notBuiltPenalty : ℚ :=
    match c.type with
    | ObjectType.DROID => 0
    | ObjectType.STRUCTURE => (WEIGHT_STRUCT_NOTBUILT_F : ℚ) * (1 - c.buildCompletionFraction)
  distanceCost + damageBonus + visibilityPenalty + roleAdjustment + notBuiltPenalty

/-- Modelled from the spec: the selection of `aiBestNearestTarget`, whose body is
not among the sources at hand.  The candidates that fail the external
eligibility test are skipped; the lowest cost wins, a later candidate replacing
the best one only with a strictly lower cost; the result is the target and its
cost, or `none` when no candidate is eligible. -/
def selectBestTarget (eligible : GameObject → Bool) (candidates : List GameObject) :
    Option (GameObject × ℚ) :=
  (candidates.filter eligible).foldl
    (fun best c =>
      match best with
      | none => some (c, targetCost c)
      | some (b, cb) => if targetCost c < cb then some (c, targetCost c) else some (b, cb))
    none

/-- Modelled from the spec: the target-switch hysteresis of
`aiBestNearestTarget`, whose body is not among the sources at hand.  A unit that
has a target switches to the new best candidate only if
`existingCost - newCost > OLD_TARGET_THRESHOLD`. -/
def switchesTarget (existingCost newCost : ℚ) : Bool :=
  decide (existingCost - newCost > (OLD_TARGET_THRESHOLD : ℚ))

/-- A droid at full health that the observer does not see. -/
def hiddenDroid (role : ObjectRole) (tileDistance : ℕ) : GameObject :=
  { type := ObjectType.DROID, role := role, healthFraction := 1,
    buildCompletionFraction := 1, isCurrentlyVisibleToObserver := false,
    tileDistance := tileDistance }

/-- A structure, visible and intact and fully built. -/
def builtStructure (role : ObjectRole) (tileDistance : ℕ) : GameObject :=
  { type := ObjectType.STRUCTURE, role := role, healthFraction := 1,
    buildCompletionFraction := 1, isCurrentlyVisibleToObserver := true,
    tileDistance := tileDistance }

/-! ## Binary32 rounding -/

namespace F32

theorem rne_floor_le (q : ℚ) : ⌊q⌋ ≤ rne q := by
  unfold rne; split_ifs <;> omega

theorem rne_le_floor_succ (q : ℚ) : rne q ≤ ⌊q⌋ + 1 := by
  unfold rne; split_ifs <;> omega

theorem rne_intCast (n : ℤ) : rne (n : ℚ) = n := by
  unfold rne; simp

theorem rne_mono {a b : ℚ} (h : a ≤ b) : rne a ≤ rne b := by
  rcases (Int.floor_mono h).lt_or_eq with hlt | heq
  · calc rne a ≤ ⌊a⌋ + 1 := rne_le_floor_succ a
      _ ≤ ⌊b⌋ := hlt
      _ ≤ rne b := rne_floor_le b
  · unfold rne
    rw [heq]
    have hab : a - (⌊b⌋ : ℚ) ≤ b - ⌊b⌋ := by linarith
    split_ifs <;> first | omega | (exfalso; linarith)

theorem rne_neg (q : ℚ) : rne (-q) = - rne q := by
  unfold rne
  by_cases hq : (⌊q⌋ : ℚ) = q
  · have h1 : ⌊-q⌋ = -⌊q⌋ := by
      rw [← hq, ← Int.cast_neg, Int.floor_intCast, Int.floor_intCast]
    rw [h1]; push_cast; rw [hq]; simp
  · have hlt : (⌊q⌋ : ℚ) < q := lt_of_le_of_ne (Int.floor_le q) hq
    have hlt2 : q < ⌊q⌋ + 1 := Int.lt_floor_add_one q
    have h1 : ⌊-q⌋ = -⌊q⌋ - 1 := by
      rw [Int.floor_eq_iff]; push_cast; constructor <;> linarith
    rw [h1]; push_cast
    split_ifs <;> first | omega | (exfalso; linarith)

theorem ulpExp_neg (x : ℚ) : ulpExp (-x) = ulpExp x := by
  simp [ulpExp]

theorem rnd_neg (x : ℚ) : rnd (-x) = - rnd x := by
  unfold rnd
  rw [ulpExp_neg, neg_mul, neg_div, rne_neg]
  push_cast; ring

theorem rnd_zero : rnd 0 = 0 := by
  simp [rnd, rne]

theorem rnd_nonneg {x : ℚ} (h : 0 ≤ x) : 0 ≤ rnd x := by
  unfold rnd
  have h1 : (0 : ℤ) ≤ rne (x * 2 ^ 149 / 2 ^ ulpExp x) := by
    calc (0 : ℤ) = rne ((0 : ℤ) : ℚ) := (rne_intCast 0).symm
      _ ≤ _ := rne_mono (by push_cast; positivity)
  have h2 : (0 : ℚ) ≤ (rne (x * 2 ^ 149 / 2 ^ ulpExp x) : ℚ) := by exact_mod_cast h1
  positivity

/-- Upper end of the binade selected by `ulpExp`. -/
theorem scaled_lt {x : ℚ} (h : 0 ≤ x) : x * 2 ^ 149 < 2 ^ (ulpExp x + 24) := by
  have hlog : Nat.log 2 ⌊|x| * 2 ^ 149⌋₊ ≤ ulpExp x + 23 := by
    unfold ulpExp; omega
  have h1 : ⌊|x| * 2 ^ 149⌋₊ < 2 ^ (ulpExp x + 24) :=
    lt_of_lt_of_le (Nat.lt_pow_succ_log_self (by norm_num) _)
      (Nat.pow_le_pow_right (by norm_num) (by omega))
  rw [abs_of_nonneg h] at h1
  have h2 := (Nat.floor_lt (by positivity)).1 h1
  exact_mod_cast h2

/-- Lower end of the binade selected by `ulpExp`, outside the subnormal range. -/
theorem scaled_ge {x : ℚ} (h : 0 ≤ x) (hs : 0 < ulpExp x) :
    (2 : ℚ) ^ (ulpExp x + 23) ≤ x * 2 ^ 149 := by
  have hlog : Nat.log 2 ⌊|x| * 2 ^ 149⌋₊ = ulpExp x + 23 := by
    unfold ulpExp at hs ⊢; omega
  have hne : ⌊|x| * 2 ^ 149⌋₊ ≠ 0 := by
    intro h0; rw [h0] at hlog; simp at hlog
  have h1 : 2 ^ (ulpExp x + 23) ≤ ⌊|x| * 2 ^ 149⌋₊ := by
    rw [← hlog]; exact Nat.pow_log_le_self 2 hne
  rw [abs_of_nonneg h] at h1
  have h2 : ((2 ^ (ulpExp x + 23) : ℕ) : ℚ) ≤ x * 2 ^ 149 :=
    le_trans (by exact_mod_cast h1) (Nat.floor_le (by positivity))
  exact_mod_cast h2

theorem ulpExp_mono {x y : ℚ} (hx : 0 ≤ x) (hxy : x ≤ y) : ulpExp x ≤ ulpExp y := by
  unfold ulpExp
  apply Nat.sub_le_sub_right
  apply Nat.log_mono_right
  apply Nat.floor_mono
  rw [abs_of_nonneg hx, abs_of_nonneg (le_trans hx hxy)]
  exact mul_le_mul_of_nonneg_right hxy (by positivity)

theorem rnd_mono_nonneg {x y : ℚ} (hx : 0 ≤ x) (hxy : x ≤ y) : rnd x ≤ rnd y := by
  have hy : 0 ≤ y := le_trans hx hxy
  rcases (ulpExp_mono hx hxy).lt_or_eq with hlt | heq
  · have hxs := scaled_lt hx
    have hys := scaled_ge hy (by omega)
    have h1 : rne (x * 2 ^ 149 / 2 ^ ulpExp x) ≤ 2 ^ 24 := by
      have hle : x * 2 ^ 149 / 2 ^ ulpExp x ≤ ((2 ^ 24 : ℤ) : ℚ) := by
        rw [div_le_iff₀ (by positivity)]
        have e : ((2 ^ 24 : ℤ) : ℚ) * 2 ^ ulpExp x = 2 ^ (ulpExp x + 24) := by
          push_cast; ring
        rw [e]; exact hxs.le
      have := rne_mono hle
      rwa [rne_intCast] at this
    have h2 : 2 ^ 23 ≤ rne (y * 2 ^ 149 / 2 ^ ulpExp y) := by
      have hle : ((2 ^ 23 : ℤ) : ℚ) ≤ y * 2 ^ 149 / 2 ^ ulpExp y := by
        rw [le_div_iff₀ (by positivity)]
        have e : ((2 ^ 23 : ℤ) : ℚ) * 2 ^ ulpExp y = 2 ^ (ulpExp y + 23) := by
          push_cast; ring
        rw [e]; exact hys
      have := rne_mono hle
      rwa [rne_intCast] at this
    have h1q : (rne (x * 2 ^ 149 / 2 ^ ulpExp x) : ℚ) ≤ 2 ^ 24 := by exact_mod_cast h1
    have h2q : (2 : ℚ) ^ 23 ≤ (rne (y * 2 ^ 149 / 2 ^ ulpExp y) : ℚ) := by exact_mod_cast h2
    unfold rnd
    apply div_le_div_of_nonneg_right _ (by positivity)
    calc (rne (x * 2 ^ 149 / 2 ^ ulpExp x) : ℚ) * 2 ^ ulpExp x
        ≤ 2 ^ 24 * 2 ^ ulpExp x := by gcongr
      _ = 2 ^ 23 * 2 ^ (ulpExp x + 1) := by ring
      _ ≤ 2 ^ 23 * 2 ^ ulpExp y := by
          gcongr
          · norm_num
          · omega
      _ ≤ (rne (y * 2 ^ 149 / 2 ^ ulpExp y) : ℚ) * 2 ^ ulpExp y := by gcongr
  · unfold rnd
    rw [heq]
    apply div_le_div_of_nonneg_right _ (by positivity)
    apply mul_le_mul_of_nonneg_right _ (by positivity)
    exact_mod_cast rne_mono (by gcongr)

theorem rnd_mono {x y : ℚ} (hxy : x ≤ y) : rnd x ≤ rnd y := by
  rcases le_total 0 x with hx | hx
  · exact rnd_mono_nonneg hx hxy
  · rcases le_total 0 y with hy | hy
    · have h1 : rnd x ≤ 0 := by
        have := rnd_nonneg (neg_nonneg.2 hx)
        rw [rnd_neg] at this; linarith
      exact le_trans h1 (rnd_nonneg hy)
    · have := rnd_mono_nonneg (neg_nonneg.2 hy) (neg_le_neg hxy)
      rw [rnd_neg, rnd_neg] at this
      linarith

/-- A number with an integer significand of at most 24 bits above the subnormal
quantum is a fixed point of the rounding. -/
theorem rnd_natMant (n e : ℕ) (hn : n ≤ 2 ^ 24) :
    rnd ((n : ℚ) * 2 ^ e / 2 ^ 149) = (n : ℚ) * 2 ^ e / 2 ^ 149 := by
  have hY : (n : ℚ) * 2 ^ e / 2 ^ 149 * 2 ^ 149 = (n : ℚ) * 2 ^ e := by field_simp
  have hx0 : (0 : ℚ) ≤ (n : ℚ) * 2 ^ e / 2 ^ 149 := by positivity
  have hfl : ⌊|(n : ℚ) * 2 ^ e / 2 ^ 149| * 2 ^ 149⌋₊ = n * 2 ^ e := by
    rw [abs_of_nonneg hx0, hY]
    have : ((n * 2 ^ e : ℕ) : ℚ) = (n : ℚ) * 2 ^ e := by push_cast; ring
    rw [← this, Nat.floor_natCast]
  have hs : ulpExp ((n : ℚ) * 2 ^ e / 2 ^ 149) = Nat.log 2 (n * 2 ^ e) - 23 := by
    unfold ulpExp; rw [hfl]
  obtain ⟨k, hk⟩ : ∃ k : ℤ,
      (n : ℚ) * 2 ^ e / 2 ^ ulpExp ((n : ℚ) * 2 ^ e / 2 ^ 149) = (k : ℚ) := by
    rw [hs]
    by_cases hse : Nat.log 2 (n * 2 ^ e) - 23 ≤ e
    · refine ⟨(n : ℤ) * 2 ^ (e - (Nat.log 2 (n * 2 ^ e) - 23)), ?_⟩
      have h2 : (2 : ℚ) ^ e
          = 2 ^ (e - (Nat.log 2 (n * 2 ^ e) - 23)) * 2 ^ (Nat.log 2 (n * 2 ^ e) - 23) := by
        rw [← pow_add, Nat.sub_add_cancel hse]
      rw [h2]; push_cast; field_simp
      rw [mul_assoc]
    · have hlog : e + 24 ≤ Nat.log 2 (n * 2 ^ e) := by omega
      have hne : n * 2 ^ e ≠ 0 := by
        intro h0; rw [h0] at hlog; simp at hlog
      have h1 : 2 ^ (e + 24) ≤ n * 2 ^ e :=
        le_trans (Nat.pow_le_pow_right (by norm_num) hlog) (Nat.pow_log_le_self 2 hne)
      have h3 : 2 ^ 24 ≤ n := by
        rw [pow_add, Nat.mul_comm] at h1
        exact Nat.le_of_mul_le_mul_right h1 (by positivity)
      have hn24 : n = 2 ^ 24 := le_antisymm hn h3
      have hlog2 : Nat.log 2 (n * 2 ^ e) = 24 + e := by
        rw [hn24, ← pow_add]; exact Nat.log_pow (by norm_num) _
      refine ⟨2 ^ 23, ?_⟩
      have h4 : Nat.log 2 (n * 2 ^ e) - 23 = e + 1 := by omega
      rw [h4, hn24]; push_cast
      rw [pow_succ]; field_simp; ring
  unfold rnd
  rw [hY, hk, rne_intCast, ← hk]
  field_simp

theorem rnd_natCast (n : ℕ) (hn : n ≤ 2 ^ 24) : rnd (n : ℚ) = n := by
  have h := rnd_natMant n 149 hn
  have e : (n : ℚ) * 2 ^ 149 / 2 ^ 149 = n := by field_simp
  rwa [e] at h

theorem rnd_idem_nonneg {x : ℚ} (hx : 0 ≤ x) : rnd (rnd x) = rnd x := by
  have h0 : (0 : ℤ) ≤ rne (x * 2 ^ 149 / 2 ^ ulpExp x) := by
    calc (0 : ℤ) = rne ((0 : ℤ) : ℚ) := (rne_intCast 0).symm
      _ ≤ _ := rne_mono (by push_cast; positivity)
  have h1 : rne (x * 2 ^ 149 / 2 ^ ulpExp x) ≤ 2 ^ 24 := by
    have hle : x * 2 ^ 149 / 2 ^ ulpExp x ≤ ((2 ^ 24 : ℤ) : ℚ) := by
      rw [div_le_iff₀ (by positivity)]
      have e : ((2 ^ 24 : ℤ) : ℚ) * 2 ^ ulpExp x = 2 ^ (ulpExp x + 24) := by
        push_cast; ring
      rw [e]; exact (scaled_lt hx).le
    have := rne_mono hle
    rwa [rne_intCast] at this
  obtain ⟨n, hn⟩ := Int.eq_ofNat_of_zero_le h0
  have hn24 : n ≤ 2 ^ 24 := by
    rw [hn] at h1; exact_mod_cast h1
  have hr : rnd x = (n : ℚ) * 2 ^ ulpExp x / 2 ^ 149 := by
    unfold rnd; rw [hn]; push_cast; rfl
  rw [hr]
  exact rnd_natMant n _ hn24

theorem rnd_idem (x : ℚ) : rnd (rnd x) = rnd x := by
  rcases le_total 0 x with hx | hx
  · exact rnd_idem_nonneg hx
  · have := rnd_idem_nonneg (neg_nonneg.2 hx)
    rw [rnd_neg, rnd_neg] at this
    linarith

theorem isF32_natCast (n : ℕ) (hn : n ≤ 2 ^ 24) : IsF32 (n : ℚ) := by
  refine ⟨rnd_natCast n hn, ?_⟩
  rw [abs_of_nonneg (by positivity)]
  have : (n : ℚ) ≤ 2 ^ 24 := by exact_mod_cast hn
  exact lt_of_le_of_lt this (by norm_num)

theorem rnd_sub_le {a b : ℚ} (ha : rnd a = a) (hb : 0 ≤ b) : rnd (a - b) ≤ a := by
  have := rnd_mono (sub_le_self a hb)
  rwa [ha] at this

theorem le_rnd_add {a b : ℚ} (ha : rnd a = a) (hb : 0 ≤ b) : a ≤ rnd (a + b) := by
  have := rnd_mono (le_add_of_nonneg_right hb : a ≤ a + b)
  rwa [ha] at this

end F32

/-! ## The two loops, tile by tile -/

/-- A fold that rewrites the entries of a list of indices one after the other
rewrites entry `k` once, provided no index is listed twice or the rewriting of
an entry is idempotent. -/
theorem foldl_update_apply {α : Type} (g : ℕ → α → α) (L : List ℕ)
    (h : L.Nodup ∨ ∀ k a, g k (g k a) = g k a) (tiles : ℕ → α) (k : ℕ) :
    L.foldl (fun t i => Function.update t i (g i (t i))) tiles k =
      if k ∈ L then g k (tiles k) else tiles k := by
  induction L generalizing tiles with
  | nil => simp
  | cons i L ih =>
    have h2 : L.Nodup ∨ ∀ k a, g k (g k a) = g k a := by
      rcases h with h | h
      · exact Or.inl (List.nodup_cons.1 h).2
      · exact Or.inr h
    rw [List.foldl_cons, ih h2]
    by_cases hki : k = i
    · subst hki
      simp only [Function.update_same, List.mem_cons, true_or, if_true]
      split_ifs with hmem
      · rcases h with h | h
        · exact absurd hmem (List.nodup_cons.1 h).1
        · exact h k (tiles k)
      · rfl
    · simp [Function.update_noteq hki, hki]

theorem avUpdateTiles_tile (w : World) (increment : ℚ) (k : ℕ) :
    (avUpdateTiles w increment).psMapTiles k =
      if k < w.mapHeight * w.mapWidth then avUpdateTile w increment (w.psMapTiles k)
      else w.psMapTiles k := by
  unfold avUpdateTiles
  simp only
  rw [foldl_update_apply (fun _ t => avUpdateTile w increment t) _
    (Or.inl (List.nodup_range _))]
  simp [List.mem_range]

theorem preProcessTile_idem (w : World) (k : ℕ) (t : MAPTILE) :
    preProcessTile w k (preProcessTile w k t) = preProcessTile w k t := by
  unfold preProcessTile
  cases w.terrainShaderType <;> cases w.tileVisible k <;> cases w.bRevealActive <;>
    simp [getTileIllumination]

theorem preProcess_rows (w : World) (L : List ℕ) (tiles : ℕ → MAPTILE) (k : ℕ) :
    L.foldl
        (fun tiles i =>
          (List.range w.mapHeight).foldl
            (fun tiles j =>
              Function.update tiles (mapTile w i j)
                (preProcessTile w (mapTile w i j) (tiles (mapTile w i j))))
            tiles)
        tiles k =
      if ∃ i ∈ L, ∃ j < w.mapHeight, k = mapTile w i j then preProcessTile w k (tiles k)
      else tiles k := by
  induction L generalizing tiles with
  | nil => simp
  | cons i L ih =>
    rw [List.foldl_cons, ih]
    have hinner : ∀ (t : ℕ → MAPTILE) (k : ℕ),
        (List.range w.mapHeight).foldl
            (fun tiles j =>
              Function.update tiles (mapTile w i j)
                (preProcessTile w (mapTile w i j) (tiles (mapTile w i j))))
            t k =
          if ∃ j < w.mapHeight, k = mapTile w i j then preProcessTile w k (t k) else t k := by
      intro t k
      have := foldl_update_apply (preProcessTile w) ((List.range w.mapHeight).map (mapTile w i))
        (Or.inr (preProcessTile_idem w)) t k
      rw [List.foldl_map] at this
      rw [this]
      simp only [List.mem_map, List.mem_range]
      apply if_congr _ rfl rfl
      constructor
      · rintro ⟨j, hj, rfl⟩; exact ⟨j, hj, rfl⟩
      · rintro ⟨j, hj, rfl⟩; exact ⟨j, hj, rfl⟩
    rw [hinner]
    by_cases h1 : ∃ j < w.mapHeight, k = mapTile w i j
    · have h2 : ∃ i' ∈ i :: L, ∃ j < w.mapHeight, k = mapTile w i' j :=
        ⟨i, List.mem_cons_self _ _, h1⟩
      rw [if_pos h1, if_pos h2, preProcessTile_idem]
      simp
    · rw [if_neg h1]
      apply if_congr _ rfl rfl
      constructor
      · rintro ⟨i', hi', hj⟩; exact ⟨i', List.mem_cons_of_mem _ hi', hj⟩
      · rintro ⟨i', hi', hj⟩
        rcases List.mem_cons.1 hi' with rfl | hi''
        · exact absurd hj h1
        · exact ⟨i', hi'', hj⟩

theorem preProcessVisibility_tile (w : World) (k : ℕ) :
    (preProcessVisibility w).psMapTiles k =
      if k < w.mapWidth * w.mapHeight then preProcessTile w k (w.psMapTiles k)
      else w.psMapTiles k := by
  unfold preProcessVisibility
  simp only
  rw [preProcess_rows]
  apply if_congr _ rfl rfl
  constructor
  · rintro ⟨i, hi, j, hj, rfl⟩
    rw [List.mem_range] at hi
    unfold mapTile
    calc i + j * w.mapWidth < w.mapWidth + j * w.mapWidth := by omega
      _ = (j + 1) * w.mapWidth := by ring
      _ ≤ w.mapHeight * w.mapWidth := Nat.mul_le_mul_right _ hj
      _ = w.mapWidth * w.mapHeight := Nat.mul_comm _ _
  · intro hk
    have hW : 0 < w.mapWidth := by
      rcases Nat.eq_zero_or_pos w.mapWidth with h0 | h0
      · rw [h0] at hk; simp at hk
      · exact h0
    refine ⟨k % w.mapWidth, List.mem_range.2 (Nat.mod_lt _ hW), k / w.mapWidth, ?_, ?_⟩
    · exact (Nat.div_lt_iff_lt_mul hW).2 (by rwa [Nat.mul_comm] at hk)
    · unfold mapTile
      rw [Nat.mul_comm]; exact (Nat.mod_add_div k w.mapWidth).symm

/-! ## The fade step on one tile -/

theorem avUpdateTile_level_between (w : World) (increment : ℚ) (t : MAPTILE)
    (hinc : 0 ≤ increment) (ht : F32.rnd t.level = t.level) :
    min t.level (tileMaxLevel w t) ≤ (avUpdateTile w increment t).level ∧
      (avUpdateTile w increment t).level ≤ max t.level (tileMaxLevel w t) := by
  have hsub := F32.rnd_sub_le ht hinc
  have hadd := F32.le_rnd_add ht hinc
  unfold avUpdateTile
  simp only [F32.sub, F32.add, MAX, MIN]
  split_ifs with h1 h2 h3 h4 h5
  all_goals simp only [le_max_iff, min_le_iff, le_refl, true_or, or_true, and_self]
  all_goals first
    | exact ⟨Or.inr h3.le, Or.inl hsub⟩
    | exact ⟨Or.inr le_rfl, Or.inl (le_of_lt h2)⟩
    | exact ⟨Or.inl hadd, Or.inr h5.le⟩

theorem noOvershoot_of_between {old new target : ℚ}
    (h : min old target ≤ new ∧ new ≤ max old target) : NoOvershoot old new target := by
  refine ⟨?_, h.1, h.2⟩
  rcases le_total old target with hle | hle
  · rw [min_eq_left hle] at h
    rw [max_eq_right hle] at h
    rw [abs_of_nonpos (by linarith), abs_of_nonpos (by linarith)]
    linarith
  · rw [min_eq_right hle] at h
    rw [max_eq_left hle] at h
    rw [abs_of_nonneg (by linarith), abs_of_nonneg (by linarith)]
    linarith

/-- Claim C1 (no overshoot): one call of `avUpdateTiles` with an increment
`>= 0` leaves the level of every tile between its old level and the target of
the frame (the tile illumination, halved for an unwatched tile), and no farther
from that target than it was. -/
theorem avUpdateTiles_no_overshoot (w : World) (increment : ℚ) (i : ℕ)
    (hinc : 0 ≤ increment) (hlevel : F32.IsF32 (w.psMapTiles i).level) :
    NoOvershoot (w.psMapTiles i).level ((avUpdateTiles w increment).psMapTiles i).level
      (tileMaxLevel w (w.psMapTiles i)) := by
  apply noOvershoot_of_between
  rw [avUpdateTiles_tile]
  split_ifs
  · exact avUpdateTile_level_between w increment _ hinc hlevel.1
  · exact ⟨min_le_left _ _, le_max_left _ _⟩

theorem avUpdateTiles_no_overshoot_witness :
    (0 : ℚ) ≤ 20 ∧ F32.IsF32 (scenarioWorld.psMapTiles 0).level ∧
      NoOvershoot (scenarioWorld.psMapTiles 0).level
        ((avUpdateTiles scenarioWorld 20).psMapTiles 0).level
        (tileMaxLevel scenarioWorld (scenarioWorld.psMapTiles 0)) :=
  ⟨by norm_num, by simpa [scenarioWorld, oneTileWorld, scenarioTile] using F32.isF32_natCast 0 (by norm_num),
    avUpdateTiles_no_overshoot scenarioWorld 20 0 (by norm_num)
      (by simpa [scenarioWorld, oneTileWorld, scenarioTile] using F32.isF32_natCast 0 (by norm_num))⟩

/-! ## Frames in sequence -/

/-- Where C++ defines the shift, for a selected player below 32, the mask of the
loop is the single bit of the selected player. -/
theorem playermask_of_lt (w : World) (h : w.selectedPlayer < 32) :
    playermask w = 1 <<< w.selectedPlayer := by
  unfold playermask
  rw [Nat.mod_eq_of_lt h]

theorem avUpdateTile_eq (w : World) (increment : ℚ) (t : MAPTILE) :
    avUpdateTile w increment t = { t with level := (avUpdateTile w increment t).level } := by
  unfold avUpdateTile
  dsimp only
  split_ifs <;> rfl

theorem tileMaxLevel_avUpdateTile (w : World) (increment : ℚ) (t : MAPTILE) :
    tileMaxLevel w (avUpdateTile w increment t) = tileMaxLevel w t := by
  rw [avUpdateTile_eq]
  cases h : w.terrainShaderType <;>
    simp [tileMaxLevel, tileUnwatched, getTileIllumination, h]

theorem tileMaxLevel_iterate (w : World) (increment : ℚ) (t : MAPTILE) (n : ℕ) :
    tileMaxLevel w ((avUpdateTile w increment)^[n] t) = tileMaxLevel w t := by
  induction n with
  | zero => rfl
  | succ n ih => rw [Function.iterate_succ_apply', tileMaxLevel_avUpdateTile, ih]

theorem exploredBits_iterate (w : World) (increment : ℚ) (t : MAPTILE) (n : ℕ) :
    ((avUpdateTile w increment)^[n] t).tileExploredBits = t.tileExploredBits := by
  induction n with
  | zero => rfl
  | succ n ih =>
    rw [Function.iterate_succ_apply', avUpdateTile_eq]
    exact ih

theorem avUpdateTilesN_globals (w : World) (increment : ℚ) (n : ℕ) :
    avUpdateTilesN w increment n =
      { w with psMapTiles := (avUpdateTilesN w increment n).psMapTiles } := by
  induction n with
  | zero => rfl
  | succ n ih =>
    have e : avUpdateTilesN w increment (n + 1) =
        avUpdateTiles (avUpdateTilesN w increment n) increment := rfl
    rw [e, ih]
    rfl

theorem avUpdateTilesN_tile (w : World) (increment : ℚ) (n k : ℕ) :
    (avUpdateTilesN w increment n).psMapTiles k =
      if k < w.mapHeight * w.mapWidth then (avUpdateTile w increment)^[n] (w.psMapTiles k)
      else w.psMapTiles k := by
  induction n with
  | zero => simp [avUpdateTilesN]
  | succ n ih =>
    show (avUpdateTiles (avUpdateTilesN w increment n) increment).psMapTiles k = _
    rw [avUpdateTiles_tile, Function.iterate_succ_apply', ih]
    rw [avUpdateTilesN_globals w increment n]
    split_ifs <;> rfl

theorem rnd_tileMaxLevel (w : World) (t : MAPTILE)
    (h : F32.rnd (getTileIllumination w.terrainShaderType t) =
      getTileIllumination w.terrainShaderType t) :
    F32.rnd (tileMaxLevel w t) = tileMaxLevel w t := by
  unfold tileMaxLevel
  split_ifs
  · exact F32.rnd_idem _
  · exact h

theorem rnd_avUpdateTile_level (w : World) (increment : ℚ) (t : MAPTILE)
    (hl : F32.rnd t.level = t.level) (hm : F32.rnd (tileMaxLevel w t) = tileMaxLevel w t) :
    F32.rnd (avUpdateTile w increment t).level = (avUpdateTile w increment t).level := by
  unfold avUpdateTile
  by_cases hs : tileSeen w t
  · rw [if_pos hs]
    dsimp only
    by_cases h1 : t.level > tileMaxLevel w t
    · rw [if_pos h1]
      dsimp only [MAX, F32.sub]
      split_ifs
      · exact F32.rnd_idem _
      · exact hm
    · rw [if_neg h1]
      by_cases h2 : t.level < tileMaxLevel w t
      · rw [if_pos h2]
        dsimp only [MIN, F32.add]
        split_ifs
        · exact F32.rnd_idem _
        · exact hm
      · rw [if_neg h2]; exact hl
  · rw [if_neg hs]; exact hl

theorem rnd_iterate_level (w : World) (increment : ℚ) (t : MAPTILE)
    (hl : F32.rnd t.level = t.level) (hm : F32.rnd (tileMaxLevel w t) = tileMaxLevel w t)
    (n : ℕ) :
    F32.rnd ((avUpdateTile w increment)^[n] t).level =
      ((avUpdateTile w increment)^[n] t).level := by
  induction n with
  | zero => exact hl
  | succ n ih =>
    rw [Function.iterate_succ_apply']
    exact rnd_avUpdateTile_level w increment _ ih (by rw [tileMaxLevel_iterate]; exact hm)

theorem F32.rnd_intCast (z : ℤ) (h0 : 0 ≤ z) (h : z ≤ 2 ^ 24) : F32.rnd (z : ℚ) = z := by
  obtain ⟨n, rfl⟩ := Int.eq_ofNat_of_zero_le h0
  have hn : n ≤ 2 ^ 24 := by exact_mod_cast h
  simpa using F32.rnd_natCast n hn

/-- One fade step on a seen tile whose level and target are whole numbers in
`[0, 2 ^ 24]`, with a whole increment: every float operation is exact or clamped
away, and the step is the step of integer arithmetic. -/
theorem avUpdateTile_level_int (w : World) (t : MAPTILE) (a T : ℤ) (I : ℕ)
    (hs : tileSeen w t) (ha : t.level = a) (hT : tileMaxLevel w t = T)
    (ha0 : 0 ≤ a) (ha24 : a ≤ 2 ^ 24) (hT0 : 0 ≤ T) (hT24 : T ≤ 2 ^ 24) :
    (avUpdateTile w I t).level =
      ((if T ≤ a then max (a - I) T else min (a + I) T : ℤ) : ℚ) := by
  have hrT : F32.rnd (T : ℚ) = T := F32.rnd_intCast T hT0 hT24
  unfold avUpdateTile
  rw [if_pos hs]
  dsimp only
  rw [hT, ha]
  by_cases h1 : (a : ℚ) > T
  · have h1z : T < a := by exact_mod_cast h1
    rw [if_pos h1, if_pos h1z.le]
    dsimp only [MAX, F32.sub]
    by_cases h2 : T ≤ a - I
    · have e : ((a : ℚ) - (I : ℚ)) = ((a - I : ℤ) : ℚ) := by push_cast; ring
      rw [e, F32.rnd_intCast (a - I) (by omega) (by omega), max_eq_left h2]
      split_ifs with h3
      · rfl
      · have h4 : (a - I : ℤ) ≤ T := by exact_mod_cast not_lt.1 h3
        have h5 : a - (I : ℤ) = T := le_antisymm h4 h2
        rw [h5]
    · have h3 : a - (I : ℤ) ≤ T := by omega
      rw [max_eq_right h3]
      have h4 : F32.rnd ((a : ℚ) - (I : ℚ)) ≤ T := by
        have := F32.rnd_mono (show (a : ℚ) - (I : ℚ) ≤ (T : ℚ) by exact_mod_cast h3)
        rwa [hrT] at this
      rw [if_neg (not_lt.2 h4)]
  · rw [if_neg h1]
    by_cases h2 : (a : ℚ) < T
    · have h2z : a < T := by exact_mod_cast h2
      rw [if_pos h2, if_neg (not_le.2 h2z)]
      dsimp only [MIN, F32.add]
      by_cases h3 : a + I ≤ T
      · have e : ((a : ℚ) + (I : ℚ)) = ((a + I : ℤ) : ℚ) := by push_cast; ring
        rw [e, F32.rnd_intCast (a + I) (by omega) (by omega), min_eq_left h3]
        split_ifs with h4
        · rfl
        · have h5 : T ≤ (a + I : ℤ) := by exact_mod_cast not_lt.1 h4
          have h6 : a + (I : ℤ) = T := le_antisymm h3 h5
          rw [h6]
      · have h4 : T ≤ a + (I : ℤ) := by omega
        rw [min_eq_right h4]
        have h5 : (T : ℚ) ≤ F32.rnd ((a : ℚ) + (I : ℚ)) := by
          have := F32.rnd_mono (show (T : ℚ) ≤ (a : ℚ) + (I : ℚ) by exact_mod_cast h4)
          rwa [hrT] at this
        rw [if_neg (not_lt.2 h5)]
    · rw [if_neg h2]
      have h3 : a = T := by
        have : (a : ℚ) = T := le_antisymm (not_lt.1 h1) (not_lt.1 h2)
        exact_mod_cast this
      rw [ha, if_pos h3.ge, h3, max_eq_right (by omega)]

theorem tileSeen_iterate_of_explored (w : World) (increment : ℚ) (t : MAPTILE) (n : ℕ)
    (h : t.tileExploredBits &&& playermask w ≠ 0) :
    tileSeen w ((avUpdateTile w increment)^[n] t) := by
  unfold tileSeen
  rw [exploredBits_iterate]
  exact Or.inr h

/-- Closed form of the level of an explored tile after `n` frames, for whole
numbers. -/
theorem iterate_level_int (w : World) (t : MAPTILE) (a T : ℤ) (I : ℕ)
    (hexp : t.tileExploredBits &&& playermask w ≠ 0)
    (ha : t.level = a) (hT : tileMaxLevel w t = T)
    (ha0 : 0 ≤ a) (ha24 : a ≤ 2 ^ 24) (hT0 : 0 ≤ T) (hT24 : T ≤ 2 ^ 24) (n : ℕ) :
    ((avUpdateTile w I)^[n] t).level =
      ((if T ≤ a then max (a - n * I) T else min (a + n * I) T : ℤ) : ℚ) := by
  induction n with
  | zero =>
    simp only [Function.iterate_zero, id_eq, Nat.cast_zero, zero_mul, sub_zero, add_zero]
    rw [ha]
    split_ifs with h
    · rw [max_eq_left h]
    · rw [min_eq_left (by omega)]
  | succ n ih =>
    rw [Function.iterate_succ_apply']
    have hI : (0 : ℤ) ≤ (n : ℤ) * I := by positivity
    have hI2 : (0 : ℤ) ≤ I := by positivity
    have key := avUpdateTile_level_int w ((avUpdateTile w I)^[n] t)
      (if T ≤ a then max (a - n * I) T else min (a + n * I) T) T I
      (tileSeen_iterate_of_explored w I t n hexp) ih
      (by rw [tileMaxLevel_iterate]; exact hT)
      (by split_ifs <;> omega) (by split_ifs <;> omega) hT0 hT24
    rw [key]
    congr 1
    have hmul : ((n + 1 : ℕ) : ℤ) * (I : ℤ) = n * I + I := by push_cast; ring
    rw [hmul]
    generalize (n : ℤ) * (I : ℤ) = m at hI
    simp only [max_def, min_def]
    split_ifs <;> omega

/-! ## Evaluating the rounding at a given number -/

theorem F32.ulpExp_eq_of_bounds {x : ℚ} (s : ℕ) (hx : 0 ≤ x)
    (h1 : (2 : ℚ) ^ (s + 23) ≤ x * 2 ^ 149) (h2 : x * 2 ^ 149 < 2 ^ (s + 24)) :
    F32.ulpExp x = s := by
  unfold F32.ulpExp
  rw [abs_of_nonneg hx]
  have hlog : Nat.log 2 ⌊x * 2 ^ 149⌋₊ = s + 23 := by
    rw [Nat.log_eq_iff (Or.inl (by omega))]
    constructor
    · apply Nat.le_floor
      push_cast; exact h1
    · rw [Nat.floor_lt (by positivity)]
      push_cast; exact h2
  omega

theorem F32.rne_eq_of_near {q : ℚ} (m : ℤ) (h : |q - m| < 1 / 2) : F32.rne q = m := by
  rw [abs_lt] at h
  unfold F32.rne
  rcases le_or_lt (m : ℚ) q with hmq | hmq
  · have hf : ⌊q⌋ = m := by
      rw [Int.floor_eq_iff]; constructor <;> linarith
    rw [hf, if_pos (by linarith)]
  · have hf : ⌊q⌋ = m - 1 := by
      rw [Int.floor_eq_iff]; push_cast; constructor <;> linarith
    rw [hf]; push_cast
    rw [if_neg (by linarith), if_pos (by linarith)]
    ring

theorem F32.rne_eq_of_tie {q : ℚ} (m : ℤ) (h : q = m + 1 / 2) :
    F32.rne q = if m % 2 = 0 then m else m + 1 := by
  have hf : ⌊q⌋ = m := by
    rw [Int.floor_eq_iff]; constructor <;> linarith
  unfold F32.rne
  rw [hf, if_neg (by linarith), if_neg (by linarith)]

/-- The rounding of a positive number, from its binade and the nearest
significand. -/
theorem F32.rnd_eq_of_near {x : ℚ} (s : ℕ) (m : ℤ) (r : ℚ) (hx : 0 ≤ x)
    (h1 : (2 : ℚ) ^ (s + 23) ≤ x * 2 ^ 149) (h2 : x * 2 ^ 149 < 2 ^ (s + 24))
    (h3 : |x * 2 ^ 149 / 2 ^ s - m| < 1 / 2) (hr : r = m * 2 ^ s / 2 ^ 149) :
    F32.rnd x = r := by
  unfold F32.rnd
  rw [F32.ulpExp_eq_of_bounds s hx h1 h2, F32.rne_eq_of_near m h3, hr]

/-- The rounding of a positive number half way between two floats. -/
theorem F32.rnd_eq_of_tie {x : ℚ} (s : ℕ) (m : ℤ) (r : ℚ) (hx : 0 ≤ x)
    (h1 : (2 : ℚ) ^ (s + 23) ≤ x * 2 ^ 149) (h2 : x * 2 ^ 149 < 2 ^ (s + 24))
    (h3 : x * 2 ^ 149 / 2 ^ s = m + 1 / 2)
    (hr : r = ((if m % 2 = 0 then m else m + 1 : ℤ) : ℚ) * 2 ^ s / 2 ^ 149) :
    F32.rnd x = r := by
  unfold F32.rnd
  rw [F32.ulpExp_eq_of_bounds s hx h1 h2, F32.rne_eq_of_tie m h3, hr]

/-! ## The cases of the fade step -/

theorem avUpdateTile_of_not_seen (w : World) (increment : ℚ) (t : MAPTILE)
    (hs : ¬ tileSeen w t) : avUpdateTile w increment t = t := by
  unfold avUpdateTile
  rw [if_neg hs]

theorem avUpdateTile_level_of_gt (w : World) (increment : ℚ) (t : MAPTILE)
    (hs : tileSeen w t) (h : t.level > tileMaxLevel w t) :
    (avUpdateTile w increment t).level =
      MAX (F32.sub t.level increment) (tileMaxLevel w t) := by
  unfold avUpdateTile
  rw [if_pos hs]
  dsimp only
  rw [if_pos h]

theorem avUpdateTile_level_of_lt (w : World) (increment : ℚ) (t : MAPTILE)
    (hs : tileSeen w t) (h : t.level < tileMaxLevel w t) :
    (avUpdateTile w increment t).level =
      MIN (F32.add t.level increment) (tileMaxLevel w t) := by
  unfold avUpdateTile
  rw [if_pos hs]
  dsimp only
  rw [if_neg (not_lt.2 h.le), if_pos h]

theorem avUpdateTile_of_eq (w : World) (increment : ℚ) (t : MAPTILE)
    (h : t.level = tileMaxLevel w t) : avUpdateTile w increment t = t := by
  unfold avUpdateTile
  dsimp only
  rw [if_neg (not_lt.2 h.ge), if_neg (not_lt.2 h.le)]
  simp

theorem F32.rnd_ofNat_lit (n : ℕ) [n.AtLeastTwo] (hn : n ≤ 2 ^ 24) :
    F32.rnd (OfNat.ofNat n : ℚ) = OfNat.ofNat n := by
  have := F32.rnd_natCast n hn
  simpa using this

/-! ## Two runs of the fade that miss the frame bound -/

theorem stallTile_step :
    avUpdateTile stallWorld 20 stallTile = { stallTile with level := 40 } := by
  have h20 : F32.rnd (20 : ℚ) = 20 := F32.rnd_ofNat_lit 20 (by norm_num)
  have h40 : F32.rnd (40 : ℚ) = 40 := F32.rnd_ofNat_lit 40 (by norm_num)
  have hmax : tileMaxLevel stallWorld stallTile = 20 := by
    simp [tileMaxLevel, tileUnwatched, playerAllianceBits, stallWorld, oneTileWorld,
      stallTile, getTileIllumination, F32.div]
    norm_num [h20]
  have hseen : tileSeen stallWorld stallTile := by
    simp [tileSeen, stallTile, MIN_ILLUM]
    norm_num
  rw [avUpdateTile_eq, avUpdateTile_level_of_gt _ _ _ hseen (by rw [hmax]; norm_num [stallTile]),
    hmax]
  have e : MAX (F32.sub stallTile.level 20) 20 = 40 := by
    simp only [MAX, F32.sub, stallTile]
    norm_num [h40]
  rw [e]

theorem stallTile_stuck :
    avUpdateTile stallWorld 20 { stallTile with level := 40 } = { stallTile with level := 40 } := by
  apply avUpdateTile_of_not_seen
  simp [tileSeen, stallTile, MIN_ILLUM, playermask, stallWorld, oneTileWorld]
  norm_num

theorem driftTile_seen (l : ℚ) : tileSeen driftWorld { driftTile with level := l } := by
  simp [tileSeen, driftTile, playermask, driftWorld, oneTileWorld]

theorem driftTile_max (l : ℚ) : tileMaxLevel driftWorld { driftTile with level := l } = 90 := by
  have h90 : F32.rnd (90 : ℚ) = 90 := F32.rnd_ofNat_lit 90 (by norm_num)
  simp [tileMaxLevel, tileUnwatched, playerAllianceBits, driftWorld, oneTileWorld,
    driftTile, getTileIllumination, F32.div]
  norm_num [h90]

/-- A downward step of the drift tile that stays above the target. -/
theorem driftTile_step (l r : ℚ) (hr : F32.rnd (l - twoThirds) = r) (h90 : 90 < r)
    (hl : 90 < l) :
    avUpdateTile driftWorld twoThirds { driftTile with level := l } =
      { driftTile with level := r } := by
  rw [avUpdateTile_eq, avUpdateTile_level_of_gt _ _ _ (driftTile_seen l)
    (by rw [driftTile_max]; exact hl), driftTile_max]
  have e : MAX (F32.sub ({ driftTile with level := l } : MAPTILE).level twoThirds) 90 = r := by
    simp only [MAX, F32.sub]
    rw [hr, if_pos h90]
  rw [e]

/-- Claim C2, refuted as stated, on two tiles of one-tile maps.  (1) An
unexplored tile with illumination 40 and level 60, unwatched, has target 20; with
increment 20 the bound is `⌈|60 - 20| / 20⌉ = 2` frames, and after 2 frames the
level is 40: the first frame brings it to 40, below `MIN_ILLUM`, where the tile
is no longer seen.  (2) An explored tile with target 90 and level 92 and the
float increment `0.6666667f` has the bound `⌈2 / 0.6666667⌉ = 3` frames, and
after 3 frames the level is `11796481 / 131072 = 90.0000076...`: each
subtraction is rounded to `float`. -/
theorem avUpdateTiles_convergence_counterexample :
    (tileMaxLevel stallWorld (stallWorld.psMapTiles 0) = 20 ∧
      ⌈|(stallWorld.psMapTiles 0).level - 20| / 20⌉₊ = 2 ∧
      ((avUpdateTilesN stallWorld 20 2).psMapTiles 0).level = 40 ∧
      ((avUpdateTilesN stallWorld 20 2).psMapTiles 0).level ≠ 20) ∧
    (tileMaxLevel driftWorld (driftWorld.psMapTiles 0) = 90 ∧
      F32.IsF32 twoThirds ∧
      ⌈|(driftWorld.psMapTiles 0).level - 90| / twoThirds⌉₊ = 3 ∧
      ((avUpdateTilesN driftWorld twoThirds 3).psMapTiles 0).level = 11796481 / 131072 ∧
      ((avUpdateTilesN driftWorld twoThirds 3).psMapTiles 0).level ≠ 90) := by
  have hs : ((avUpdateTilesN stallWorld 20 2).psMapTiles 0).level = 40 := by
    have e0 : stallWorld.psMapTiles 0 = stallTile := rfl
    rw [avUpdateTilesN_tile, if_pos (by decide), e0, Function.iterate_succ_apply',
      Function.iterate_succ_apply', Function.iterate_zero_apply, stallTile_step,
      stallTile_stuck]
  have hd : ((avUpdateTilesN driftWorld twoThirds 3).psMapTiles 0).level
      = 11796481 / 131072 := by
    have e0 : driftWorld.psMapTiles 0 = { driftTile with level := 92 } := rfl
    rw [avUpdateTilesN_tile, if_pos (by decide), e0, Function.iterate_succ_apply',
      Function.iterate_succ_apply', Function.iterate_succ_apply', Function.iterate_zero_apply,
      driftTile_step 92 (11971243 / 131072)
        (F32.rnd_eq_of_near 132 11971243 _ (by norm_num [twoThirds]) (by norm_num [twoThirds])
          (by norm_num [twoThirds]) (by rw [abs_lt]; constructor <;> norm_num [twoThirds])
          (by norm_num))
        (by norm_num) (by norm_num),
      driftTile_step (11971243 / 131072) (5941931 / 65536)
        (F32.rnd_eq_of_near 132 11883862 _ (by norm_num [twoThirds]) (by norm_num [twoThirds])
          (by norm_num [twoThirds]) (by rw [abs_lt]; constructor <;> norm_num [twoThirds])
          (by norm_num))
        (by norm_num) (by norm_num),
      driftTile_step (5941931 / 65536) (11796481 / 131072)
        (F32.rnd_eq_of_near 132 11796481 _ (by norm_num [twoThirds]) (by norm_num [twoThirds])
          (by norm_num [twoThirds]) (by rw [abs_lt]; constructor <;> norm_num [twoThirds])
          (by norm_num))
        (by norm_num) (by norm_num)]
  refine ⟨⟨?_, ?_, hs, ?_⟩, ⟨?_, ?_, ?_, hd, ?_⟩⟩
  · have h20 : F32.rnd (20 : ℚ) = 20 := F32.rnd_ofNat_lit 20 (by norm_num)
    simp [tileMaxLevel, tileUnwatched, playerAllianceBits, stallWorld, oneTileWorld,
      stallTile, getTileIllumination, F32.div]
    norm_num [h20]
  · rw [Nat.ceil_eq_iff (by norm_num)]
    norm_num [stallWorld, oneTileWorld, stallTile]
  · rw [hs]; norm_num
  · exact driftTile_max 92
  · refine ⟨F32.rnd_eq_of_near 125 11184811 _ (by norm_num [twoThirds])
      (by norm_num [twoThirds]) (by norm_num [twoThirds])
      (by rw [abs_lt]; constructor <;> norm_num [twoThirds]) (by norm_num [twoThirds]), ?_⟩
    rw [abs_lt]; constructor <;> norm_num [twoThirds]
  · rw [Nat.ceil_eq_iff (by norm_num)]
    norm_num [driftWorld, oneTileWorld, driftTile, twoThirds]
  · rw [hd]; norm_num

theorem scenarioTile_max (l : ℚ) :
    tileMaxLevel scenarioWorld { scenarioTile with level := l } = 50 := by
  have h50 : F32.rnd (50 : ℚ) = 50 := F32.rnd_ofNat_lit 50 (by norm_num)
  simp [tileMaxLevel, tileUnwatched, playerAllianceBits, scenarioWorld, oneTileWorld,
    scenarioTile, getTileIllumination, F32.div]
  norm_num [h50]

theorem scenarioTile_seen (l : ℚ) : tileSeen scenarioWorld { scenarioTile with level := l } := by
  simp [tileSeen, scenarioTile, playermask, scenarioWorld, oneTileWorld]

theorem tileMaxLevel_with_level (w : World) (t : MAPTILE) (l : ℚ) :
    tileMaxLevel w { t with level := l } = tileMaxLevel w t := by
  cases h : w.terrainShaderType <;>
    simp [tileMaxLevel, tileUnwatched, getTileIllumination, h]

theorem iterate_eq (w : World) (increment : ℚ) (t : MAPTILE) (n : ℕ) :
    (avUpdateTile w increment)^[n] t =
      { t with level := ((avUpdateTile w increment)^[n] t).level } := by
  induction n with
  | zero => rfl
  | succ n ih =>
    rw [Function.iterate_succ_apply']
    generalize (avUpdateTile w increment)^[n] t = u at ih
    rw [avUpdateTile_eq w increment u, ih]

/-- One fade step down on a seen tile above its target, the float subtraction
being exact unless it reaches the target. -/
theorem avUpdateTile_level_exact_down (w : World) (increment : ℚ) (t : MAPTILE) (x T : ℚ)
    (hx : t.level = x) (hT : tileMaxLevel w t = T) (hrT : F32.rnd T = T)
    (hgt : T < x) (hs : tileSeen w t)
    (hE : T < x - increment → F32.sub x increment = x - increment) :
    (avUpdateTile w increment t).level = max (x - increment) T := by
  rw [avUpdateTile_level_of_gt w increment t hs (by rw [hx, hT]; exact hgt), hx, hT]
  unfold MAX
  by_cases h : T < x - increment
  · rw [hE h, if_pos h, max_eq_left h.le]
  · have h2 : x - increment ≤ T := not_lt.1 h
    have h3 : F32.sub x increment ≤ T := by
      have := F32.rnd_mono h2
      rwa [hrT] at this
    rw [if_neg (not_lt.2 h3), max_eq_right h2]

/-- One fade step up on a seen tile below its target, the float addition being
exact unless it reaches the target. -/
theorem avUpdateTile_level_exact_up (w : World) (increment : ℚ) (t : MAPTILE) (x T : ℚ)
    (hx : t.level = x) (hT : tileMaxLevel w t = T) (hrT : F32.rnd T = T)
    (hlt : x < T) (hs : tileSeen w t)
    (hE : x + increment < T → F32.add x increment = x + increment) :
    (avUpdateTile w increment t).level = min (x + increment) T := by
  rw [avUpdateTile_level_of_lt w increment t hs (by rw [hx, hT]; exact hlt), hx, hT]
  unfold MIN
  by_cases h : x + increment < T
  · rw [hE h, if_pos h, min_eq_left h.le]
  · have h2 : T ≤ x + increment := not_lt.1 h
    have h3 : T ≤ F32.add x increment := by
      have := F32.rnd_mono h2
      rwa [hrT] at this
    rw [if_neg (not_lt.2 h3), min_eq_right h2]

/-- Closed form of the level after `n` frames of a tile that stays seen until it
reaches its target and whose float steps are exact until then. -/
theorem iterate_level_exact (w : World) (increment : ℚ) (t : MAPTILE) (hinc : 0 ≤ increment)
    (hrT : F32.rnd (tileMaxLevel w t) = tileMaxLevel w t)
    (hS : ∀ n : ℕ, (n : ℚ) * increment < |t.level - tileMaxLevel w t| →
      tileSeen w { t with level := idealLevel t.level (tileMaxLevel w t) increment n })
    (hE : ∀ n : ℕ, ((n : ℚ) + 1) * increment < |t.level - tileMaxLevel w t| →
      (tileMaxLevel w t < t.level →
        F32.sub (idealLevel t.level (tileMaxLevel w t) increment n) increment
          = idealLevel t.level (tileMaxLevel w t) increment n - increment) ∧
      (t.level < tileMaxLevel w t →
        F32.add (idealLevel t.level (tileMaxLevel w t) increment n) increment
          = idealLevel t.level (tileMaxLevel w t) increment n + increment))
    (n : ℕ) :
    ((avUpdateTile w increment)^[n] t).level =
      if tileMaxLevel w t ≤ t.level then max (t.level - n * increment) (tileMaxLevel w t)
      else min (t.level + n * increment) (tileMaxLevel w t) := by
  generalize hTdef : tileMaxLevel w t = T at hrT hS hE ⊢
  generalize hLdef : t.level = L at hS hE ⊢
  induction n with
  | zero =>
    simp only [Function.iterate_zero, id_eq, Nat.cast_zero, zero_mul, sub_zero, add_zero]
    rw [hLdef]
    split_ifs with h
    · rw [max_eq_left h]
    · rw [min_eq_left (not_le.1 h).le]
  | succ n ih =>
    rw [Function.iterate_succ_apply']
    have hstruct := iterate_eq w increment t n
    have hTn : tileMaxLevel w ((avUpdateTile w increment)^[n] t) = T := by
      rw [tileMaxLevel_iterate, hTdef]
    have hcast : ((n + 1 : ℕ) : ℚ) = (n : ℚ) + 1 := by push_cast; ring
    have hn0 : (0 : ℚ) ≤ (n : ℚ) * increment := by positivity
    by_cases hTL : T ≤ L
    · rw [if_pos hTL] at ih ⊢
      have hid : idealLevel L T increment n = L - n * increment := by
        unfold idealLevel; rw [if_pos hTL]
      by_cases h : T < L - n * increment
      · rw [max_eq_left h.le] at ih
        have habs : |L - T| = L - T := abs_of_nonneg (by linarith)
        have hs : tileSeen w ((avUpdateTile w increment)^[n] t) := by
          rw [hstruct, ih, ← hid]
          exact hS n (by rw [habs]; linarith)
        rw [avUpdateTile_level_exact_down w increment _ (L - n * increment) T ih hTn hrT h hs
          (fun h2 => by
            have := (hE n (by rw [habs]; linarith)).1 (by linarith)
            rwa [hid] at this)]
        rw [hcast]
        congr 1
        ring
      · have h2 : L - n * increment ≤ T := not_lt.1 h
        rw [max_eq_right h2] at ih
        rw [avUpdateTile_of_eq w increment _ (by rw [ih, hTn]), ih, hcast,
          max_eq_right (by nlinarith)]
    · rw [if_neg hTL] at ih ⊢
      have hLT : L < T := not_le.1 hTL
      have hid : idealLevel L T increment n = L + n * increment := by
        unfold idealLevel; rw [if_neg hTL]
      by_cases h : L + n * increment < T
      · rw [min_eq_left h.le] at ih
        have habs : |L - T| = T - L := by
          rw [abs_sub_comm]; exact abs_of_nonneg (by linarith)
        have hs : tileSeen w ((avUpdateTile w increment)^[n] t) := by
          rw [hstruct, ih, ← hid]
          exact hS n (by rw [habs]; linarith)
        rw [avUpdateTile_level_exact_up w increment _ (L + n * increment) T ih hTn hrT h hs
          (fun h2 => by
            have := (hE n (by rw [habs]; linarith)).2 hLT
            rwa [hid] at this)]
        rw [hcast]
        congr 1
        ring
      · have h2 : T ≤ L + n * increment := not_lt.1 h
        rw [min_eq_right h2] at ih
        rw [avUpdateTile_of_eq w increment _ (by rw [ih, hTn]), ih, hcast,
          min_eq_right (by nlinarith)]

theorem brightTile_max (l : ℚ) :
    tileMaxLevel brightWorld { brightTile with level := l } = 50 := by
  have h50 : F32.rnd (50 : ℚ) = 50 := F32.rnd_ofNat_lit 50 (by norm_num)
  simp [tileMaxLevel, tileUnwatched, playerAllianceBits, brightWorld, oneTileWorld,
    brightTile, getTileIllumination, F32.div]
  norm_num [h50]

/-- Claim C2, amended.  For a tile whose level and illumination are finite floats
and a constant increment `> 0`: (1) no frame of a run of `avUpdateTiles` moves
the level away from the target, the level of frame `n + 1` lying between the
level of frame `n` and the target; (2) if the tile is on the map, stays seen
until it reaches the target (each level `initial ∓ n * increment` short of the
target exceeds `MIN_ILLUM`, or the explored bits of the tile meet the
`playermask` of the loop, the bit of the selected player) and its float steps are exact until
then (the float subtraction, on the way down, or addition, on the way up, of the
increment at each of these levels is exact unless it reaches or passes the
target), then the level equals the target after every number of frames
`n ≥ ⌈|initial - target| / increment⌉`. -/
theorem avUpdateTiles_monotone_convergence (w : World) (increment : ℚ) (i : ℕ)
    (hinc : 0 < increment)
    (hlevel : F32.IsF32 (w.psMapTiles i).level)
    (hillum : F32.IsF32 (getTileIllumination w.terrainShaderType (w.psMapTiles i))) :
    (∀ n : ℕ,
      NoOvershoot ((avUpdateTilesN w increment n).psMapTiles i).level
        ((avUpdateTilesN w increment (n + 1)).psMapTiles i).level
        (tileMaxLevel w (w.psMapTiles i))) ∧
    (i < w.mapHeight * w.mapWidth →
      (∀ n : ℕ,
        (n : ℚ) * increment < |(w.psMapTiles i).level - tileMaxLevel w (w.psMapTiles i)| →
        idealLevel (w.psMapTiles i).level (tileMaxLevel w (w.psMapTiles i)) increment n
            > MIN_ILLUM ∨
          (w.psMapTiles i).tileExploredBits &&& playermask w ≠ 0) →
      (∀ n : ℕ,
        ((n : ℚ) + 1) * increment
          < |(w.psMapTiles i).level - tileMaxLevel w (w.psMapTiles i)| →
        (tileMaxLevel w (w.psMapTiles i) < (w.psMapTiles i).level →
          F32.sub (idealLevel (w.psMapTiles i).level (tileMaxLevel w (w.psMapTiles i))
              increment n) increment
            = idealLevel (w.psMapTiles i).level (tileMaxLevel w (w.psMapTiles i))
              increment n - increment) ∧
        ((w.psMapTiles i).level < tileMaxLevel w (w.psMapTiles i) →
          F32.add (idealLevel (w.psMapTiles i).level (tileMaxLevel w (w.psMapTiles i))
              increment n) increment
            = idealLevel (w.psMapTiles i).level (tileMaxLevel w (w.psMapTiles i))
              increment n + increment)) →
      ∀ n : ℕ, ⌈|(w.psMapTiles i).level - tileMaxLevel w (w.psMapTiles i)| / increment⌉₊ ≤ n →
        ((avUpdateTilesN w increment n).psMapTiles i).level
          = tileMaxLevel w (w.psMapTiles i)) := by
  constructor
  · intro n
    apply noOvershoot_of_between
    rw [avUpdateTilesN_tile, avUpdateTilesN_tile]
    split_ifs with hi
    · rw [Function.iterate_succ_apply']
      have h := avUpdateTile_level_between w increment
        ((avUpdateTile w increment)^[n] (w.psMapTiles i)) hinc.le
        (rnd_iterate_level w increment _ hlevel.1 (rnd_tileMaxLevel w _ hillum.1) n)
      rwa [tileMaxLevel_iterate] at h
    · exact ⟨min_le_left _ _, le_max_left _ _⟩
  · intro hi hS hE n hn
    rw [avUpdateTilesN_tile, if_pos hi,
      iterate_level_exact w increment (w.psMapTiles i) hinc.le
        (rnd_tileMaxLevel w _ hillum.1) (fun m hm => hS m hm) hE n]
    rw [Nat.ceil_le, div_le_iff₀ hinc, abs_le] at hn
    split_ifs with h
    · exact max_eq_right (by linarith [hn.2])
    · exact min_eq_right (by linarith [hn.1])

theorem avUpdateTiles_monotone_convergence_witness :
    ((0 : ℚ) < 20 ∧ F32.IsF32 (scenarioWorld.psMapTiles 0).level ∧
      F32.IsF32 (getTileIllumination scenarioWorld.terrainShaderType
        (scenarioWorld.psMapTiles 0)) ∧
      NoOvershoot ((avUpdateTilesN scenarioWorld 20 1).psMapTiles 0).level
        ((avUpdateTilesN scenarioWorld 20 (1 + 1)).psMapTiles 0).level
        (tileMaxLevel scenarioWorld (scenarioWorld.psMapTiles 0)) ∧
      ((avUpdateTilesN scenarioWorld 20 3).psMapTiles 0).level
        = tileMaxLevel scenarioWorld (scenarioWorld.psMapTiles 0)) ∧
    ((0 : ℚ) < 1 / 2 ∧
      tileMaxLevel scenarioWorld (scenarioWorld.psMapTiles 0) = 50 ∧
      ((avUpdateTilesN scenarioWorld (1 / 2) 100).psMapTiles 0).level = 50) ∧
    ((brightWorld.psMapTiles 0).tileExploredBits = 0 ∧
      (brightWorld.psMapTiles 0).level = 90 ∧
      tileMaxLevel brightWorld (brightWorld.psMapTiles 0) = 50 ∧
      ((avUpdateTilesN brightWorld 20 2).psMapTiles 0).level = 50) := by
  have h0 : F32.IsF32 (scenarioWorld.psMapTiles 0).level := by
    simpa [scenarioWorld, oneTileWorld, scenarioTile] using F32.isF32_natCast 0 (by norm_num)
  have h100 : F32.IsF32 (getTileIllumination scenarioWorld.terrainShaderType
      (scenarioWorld.psMapTiles 0)) := by
    simpa [scenarioWorld, oneTileWorld, scenarioTile, getTileIllumination]
      using F32.isF32_natCast 100 (by norm_num)
  have hmax : tileMaxLevel scenarioWorld (scenarioWorld.psMapTiles 0) = 50 :=
    scenarioTile_max 0
  have hl : (scenarioWorld.psMapTiles 0).level = 0 := rfl
  have hid : ∀ (c : ℚ) (n : ℕ), idealLevel 0 50 c n = n * c := by
    intro c n; unfold idealLevel; rw [if_neg (by norm_num)]; ring
  have h := avUpdateTiles_monotone_convergence scenarioWorld 20 0 (by norm_num) h0 h100
  have hhalf := avUpdateTiles_monotone_convergence scenarioWorld (1 / 2) 0 (by norm_num) h0 h100
  refine ⟨⟨by norm_num, h0, h100, h.1 1, ?_⟩, ⟨by norm_num, hmax, ?_⟩, ?_⟩
  · refine h.2 (by decide) (fun n _ => Or.inr (by decide)) ?_ 3 ?_
    · intro n hn
      rw [hmax, hl] at hn ⊢
      refine ⟨fun hc => absurd hc (by norm_num), fun _ => ?_⟩
      rw [hid]
      unfold F32.add
      have hn2 : (n : ℚ) < 2 := by
        rw [abs_of_nonpos (by norm_num)] at hn; linarith
      have hn3 : n < 2 := by exact_mod_cast hn2
      have e : (n : ℚ) * 20 + 20 = ((n * 20 + 20 : ℕ) : ℚ) := by push_cast; ring
      rw [e]
      exact F32.rnd_natCast _ (by omega)
    · rw [hmax, hl, Nat.ceil_le]; norm_num
  · rw [← hmax]
    refine hhalf.2 (by decide) (fun n _ => Or.inr (by decide)) ?_ 100 ?_
    · intro n hn
      rw [hmax, hl] at hn ⊢
      refine ⟨fun hc => absurd hc (by norm_num), fun _ => ?_⟩
      rw [hid]
      unfold F32.add
      have hn2 : (n : ℚ) < 99 := by
        rw [abs_of_nonpos (by norm_num)] at hn; linarith
      have hn3 : n < 99 := by exact_mod_cast hn2
      have e : (n : ℚ) * (1 / 2) + 1 / 2
          = (((n + 1 : ℕ) : ℚ)) * 2 ^ 148 / 2 ^ 149 := by
        rw [show (2 : ℚ) ^ 149 = 2 * 2 ^ 148 from by norm_num,
          mul_div_mul_right _ _ (by positivity)]
        push_cast; ring
      rw [e]
      exact F32.rnd_natMant (n + 1) 148 (by omega)
    · rw [hmax, hl, Nat.ceil_le]; norm_num
  · have hb0 : F32.IsF32 (brightWorld.psMapTiles 0).level := by
      simpa [brightWorld, oneTileWorld, brightTile] using F32.isF32_natCast 90 (by norm_num)
    have hb100 : F32.IsF32 (getTileIllumination brightWorld.terrainShaderType
        (brightWorld.psMapTiles 0)) := by
      simpa [brightWorld, oneTileWorld, brightTile, getTileIllumination]
        using F32.isF32_natCast 100 (by norm_num)
    have hbmax : tileMaxLevel brightWorld (brightWorld.psMapTiles 0) = 50 :=
      brightTile_max 90
    have hbl : (brightWorld.psMapTiles 0).level = 90 := rfl
    have hb := avUpdateTiles_monotone_convergence brightWorld 20 0 (by norm_num) hb0 hb100
    have hbid : ∀ n : ℕ, idealLevel 90 50 20 n = 90 - n * 20 := by
      intro n; unfold idealLevel; rw [if_pos (by norm_num)]
    refine ⟨rfl, hbl, hbmax, ?_⟩
    rw [← hbmax]
    refine hb.2 (by decide) ?_ ?_ 2 ?_
    · intro n hn
      rw [hbmax, hbl] at hn ⊢
      rw [hbid]
      have hn2 : (n : ℚ) < 2 := by
        rw [abs_of_nonneg (by norm_num)] at hn; linarith
      left
      show (90 : ℚ) - n * 20 > MIN_ILLUM
      unfold MIN_ILLUM
      linarith
    · intro n hn
      rw [hbmax, hbl] at hn ⊢
      refine ⟨fun _ => ?_, fun hc => absurd hc (by norm_num)⟩
      rw [hbid]
      unfold F32.sub
      have hn2 : (n : ℚ) < 1 := by
        rw [abs_of_nonneg (by norm_num)] at hn; linarith
      have hn3 : n < 1 := by exact_mod_cast hn2
      have hn4 : n = 0 := by omega
      subst hn4
      have e : (90 : ℚ) - ((0 : ℕ) : ℚ) * 20 - 20 = ((70 : ℕ) : ℚ) := by norm_num
      rw [e]
      exact F32.rnd_natCast _ (by norm_num)
    · rw [hbmax, hbl, Nat.ceil_le]; norm_num

/-! ## Exact halving -/

theorem F32.ulpExp_half (x : ℚ) : F32.ulpExp (x / 2) = F32.ulpExp x - 1 := by
  unfold F32.ulpExp
  have e : |x / 2| * 2 ^ 149 = |x| * 2 ^ 149 / ((2 : ℕ) : ℚ) := by
    rw [abs_div, abs_of_pos (by norm_num : (0 : ℚ) < 2)]; push_cast; ring
  rw [e, Nat.floor_div_nat, Nat.log_div_base]
  omega

/-- Above the subnormal range, halving commutes with the rounding. -/
theorem F32.rnd_half (x : ℚ) (h : 1 ≤ F32.ulpExp x) : F32.rnd (x / 2) = F32.rnd x / 2 := by
  unfold F32.rnd
  rw [F32.ulpExp_half]
  obtain ⟨s, hs⟩ : ∃ s, F32.ulpExp x = s + 1 := ⟨F32.ulpExp x - 1, by omega⟩
  rw [hs, Nat.add_sub_cancel]
  have e : x / 2 * 2 ^ 149 / 2 ^ s = x * 2 ^ 149 / 2 ^ (s + 1) := by
    rw [pow_succ]; ring
  rw [e, pow_succ]
  ring

theorem F32.rnd_quarter (x : ℚ) (h : 2 ≤ F32.ulpExp x) : F32.rnd (x / 4) = F32.rnd x / 4 := by
  have e : x / 4 = x / 2 / 2 := by ring
  rw [e, F32.rnd_half (x / 2) (by rw [F32.ulpExp_half]; omega), F32.rnd_half x (by omega)]
  ring

theorem F32.le_ulpExp (x : ℚ) (j : ℕ) (h : (2 : ℚ) ^ (j + 23) / 2 ^ 149 ≤ |x|) :
    j ≤ F32.ulpExp x := by
  unfold F32.ulpExp
  have h1 : 2 ^ (j + 23) ≤ ⌊|x| * 2 ^ 149⌋₊ := by
    apply Nat.le_floor
    push_cast
    rwa [div_le_iff₀ (by positivity)] at h
  have h2 : j + 23 ≤ Nat.log 2 ⌊|x| * 2 ^ 149⌋₊ :=
    Nat.le_log_of_pow_le (by norm_num) h1
  omega

/-- A float of magnitude at least `2 ^ (-125)` is halved exactly. -/
theorem F32.div_two_exact (x : ℚ) (hx : F32.rnd x = x) (h : (2 : ℚ) ^ 24 / 2 ^ 149 ≤ |x|) :
    F32.div x 2 = x / 2 := by
  unfold F32.div
  rw [F32.rnd_half x (F32.le_ulpExp x 1 h), hx]

/-- A float of magnitude at least `2 ^ (-124)` is divided by four exactly. -/
theorem F32.div_four_exact (x : ℚ) (hx : F32.rnd x = x) (h : (2 : ℚ) ^ 25 / 2 ^ 149 ≤ |x|) :
    F32.div x 4 = x / 4 := by
  unfold F32.div
  rw [F32.rnd_quarter x (F32.le_ulpExp x 2 h), hx]

/-! ## The light level of an object -/

/-- The scaled level of `avGetObjLightLevel` before its conversion to
`unsigned int`: the float product `div * origLevel`. -/
theorem scaled_nonneg (v b : ℕ) :
    0 ≤ F32.mul (F32.div (F32.ofNat v) 255) (F32.ofNat b) := by
  unfold F32.mul F32.div F32.ofNat
  apply F32.rnd_nonneg
  apply mul_nonneg
  · apply F32.rnd_nonneg
    apply div_nonneg (F32.rnd_nonneg (by positivity)) (by norm_num)
  · exact F32.rnd_nonneg (by positivity)

theorem div255_le_one (v : ℕ) (hv : v ≤ 255) : F32.div (F32.ofNat v) 255 ≤ 1 := by
  unfold F32.div F32.ofNat
  rw [F32.rnd_natCast v (by omega)]
  have h1 : F32.rnd (1 : ℚ) = 1 := by simpa using F32.rnd_natCast 1 (by norm_num)
  rw [← h1]
  apply F32.rnd_mono
  rw [div_le_one (by norm_num)]
  exact_mod_cast hv

theorem div255_nonneg (v : ℕ) : 0 ≤ F32.div (F32.ofNat v) 255 := by
  unfold F32.div F32.ofNat
  apply F32.rnd_nonneg
  apply div_nonneg (F32.rnd_nonneg (by positivity)) (by norm_num)

theorem scaled_le (v b : ℕ) (hv : v ≤ 255) :
    F32.mul (F32.div (F32.ofNat v) 255) (F32.ofNat b) ≤ F32.ofNat b := by
  have hb : 0 ≤ F32.ofNat b := F32.rnd_nonneg (by positivity)
  have h : F32.div (F32.ofNat v) 255 * F32.ofNat b ≤ F32.ofNat b := by
    calc F32.div (F32.ofNat v) 255 * F32.ofNat b ≤ 1 * F32.ofNat b :=
          mul_le_mul_of_nonneg_right (div255_le_one v hv) hb
      _ = F32.ofNat b := one_mul _
  have := F32.rnd_mono h
  unfold F32.mul
  unfold F32.ofNat at this ⊢
  rwa [F32.rnd_idem] at this

theorem toUnsigned_of_nonneg {x : ℚ} (hx : 0 ≤ x) :
    F32.toUnsigned x = if ⌊x⌋₊ < 2 ^ 32 then some ⌊x⌋₊ else none := by
  unfold F32.toUnsigned
  simp only [if_pos hx]
  have h0 : (0 : ℤ) ≤ ⌊x⌋ := Int.floor_nonneg.2 hx
  have e : ⌊x⌋₊ = ⌊x⌋.toNat := rfl
  rw [e]
  by_cases h : ⌊x⌋ < 2 ^ 32
  · have h2 : ⌊x⌋.toNat < 2 ^ 32 := by omega
    rw [if_pos ⟨h0, h⟩, if_pos h2]
  · have h2 : ¬ ⌊x⌋.toNat < 2 ^ 32 := by omega
    rw [if_neg (fun hh => h hh.2), if_neg h2]

/-- The function `avGetObjLightLevel` in closed form. -/
theorem avGetObjLightLevel_eq (v b : ℕ) :
    avGetObjLightLevel v b =
      if ⌊F32.mul (F32.div (F32.ofNat v) 255) (F32.ofNat b)⌋₊ < 2 ^ 32 then
        some (max ⌊F32.mul (F32.div (F32.ofNat v) 255) (F32.ofNat b)⌋₊ (b / START_DIVIDE))
      else none := by
  unfold avGetObjLightLevel
  simp only [toUnsigned_of_nonneg (scaled_nonneg v b)]
  split_ifs with h
  · simp only [Option.some.injEq]
    split_ifs with h2
    · exact (max_eq_right h2.le).symm
    · exact (max_eq_left (not_lt.1 h2)).symm
  · rfl

theorem eighth_le_ofNat (b : ℕ) : ((b / START_DIVIDE : ℕ) : ℚ) ≤ F32.ofNat b := by
  unfold START_DIVIDE F32.ofNat
  rcases Nat.eq_zero_or_pos b with h0 | hpos
  · subst h0; simp [F32.rnd_zero]
  · have hne : b ≠ 0 := by omega
    have h1 : 2 ^ Nat.log 2 b ≤ b := Nat.pow_log_le_self 2 hne
    have h2 : b < 2 ^ (Nat.log 2 b + 1) := Nat.lt_pow_succ_log_self (by norm_num) b
    have hp : F32.rnd ((2 : ℚ) ^ Nat.log 2 b) = 2 ^ Nat.log 2 b := by
      have := F32.rnd_natMant 1 (149 + Nat.log 2 b) (by norm_num)
      have e : ((1 : ℕ) : ℚ) * 2 ^ (149 + Nat.log 2 b) / 2 ^ 149 = 2 ^ Nat.log 2 b := by
        rw [pow_add]; field_simp
      rwa [e] at this
    have h3 : ((2 : ℚ) ^ Nat.log 2 b) ≤ F32.rnd (b : ℚ) := by
      rw [← hp]
      apply F32.rnd_mono
      exact_mod_cast h1
    have h4 : b / 8 ≤ 2 ^ Nat.log 2 b := by
      rw [pow_succ] at h2
      omega
    calc ((b / 8 : ℕ) : ℚ) ≤ ((2 ^ Nat.log 2 b : ℕ) : ℚ) := by exact_mod_cast h4
      _ = (2 : ℚ) ^ Nat.log 2 b := by push_cast; rfl
      _ ≤ F32.rnd (b : ℚ) := h3

/-- Claim C3, refuted as stated: for visibility 255 and base level
`16777219 = 2 ^ 24 + 3` the conversion of the base level to `float` rounds it up
to `16777220`, and the function returns `16777220`, which exceeds the base
level. -/
theorem avGetObjLightLevel_bounds_counterexample :
    avGetObjLightLevel 255 16777219 = some 16777220 ∧ ¬ (16777220 ≤ 16777219) := by
  refine ⟨?_, by norm_num⟩
  have hb : F32.ofNat 16777219 = 16777220 := by
    unfold F32.ofNat
    exact F32.rnd_eq_of_tie 150 8388609 _ (by norm_num) (by norm_num) (by norm_num)
      (by norm_num) (by norm_num)
  have hd : F32.div (F32.ofNat 255) 255 = 1 := by
    unfold F32.div F32.ofNat
    rw [F32.rnd_natCast 255 (by norm_num)]
    have h1 : F32.rnd (1 : ℚ) = 1 := by simpa using F32.rnd_natCast 1 (by norm_num)
    norm_num [h1]
  have hp : F32.mul 1 16777220 = 16777220 := by
    unfold F32.mul
    have h := F32.rnd_natMant 4194305 151 (by norm_num)
    have e : ((4194305 : ℕ) : ℚ) * 2 ^ 151 / 2 ^ 149 = 16777220 := by norm_num
    rw [e] at h
    rw [one_mul]; exact h
  rw [avGetObjLightLevel_eq, hd, hb, hp]
  have hf : ⌊(16777220 : ℚ)⌋₊ = 16777220 := by
    simp
  rw [hf]
  norm_num [START_DIVIDE]

/-- Claim C3, amended.  For a visibility value in `[0, 255]`: (1) whenever the
base level rounded to `float` is below `2 ^ 32`, the conversion of the scaled
level is defined and the function returns a value; (2) every value `r` it
returns satisfies `b / 8 ≤ r ≤ fl(b)`, where `fl(b)` is the base level rounded to
`float`; (3) for every base level `b ≤ 2 ^ 24` it returns a value `r` with
`b / 8 ≤ r ≤ b`. -/
theorem avGetObjLightLevel_bounds (v b : ℕ) (hv : v ≤ 255) :
    (F32.ofNat b < 2 ^ 32 → ∃ r, avGetObjLightLevel v b = some r) ∧
    (∀ r, avGetObjLightLevel v b = some r →
      b / START_DIVIDE ≤ r ∧ (r : ℚ) ≤ F32.ofNat b) ∧
    (b ≤ 2 ^ 24 → ∃ r, avGetObjLightLevel v b = some r ∧ b / START_DIVIDE ≤ r ∧ r ≤ b) := by
  have hp0 := scaled_nonneg v b
  have hple := scaled_le v b hv
  have hfl : (⌊F32.mul (F32.div (F32.ofNat v) 255) (F32.ofNat b)⌋₊ : ℚ) ≤ F32.ofNat b :=
    le_trans (Nat.floor_le hp0) hple
  have hdef : F32.ofNat b < 2 ^ 32 →
      ⌊F32.mul (F32.div (F32.ofNat v) 255) (F32.ofNat b)⌋₊ < 2 ^ 32 := by
    intro h
    have : (⌊F32.mul (F32.div (F32.ofNat v) 255) (F32.ofNat b)⌋₊ : ℚ) < ((2 ^ 32 : ℕ) : ℚ) := by
      push_cast; exact lt_of_le_of_lt hfl h
    exact_mod_cast this
  have hret : ∀ r, avGetObjLightLevel v b = some r →
      b / START_DIVIDE ≤ r ∧ (r : ℚ) ≤ F32.ofNat b := by
    intro r hr
    rw [avGetObjLightLevel_eq] at hr
    split_ifs at hr with h
    simp only [Option.some.injEq] at hr
    subst hr
    refine ⟨le_max_right _ _, ?_⟩
    rcases max_cases ⌊F32.mul (F32.div (F32.ofNat v) 255) (F32.ofNat b)⌋₊ (b / START_DIVIDE)
      with ⟨he, _⟩ | ⟨he, _⟩
    · rw [he]; exact hfl
    · rw [he]; exact eighth_le_ofNat b
  refine ⟨?_, hret, ?_⟩
  · intro h
    rw [avGetObjLightLevel_eq, if_pos (hdef h)]
    exact ⟨_, rfl⟩
  · intro hb
    have hbf : F32.ofNat b = b := F32.rnd_natCast b hb
    have hlt : F32.ofNat b < 2 ^ 32 := by
      rw [hbf]
      have : (b : ℚ) ≤ 2 ^ 24 := by exact_mod_cast hb
      exact lt_of_le_of_lt this (by norm_num)
    rw [avGetObjLightLevel_eq, if_pos (hdef hlt)]
    refine ⟨_, rfl, le_max_right _ _, ?_⟩
    have h2 := (hret _ (by rw [avGetObjLightLevel_eq, if_pos (hdef hlt)])).2
    have h3 := le_trans h2 (le_of_eq hbf)
    exact_mod_cast h3

theorem avGetObjLightLevel_bounds_witness :
    100 ≤ 255 ∧
      (F32.ofNat 200 < 2 ^ 32 → ∃ r, avGetObjLightLevel 100 200 = some r) ∧
      (∀ r, avGetObjLightLevel 100 200 = some r →
        200 / START_DIVIDE ≤ r ∧ (r : ℚ) ≤ F32.ofNat 200) ∧
      (200 ≤ 2 ^ 24 →
        ∃ r, avGetObjLightLevel 100 200 = some r ∧ 200 / START_DIVIDE ≤ r ∧ r ≤ 200) :=
  ⟨by norm_num, avGetObjLightLevel_bounds 100 200 (by norm_num)⟩

/-! ## The quotient `visible / 255` and the scaled level -/

theorem F32.rne_le_of_lt_half {q : ℚ} (m : ℤ) (h : q < m + 1 / 2) : F32.rne q ≤ m := by
  have hfl : ⌊q⌋ ≤ m := by
    have : ⌊q⌋ < m + 1 := by
      rw [Int.floor_lt]; push_cast; linarith
    omega
  rcases hfl.lt_or_eq with hlt | heq
  · have := F32.rne_le_floor_succ q
    omega
  · unfold F32.rne
    rw [heq, if_pos (by linarith)]

/-- The float quotient `v / 255` for `v` in the binade `[2 ^ t, 2 ^ (t + 1))`:
the rounding is upward, to the significand `65793 * v * 2 ^ (7 - t) + 1`. -/
theorem rnd_div255 (v t : ℕ) (ht : t ≤ 7) (hv1 : 2 ^ t ≤ v) (hv2 : v < 2 ^ (t + 1))
    (hv3 : v ≤ 254) :
    F32.rnd ((v : ℚ) / 255) = (65793 * (v : ℚ) * 2 ^ (7 - t) + 1) / 2 ^ (31 - t) := by
  have h1 : (2 : ℚ) ^ t ≤ (v : ℚ) := by exact_mod_cast hv1
  have h2 : (v : ℚ) + 1 ≤ (2 : ℚ) ^ (t + 1) := by exact_mod_cast hv2
  have h3 : (v : ℚ) ≤ 254 := by exact_mod_cast hv3
  have h0 : (0 : ℚ) ≤ (v : ℚ) / 255 := by positivity
  interval_cases t
  all_goals norm_num1 at h1 h2 ⊢
  · exact F32.rnd_eq_of_near 118 (65793 * (v : ℤ) * 128 + 1) _ h0
      (by norm_num; linarith) (by norm_num; linarith)
      (by rw [abs_lt]; push_cast; constructor <;> norm_num <;> linarith)
      (by push_cast; norm_num; ring)
  · exact F32.rnd_eq_of_near 119 (65793 * (v : ℤ) * 64 + 1) _ h0
      (by norm_num; linarith) (by norm_num; linarith)
      (by rw [abs_lt]; push_cast; constructor <;> norm_num <;> linarith)
      (by push_cast; norm_num; ring)
  · exact F32.rnd_eq_of_near 120 (65793 * (v : ℤ) * 32 + 1) _ h0
      (by norm_num; linarith) (by norm_num; linarith)
      (by rw [abs_lt]; push_cast; constructor <;> norm_num <;> linarith)
      (by push_cast; norm_num; ring)
  · exact F32.rnd_eq_of_near 121 (65793 * (v : ℤ) * 16 + 1) _ h0
      (by norm_num; linarith) (by norm_num; linarith)
      (by rw [abs_lt]; push_cast; constructor <;> norm_num <;> linarith)
      (by push_cast; norm_num; ring)
  · exact F32.rnd_eq_of_near 122 (65793 * (v : ℤ) * 8 + 1) _ h0
      (by norm_num; linarith) (by norm_num; linarith)
      (by rw [abs_lt]; push_cast; constructor <;> norm_num <;> linarith)
      (by push_cast; norm_num; ring)
  · exact F32.rnd_eq_of_near 123 (65793 * (v : ℤ) * 4 + 1) _ h0
      (by norm_num; linarith) (by norm_num; linarith)
      (by rw [abs_lt]; push_cast; constructor <;> norm_num <;> linarith)
      (by push_cast; norm_num; ring)
  · exact F32.rnd_eq_of_near 124 (65793 * (v : ℤ) * 2 + 1) _ h0
      (by norm_num; linarith) (by norm_num; linarith)
      (by rw [abs_lt]; push_cast; constructor <;> norm_num <;> linarith)
      (by push_cast; norm_num; ring)
  · exact F32.rnd_eq_of_near 125 (65793 * (v : ℤ) + 1) _ h0
      (by norm_num; linarith) (by norm_num; linarith)
      (by rw [abs_lt]; push_cast; constructor <;> norm_num <;> linarith)
      (by push_cast; norm_num; ring)

theorem div255_eq (v : ℕ) (hv : v ≤ 255) :
    F32.div (F32.ofNat v) 255 = F32.rnd ((v : ℚ) / 255) := by
  unfold F32.div F32.ofNat
  rw [F32.rnd_natCast v (by omega)]

/-- The float quotient `v / 255` is never below the exact quotient, exceeds it
by less than the relative error `127 / 2 ^ 31`, and is known exactly for
`v ≥ 128`. -/
theorem div255_bounds (v : ℕ) (hv1 : 1 ≤ v) (hv : v ≤ 254) :
    (v : ℚ) / 255 ≤ F32.div (F32.ofNat v) 255 ∧
      F32.div (F32.ofNat v) 255 ≤ (v : ℚ) / 255 * (1 + 127 / 2 ^ 31) ∧
      (128 ≤ v →
        F32.div (F32.ofNat v) 255 = (v : ℚ) / 255 + (255 - (v : ℚ)) / (255 * 2 ^ 24)) := by
  rw [div255_eq v (by omega)]
  have hne : v ≠ 0 := by omega
  have ht1 : 2 ^ Nat.log 2 v ≤ v := Nat.pow_log_le_self 2 hne
  have ht2 : v < 2 ^ (Nat.log 2 v + 1) := Nat.lt_pow_succ_log_self (by norm_num) v
  have ht : Nat.log 2 v ≤ 7 := by
    have : Nat.log 2 v < 8 := Nat.log_lt_of_lt_pow hne (by omega)
    omega
  rw [rnd_div255 v (Nat.log 2 v) ht ht1 ht2 hv]
  generalize Nat.log 2 v = t at ht ht1 ht2
  have h1 : (2 : ℚ) ^ t ≤ (v : ℚ) := by exact_mod_cast ht1
  have h2 : (v : ℚ) + 1 ≤ (2 : ℚ) ^ (t + 1) := by exact_mod_cast ht2
  have h3 : (v : ℚ) ≤ 254 := by exact_mod_cast hv
  interval_cases t
  all_goals norm_num1 at h1 h2 ⊢
  all_goals refine ⟨?_, ?_, ?_⟩
  all_goals first
    | linarith
    | (intro h128
       have h4 : (128 : ℚ) ≤ (v : ℚ) := by exact_mod_cast h128
       first
        | (exfalso; linarith)
        | (field_simp; ring))

/-- For base levels below `2 ^ 16` the float computation of the scaled level
has the integral part of the exact quotient `v * b / 255`. -/
theorem floor_scaled (v b : ℕ) (hv : v ≤ 255) (hb : b < 2 ^ 16) :
    ⌊F32.mul (F32.div (F32.ofNat v) 255) (F32.ofNat b)⌋₊ = v * b / 255 := by
  have hfb : F32.ofNat b = b := F32.rnd_natCast b (by omega)
  have hkr : v * b = 255 * (v * b / 255) + v * b % 255 := (Nat.div_add_mod _ _).symm
  have hr : v * b % 255 < 255 := Nat.mod_lt _ (by norm_num)
  have hvb : v * b ≤ 255 * 65535 := Nat.mul_le_mul hv (by omega)
  generalize v * b / 255 = k at hkr ⊢
  generalize v * b % 255 = r at hkr hr
  have hk : k ≤ 65535 := by omega
  have hkq : (k : ℚ) ≤ 65535 := by exact_mod_cast hk
  have hrq : (r : ℚ) ≤ 254 := by exact_mod_cast (by omega : r ≤ 254)
  have hr0 : (0 : ℚ) ≤ (r : ℚ) := by positivity
  have hb0 : (0 : ℚ) ≤ (b : ℚ) := by positivity
  have hbq : (b : ℚ) ≤ 65535 := by exact_mod_cast (by omega : b ≤ 65535)
  have hkrq : (v : ℚ) * (b : ℚ) = 255 * (k : ℚ) + (r : ℚ) := by exact_mod_cast hkr
  have hrk : F32.rnd (k : ℚ) = k := F32.rnd_natCast k (by omega)
  rw [hfb]
  unfold F32.mul
  rcases Nat.eq_zero_or_pos v with hv0 | hvpos
  · subst hv0
    have hk0 : k = 0 := by omega
    have hd : F32.div (F32.ofNat 0) 255 = 0 := by
      rw [div255_eq 0 (by norm_num)]; simp [F32.rnd_zero]
    rw [hd, zero_mul, F32.rnd_zero, hk0]; simp
  rcases Nat.lt_or_ge v 255 with hlt | hge
  swap
  · have hv255 : v = 255 := by omega
    subst hv255
    have hkb : k = b := by omega
    have hd : F32.div (F32.ofNat 255) 255 = 1 := by
      rw [div255_eq 255 (by norm_num)]
      have h1 : F32.rnd (1 : ℚ) = 1 := by simpa using F32.rnd_natCast 1 (by norm_num)
      norm_num [h1]
    rw [hd, one_mul, F32.rnd_natCast b (by omega), hkb, Nat.floor_natCast]
  obtain ⟨hd1, hd2, hd3⟩ := div255_bounds v hvpos (by omega)
  generalize F32.div (F32.ofNat v) 255 = d at hd1 hd2 hd3
  have hP1 : (k : ℚ) ≤ d * b := by
    have : (v : ℚ) / 255 * b ≤ d * b := mul_le_mul_of_nonneg_right hd1 hb0
    have e : (v : ℚ) / 255 * b = k + r / 255 := by
      rw [div_mul_eq_mul_div, hkrq]; field_simp; ring
    rw [e] at this
    have : (0 : ℚ) ≤ (r : ℚ) / 255 := by positivity
    linarith
  have hlow : (k : ℚ) ≤ F32.rnd (d * b) := by
    have := F32.rnd_mono hP1
    rwa [hrk] at this
  have hup : F32.rnd (d * b) < (k : ℚ) + 1 := by
    rcases Nat.lt_or_ge k (2 ^ 15) with hkA | hkB
    · have hkA' : (k : ℚ) + 1 ≤ 32768 := by exact_mod_cast (by omega : k + 1 ≤ 32768)
      have hF : F32.rnd ((512 * (k : ℚ) + 511) / 512) = (512 * (k : ℚ) + 511) / 512 := by
        have h := F32.rnd_natMant (512 * k + 511) 140 (by omega)
        have e : ((512 * k + 511 : ℕ) : ℚ) * 2 ^ 140 / 2 ^ 149
            = (512 * (k : ℚ) + 511) / 512 := by
          push_cast; norm_num; ring
        rwa [e] at h
      have hP2 : d * b ≤ (512 * (k : ℚ) + 511) / 512 := by
        have h1 : d * b ≤ (v : ℚ) / 255 * (1 + 127 / 2 ^ 31) * b :=
          mul_le_mul_of_nonneg_right hd2 hb0
        have e : (v : ℚ) / 255 * (1 + 127 / 2 ^ 31) * b
            = (255 * (k : ℚ) + r) / 255 * (1 + 127 / 2 ^ 31) := by
          rw [← hkrq]; ring
        rw [e] at h1
        have h2 : (255 * (k : ℚ) + r) / 255 * (1 + 127 / 2 ^ 31)
            ≤ (512 * (k : ℚ) + 511) / 512 := by
          norm_num
          linarith
        exact le_trans h1 h2
      have := F32.rnd_mono hP2
      rw [hF] at this
      have h3 : (512 * (k : ℚ) + 511) / 512 < k + 1 := by linarith
      exact lt_of_le_of_lt this h3
    · have hkB' : (32768 : ℚ) ≤ (k : ℚ) := by exact_mod_cast hkB
      have hv128 : 128 ≤ v := by
        by_contra hcon
        have h127 : v ≤ 127 := by omega
        have : v * b ≤ 127 * 65535 := Nat.mul_le_mul h127 (by omega)
        omega
      have hd := hd3 hv128
      have hP : d * b = k + r / 255 + (255 * (b : ℚ) - (255 * k + r)) / (255 * 2 ^ 24) := by
        rw [hd]; field_simp
        linear_combination (4278189825 : ℚ) * hkrq
      have hP2 : d * b < (k : ℚ) + 511 / 512 := by
        rw [hP]
        have h1 : (r : ℚ) / 255 ≤ 254 / 255 := by linarith
        have h2 : (255 * (b : ℚ) - (255 * k + r)) / (255 * 2 ^ 24) ≤ 32767 / 2 ^ 24 := by
          rw [div_le_div_iff₀ (by norm_num) (by norm_num)]
          linarith
        have h3 : (254 : ℚ) / 255 + 32767 / 2 ^ 24 < 511 / 512 := by norm_num
        linarith
      have hP0 : (0 : ℚ) ≤ d * b := le_trans (by positivity) hP1
      have hs : F32.ulpExp (d * b) = 141 :=
        F32.ulpExp_eq_of_bounds 141 hP0
          (by norm_num1; linarith) (by norm_num1; linarith)
      have hrne : F32.rne (d * b * 2 ^ 149 / 2 ^ 141) ≤ ((256 * k + 255 : ℕ) : ℤ) := by
        apply F32.rne_le_of_lt_half
        push_cast
        norm_num1
        linarith
      have hrq : (F32.rne (d * b * 2 ^ 149 / 2 ^ 141) : ℚ) ≤ 256 * (k : ℚ) + 255 := by
        exact_mod_cast hrne
      unfold F32.rnd
      rw [hs]
      have : (F32.rne (d * b * 2 ^ 149 / 2 ^ 141) : ℚ) * 2 ^ 141 / 2 ^ 149
          ≤ (256 * (k : ℚ) + 255) * 2 ^ 141 / 2 ^ 149 := by
        apply div_le_div_of_nonneg_right _ (by positivity)
        exact mul_le_mul_of_nonneg_right hrq (by positivity)
      have e : (256 * (k : ℚ) + 255) * 2 ^ 141 / 2 ^ 149 = k + 255 / 256 := by
        norm_num; ring
      rw [e] at this
      linarith
  rw [Nat.floor_eq_iff (le_trans (by positivity) hlow)]
  exact ⟨hlow, hup⟩

/-- Claim C4, refuted as stated.  (1) For visibility 255 and base level
`16777217 = 2 ^ 24 + 1` the conversion of the base level to `float` rounds it to
`16777216`, which the function returns: visibility 255 does not give the base
level.  (2) For visibility 254 and base level 66046 the float product rounds up
to `65787`, which the function returns, while
`max (trunc (254 * 66046 / 255)) (66046 / 8) = 65786`. -/
theorem avGetObjLightLevel_formula_counterexample :
    (avGetObjLightLevel 255 16777217 = some 16777216 ∧
      max (255 * 16777217 / 255) (16777217 / START_DIVIDE) = 16777217) ∧
    (avGetObjLightLevel 254 66046 = some 65787 ∧
      max (254 * 66046 / 255) (66046 / START_DIVIDE) = 65786) := by
  have h1 : F32.rnd (1 : ℚ) = 1 := by simpa using F32.rnd_natCast 1 (by norm_num)
  have hd255 : F32.div (F32.ofNat 255) 255 = 1 := by
    rw [div255_eq 255 (by norm_num)]
    norm_num [h1]
  have hd254 : F32.div (F32.ofNat 254) 255 = 16711423 / 16777216 := by
    rw [div255_eq 254 (by norm_num)]
    have := rnd_div255 254 7 (by norm_num) (by norm_num) (by norm_num) (by norm_num)
    norm_num at this ⊢
    exact this
  have hb1 : F32.ofNat 16777217 = 16777216 := by
    unfold F32.ofNat
    exact F32.rnd_eq_of_tie 150 8388608 _ (by norm_num) (by norm_num) (by norm_num)
      (by norm_num) (by norm_num)
  have hb2 : F32.ofNat 66046 = 66046 := by
    unfold F32.ofNat
    simpa using F32.rnd_natCast 66046 (by norm_num)
  have hp1 : F32.mul 1 16777216 = 16777216 := by
    unfold F32.mul
    rw [one_mul]
    simpa using F32.rnd_natCast 16777216 (by norm_num)
  have hp2 : F32.mul (16711423 / 16777216) 66046 = 65787 := by
    unfold F32.mul
    exact F32.rnd_eq_of_near 142 8420736 _ (by norm_num) (by norm_num) (by norm_num)
      (by rw [abs_lt]; constructor <;> norm_num) (by norm_num)
  refine ⟨⟨?_, by norm_num [START_DIVIDE]⟩, ⟨?_, by norm_num [START_DIVIDE]⟩⟩
  · rw [avGetObjLightLevel_eq, hd255, hb1, hp1]
    have hf : ⌊(16777216 : ℚ)⌋₊ = 16777216 := by simp
    rw [hf]
    norm_num [START_DIVIDE]
  · rw [avGetObjLightLevel_eq, hd254, hb2, hp2]
    have hf : ⌊(65787 : ℚ)⌋₊ = 65787 := by simp
    rw [hf]
    norm_num [START_DIVIDE]

/-- Claim C4, amended.  For a visibility value `v` in `[0, 255]` and a base level
`b`: (1) the function returns `max (trunc (fl (fl (v / 255) * fl b))) (b / 8)`,
each `fl` a rounding to `float`, when that integral part is below `2 ^ 32`;
(2) for `b < 2 ^ 16` this is exactly `max (v * b / 255) (b / 8)`, with the exact
quotient truncated; (3) visibility 255 gives `b` for every `b ≤ 2 ^ 24`;
(4) visibility 0 gives `b / 8` for every `b`; `START_DIVIDE` is 8. -/
theorem avGetObjLightLevel_formula (v b : ℕ) (hv : v ≤ 255) :
    (avGetObjLightLevel v b =
      if ⌊F32.mul (F32.div (F32.ofNat v) 255) (F32.ofNat b)⌋₊ < 2 ^ 32 then
        some (max ⌊F32.mul (F32.div (F32.ofNat v) 255) (F32.ofNat b)⌋₊ (b / START_DIVIDE))
      else none) ∧
    (b < 2 ^ 16 → avGetObjLightLevel v b = some (max (v * b / 255) (b / START_DIVIDE))) ∧
    (b ≤ 2 ^ 24 → avGetObjLightLevel 255 b = some b) ∧
    avGetObjLightLevel 0 b = some (b / START_DIVIDE) ∧
    START_DIVIDE = 8 := by
  refine ⟨avGetObjLightLevel_eq v b, ?_, ?_, ?_, rfl⟩
  · intro hb
    rw [avGetObjLightLevel_eq, floor_scaled v b hv hb]
    have hk : v * b / 255 ≤ b := by
      have : v * b ≤ 255 * b := Nat.mul_le_mul_right b hv
      omega
    rw [if_pos (by omega)]
  · intro hb
    have h1 : F32.rnd (1 : ℚ) = 1 := by simpa using F32.rnd_natCast 1 (by norm_num)
    have hd : F32.div (F32.ofNat 255) 255 = 1 := by
      rw [div255_eq 255 (by norm_num)]
      norm_num [h1]
    have hp : F32.mul 1 (F32.ofNat b) = b := by
      unfold F32.mul F32.ofNat
      rw [one_mul, F32.rnd_idem, F32.rnd_natCast b hb]
    rw [avGetObjLightLevel_eq, hd, hp, Nat.floor_natCast, if_pos (by omega)]
    have : b / START_DIVIDE ≤ b := Nat.div_le_self _ _
    rw [max_eq_left this]
  · have hd : F32.div (F32.ofNat 0) 255 = 0 := by
      rw [div255_eq 0 (by norm_num)]; simp [F32.rnd_zero]
    have hp : F32.mul 0 (F32.ofNat b) = 0 := by
      unfold F32.mul
      rw [zero_mul, F32.rnd_zero]
    rw [avGetObjLightLevel_eq, hd, hp]
    simp

theorem avGetObjLightLevel_formula_witness :
    100 ≤ 255 ∧ avGetObjLightLevel 100 200 = some (max (100 * 200 / 255) (200 / START_DIVIDE)) ∧
      avGetObjLightLevel 255 200 = some 200 ∧
      avGetObjLightLevel 0 200 = some (200 / START_DIVIDE) :=
  ⟨by norm_num, (avGetObjLightLevel_formula 100 200 (by norm_num)).2.1 (by norm_num),
    (avGetObjLightLevel_formula 100 200 (by norm_num)).2.2.1 (by norm_num),
    (avGetObjLightLevel_formula 100 200 (by norm_num)).2.2.2.1⟩

/-! ## Pre-processing -/

theorem MIN_eq_min (a b : ℚ) : MIN a b = min a b := by
  unfold MIN
  split_ifs with h
  · exact (min_eq_left h.le).symm
  · exact (min_eq_right (not_lt.1 h)).symm

theorem MAX_eq_max (a b : ℚ) : MAX a b = max a b := by
  unfold MAX
  split_ifs with h
  · exact (max_eq_left h.le).symm
  · exact (max_eq_right (not_lt.1 h)).symm

theorem preProcessTile_level_hidden (w : World) (k : ℕ) (t : MAPTILE)
    (hvis : w.tileVisible k = false) :
    (preProcessTile w k t).level =
      if w.bRevealActive then
        MIN MIN_ILLUM (F32.div (getTileIllumination w.terrainShaderType t) 4)
      else 0 := by
  unfold preProcessTile
  simp [hvis]

theorem preProcessTile_level_visible (w : World) (k : ℕ) (t : MAPTILE)
    (hvis : w.tileVisible k = true) :
    (preProcessTile w k t).level = getTileIllumination w.terrainShaderType t := by
  unfold preProcessTile
  cases w.terrainShaderType <;> simp [hvis, getTileIllumination]

/-- Claim C5 (reveal-mode baseline): after `preProcessVisibility`, a tile of the
map that is not visible to the selected player has level 0 when the reveal flag
is off and level `min(MIN_ILLUM, illumination / 4)` (with `MIN_ILLUM = 45` and
the float quotient) when it is on, whatever its level was before; the float
quotient is the exact quarter for every illumination that is a float of
magnitude at least `2 ^ (-124)`, or zero. -/
theorem preProcessVisibility_baseline (w : World) (k : ℕ)
    (hk : k < w.mapWidth * w.mapHeight) (hvis : w.tileVisible k = false) :
    (w.bRevealActive = false → ((preProcessVisibility w).psMapTiles k).level = 0) ∧
    (w.bRevealActive = true →
      ((preProcessVisibility w).psMapTiles k).level =
        min MIN_ILLUM (F32.div (getTileIllumination w.terrainShaderType (w.psMapTiles k)) 4)) ∧
    MIN_ILLUM = 45 ∧
    (F32.rnd (getTileIllumination w.terrainShaderType (w.psMapTiles k)) =
        getTileIllumination w.terrainShaderType (w.psMapTiles k) →
      (getTileIllumination w.terrainShaderType (w.psMapTiles k) = 0 ∨
        (2 : ℚ) ^ 25 / 2 ^ 149 ≤ |getTileIllumination w.terrainShaderType (w.psMapTiles k)|) →
      F32.div (getTileIllumination w.terrainShaderType (w.psMapTiles k)) 4 =
        getTileIllumination w.terrainShaderType (w.psMapTiles k) / 4) := by
  rw [preProcessVisibility_tile, if_pos hk, preProcessTile_level_hidden w k _ hvis]
  refine ⟨?_, ?_, rfl, ?_⟩
  · intro h; rw [h]; rfl
  · intro h; rw [h, if_pos rfl, MIN_eq_min]
  · intro hf h
    rcases h with h0 | h
    · rw [h0]; simp [F32.div, F32.rnd_zero]
    · exact F32.div_four_exact _ hf h

theorem preProcessVisibility_baseline_witness :
    0 < scenarioWorld.mapWidth * scenarioWorld.mapHeight ∧
      scenarioWorld.tileVisible 0 = false ∧
      ((preProcessVisibility scenarioWorld).psMapTiles 0).level =
        min MIN_ILLUM
          (F32.div (getTileIllumination scenarioWorld.terrainShaderType
            (scenarioWorld.psMapTiles 0)) 4) :=
  ⟨by decide, rfl,
    (preProcessVisibility_baseline scenarioWorld 0 (by decide) rfl).2.1 rfl⟩

/-- Claim C6 (visible override): after `preProcessVisibility`, a tile of the map
that is visible to the selected player has level equal to its tile illumination
(`getTileIllumination`: the ambient occlusion in `SINGLE_PASS` mode, the static
illumination otherwise), whatever the reveal flag and its former level: no
division by four and no cap at `MIN_ILLUM`. -/
theorem preProcessVisibility_visible (w : World) (k : ℕ)
    (hk : k < w.mapWidth * w.mapHeight) (hvis : w.tileVisible k = true) :
    ((preProcessVisibility w).psMapTiles k).level =
        getTileIllumination w.terrainShaderType (w.psMapTiles k) ∧
    (w.terrainShaderType = TerrainShaderType.SINGLE_PASS →
      ((preProcessVisibility w).psMapTiles k).level = (w.psMapTiles k).ambientOcclusion) ∧
    (w.terrainShaderType ≠ TerrainShaderType.SINGLE_PASS →
      ((preProcessVisibility w).psMapTiles k).level = (w.psMapTiles k).illumination) := by
  rw [preProcessVisibility_tile, if_pos hk, preProcessTile_level_visible w k _ hvis]
  refine ⟨rfl, ?_, ?_⟩
  · intro h; rw [h]; rfl
  · intro h
    cases hs : w.terrainShaderType
    · rfl
    · exact absurd hs h

theorem preProcessVisibility_visible_witness :
    0 < visibleWorld.mapWidth * visibleWorld.mapHeight ∧
      visibleWorld.tileVisible 0 = true ∧
      ((preProcessVisibility visibleWorld).psMapTiles 0).level =
        getTileIllumination visibleWorld.terrainShaderType (visibleWorld.psMapTiles 0) :=
  ⟨by decide, rfl, (preProcessVisibility_visible visibleWorld 0 (by decide) rfl).1⟩

/-! ## The target of the fade -/

theorem scenario_levels (n : ℕ) :
    ((avUpdateTilesN scenarioWorld 20 n).psMapTiles 0).level
      = (((min (0 + n * (20 : ℕ)) 50 : ℤ)) : ℚ) := by
  rw [avUpdateTilesN_tile, if_pos (by decide)]
  have h := iterate_level_int scenarioWorld (scenarioWorld.psMapTiles 0) 0 50 20 (by decide)
    (by simp [scenarioWorld, oneTileWorld, scenarioTile]) (by simpa using scenarioTile_max 0)
    (by norm_num) (by norm_num) (by norm_num) (by norm_num) n
  rw [if_neg (by norm_num)] at h
  simpa using h

/-- Levels of a one-tile map whose tile starts at level 0, is explored by the
selected player and has the whole-number target `T`, with increment 20. -/
theorem fade_levels (w : World) (T : ℕ) (hmap : 0 < w.mapHeight * w.mapWidth)
    (hexp : (w.psMapTiles 0).tileExploredBits &&& playermask w ≠ 0)
    (hl : (w.psMapTiles 0).level = 0) (hT : tileMaxLevel w (w.psMapTiles 0) = T)
    (hT24 : T ≤ 2 ^ 24) (n : ℕ) :
    ((avUpdateTilesN w 20 n).psMapTiles 0).level = (((min (n * 20) T : ℕ)) : ℚ) := by
  rw [avUpdateTilesN_tile, if_pos hmap]
  have h := iterate_level_int w (w.psMapTiles 0) 0 (T : ℤ) 20 hexp
    (by rw [hl]; simp) (by rw [hT]; simp) (by norm_num) (by norm_num) (by positivity)
    (by exact_mod_cast hT24) n
  have e : (((20 : ℕ) : ℚ)) = 20 := by norm_num
  rw [e] at h
  rw [h]
  by_cases h0 : (T : ℤ) ≤ 0
  · have hT0 : T = 0 := by omega
    subst hT0
    simp
  · rw [if_neg h0]
    push_cast
    ring_nf

theorem sensedWorld_max : tileMaxLevel sensedWorld (sensedWorld.psMapTiles 0) = 100 := by
  simp [tileMaxLevel, tileUnwatched, playerAllianceBits, sensedWorld, oneTileWorld,
    sensedTile, scenarioTile, getTileIllumination]

theorem allyWorld_max : tileMaxLevel allyWorld (allyWorld.psMapTiles 0) = 100 := by
  simp [tileMaxLevel, tileUnwatched, playerAllianceBits, allyWorld, scenarioTile,
    getTileIllumination]

theorem uplinkWorld_max : tileMaxLevel uplinkWorld (uplinkWorld.psMapTiles 0) = 100 := by
  simp [tileMaxLevel, tileUnwatched, playerAllianceBits, uplinkWorld, scenarioTile,
    getTileIllumination]

theorem godWorld_max : tileMaxLevel godWorld (godWorld.psMapTiles 0) = 100 := by
  simp [tileMaxLevel, tileUnwatched, playerAllianceBits, godWorld, scenarioTile,
    getTileIllumination]

/-- Claim C7 (halving rule).  (1) For a selected player below 32, where the mask
`1 << selectedPlayer` of the loop is defined, every tile of the map that is
known (level above `MIN_ILLUM` or explored bit of the selected player set) steps
toward a target: down to `MAX(level - increment, target)` when above it, up to
`MIN(level + increment, target)` when below it, unchanged when on it; and the
target is the float half of the tile illumination exactly when god mode is off
and the alliance bits of the selected player (`alliancebits[selectedPlayer]`
inside the player slots, 0 beyond them) share no bit with the satellite-uplink
bits or the sensor bits of the tile, and the full illumination otherwise.
(2) The local `maxLevel` of the loop is that target.  (3) The float half of a
float of magnitude at least `2 ^ (-125)` is its exact half.  (4) In the scenario
of the spec (ambient occlusion 100, `SINGLE_PASS`, explored, no coverage, level
0, increment 20) the target is 50 and the levels after one, two and three frames
are 20, 40 and 50.  (5) The same tile fades to the full illumination 100, with
levels 20, 60, 100 and 100 after one, three, five and six frames, when it is
under a sensor of the selected player, under a sensor of an ally of the selected
player, when the selected player has a satellite uplink, and in god mode. -/
theorem avUpdateTiles_halving_rule :
    (∀ (w : World) (increment : ℚ) (k : ℕ) (target : ℚ),
      k < w.mapHeight * w.mapWidth → w.selectedPlayer < 32 →
      ((w.psMapTiles k).level > MIN_ILLUM ∨
        (w.psMapTiles k).tileExploredBits &&& (1 <<< w.selectedPlayer) ≠ 0) →
      target =
        (if w.godMode = false ∧
            (if w.selectedPlayer < w.MAX_PLAYER_SLOTS then w.alliancebits w.selectedPlayer
              else 0) &&& (w.satuplinkbits ||| (w.psMapTiles k).sensorBits) = 0 then
          F32.div (getTileIllumination w.terrainShaderType (w.psMapTiles k)) 2
        else getTileIllumination w.terrainShaderType (w.psMapTiles k)) →
      ((avUpdateTiles w increment).psMapTiles k).level =
        if (w.psMapTiles k).level > target then
          MAX (F32.sub (w.psMapTiles k).level increment) target
        else if (w.psMapTiles k).level < target then
          MIN (F32.add (w.psMapTiles k).level increment) target
        else (w.psMapTiles k).level) ∧
    (∀ (w : World) (t : MAPTILE),
      tileMaxLevel w t =
        if w.godMode = false ∧
            (if w.selectedPlayer < w.MAX_PLAYER_SLOTS then w.alliancebits w.selectedPlayer
              else 0) &&& (w.satuplinkbits ||| t.sensorBits) = 0 then
          F32.div (getTileIllumination w.terrainShaderType t) 2
        else getTileIllumination w.terrainShaderType t) ∧
    (∀ x : ℚ, F32.rnd x = x → (2 : ℚ) ^ 24 / 2 ^ 149 ≤ |x| → F32.div x 2 = x / 2) ∧
    (tileMaxLevel scenarioWorld (scenarioWorld.psMapTiles 0) = 50 ∧
      ((avUpdateTilesN scenarioWorld 20 1).psMapTiles 0).level = 20 ∧
      ((avUpdateTilesN scenarioWorld 20 2).psMapTiles 0).level = 40 ∧
      ((avUpdateTilesN scenarioWorld 20 3).psMapTiles 0).level = 50) ∧
    (tileMaxLevel sensedWorld (sensedWorld.psMapTiles 0) = 100 ∧
      ((avUpdateTilesN sensedWorld 20 1).psMapTiles 0).level = 20 ∧
      ((avUpdateTilesN sensedWorld 20 3).psMapTiles 0).level = 60 ∧
      ((avUpdateTilesN sensedWorld 20 5).psMapTiles 0).level = 100 ∧
      ((avUpdateTilesN sensedWorld 20 6).psMapTiles 0).level = 100) ∧
    (tileMaxLevel allyWorld (allyWorld.psMapTiles 0) = 100 ∧
      ((avUpdateTilesN allyWorld 20 1).psMapTiles 0).level = 20 ∧
      ((avUpdateTilesN allyWorld 20 3).psMapTiles 0).level = 60 ∧
      ((avUpdateTilesN allyWorld 20 5).psMapTiles 0).level = 100 ∧
      ((avUpdateTilesN allyWorld 20 6).psMapTiles 0).level = 100) ∧
    (tileMaxLevel uplinkWorld (uplinkWorld.psMapTiles 0) = 100 ∧
      ((avUpdateTilesN uplinkWorld 20 1).psMapTiles 0).level = 20 ∧
      ((avUpdateTilesN uplinkWorld 20 3).psMapTiles 0).level = 60 ∧
      ((avUpdateTilesN uplinkWorld 20 5).psMapTiles 0).level = 100 ∧
      ((avUpdateTilesN uplinkWorld 20 6).psMapTiles 0).level = 100) ∧
    (tileMaxLevel godWorld (godWorld.psMapTiles 0) = 100 ∧
      ((avUpdateTilesN godWorld 20 1).psMapTiles 0).level = 20 ∧
      ((avUpdateTilesN godWorld 20 3).psMapTiles 0).level = 60 ∧
      ((avUpdateTilesN godWorld 20 5).psMapTiles 0).level = 100 ∧
      ((avUpdateTilesN godWorld 20 6).psMapTiles 0).level = 100) := by
  have hs := fade_levels sensedWorld 100 (by decide) (by decide) rfl sensedWorld_max
    (by norm_num)
  have ha := fade_levels allyWorld 100 (by decide) (by decide) rfl allyWorld_max
    (by norm_num)
  have hu := fade_levels uplinkWorld 100 (by decide) (by decide) rfl uplinkWorld_max
    (by norm_num)
  have hg := fade_levels godWorld 100 (by decide) (by decide) rfl godWorld_max
    (by norm_num)
  refine ⟨?_, fun w t => rfl, F32.div_two_exact, ⟨scenarioTile_max 0, ?_, ?_, ?_⟩,
    ⟨sensedWorld_max, ?_, ?_, ?_, ?_⟩, ⟨allyWorld_max, ?_, ?_, ?_, ?_⟩,
    ⟨uplinkWorld_max, ?_, ?_, ?_, ?_⟩, ⟨godWorld_max, ?_, ?_, ?_, ?_⟩⟩
  · intro w increment k target hk hsp hseen htarget
    have hs : tileSeen w (w.psMapTiles k) := by
      unfold tileSeen
      rw [playermask_of_lt w hsp]
      exact hseen
    have hmax : tileMaxLevel w (w.psMapTiles k) = target := by
      rw [htarget]; rfl
    rw [avUpdateTiles_tile, if_pos hk]
    unfold avUpdateTile
    rw [if_pos hs]
    dsimp only
    rw [hmax]
    split_ifs <;> rfl
  · rw [scenario_levels]; norm_num
  · rw [scenario_levels]; norm_num
  · rw [scenario_levels]; norm_num
  · rw [hs]; norm_num
  · rw [hs]; norm_num
  · rw [hs]; norm_num
  · rw [hs]; norm_num
  · rw [ha]; norm_num
  · rw [ha]; norm_num
  · rw [ha]; norm_num
  · rw [ha]; norm_num
  · rw [hu]; norm_num
  · rw [hu]; norm_num
  · rw [hu]; norm_num
  · rw [hu]; norm_num
  · rw [hg]; norm_num
  · rw [hg]; norm_num
  · rw [hg]; norm_num
  · rw [hg]; norm_num

/-! ## The size of a step -/

theorem dimTile_max : tileMaxLevel dimWorld dimTile = 50 := by
  have h50 : F32.rnd (50 : ℚ) = 50 := F32.rnd_ofNat_lit 50 (by norm_num)
  simp [tileMaxLevel, tileUnwatched, playerAllianceBits, dimWorld, oneTileWorld, dimTile,
    scenarioTile, getTileIllumination, F32.div]
  norm_num [h50]

theorem dimTile_seen : tileSeen dimWorld dimTile := by
  simp [tileSeen, dimTile, scenarioTile, playermask, dimWorld, oneTileWorld]

theorem darkTile_max : tileMaxLevel darkWorld darkTile = 50 := by
  have h50 : F32.rnd (50 : ℚ) = 50 := F32.rnd_ofNat_lit 50 (by norm_num)
  simp [tileMaxLevel, tileUnwatched, playerAllianceBits, darkWorld, oneTileWorld, darkTile,
    scenarioTile, getTileIllumination, F32.div]
  norm_num [h50]

/-- Claim C8, refuted as stated, on two tiles of one-tile maps with target 50.
(1) An unexplored tile at level 10 with increment 20: a step of 20 would not
pass the target, yet the level stays 10, the tile not being seen.  (2) An
explored tile at level 10 with the float increment `0.1f`: the float sum
`10 + 0.1f` rounds up to `5295309 / 524288`, and the level moves by more than
the increment. -/
theorem avUpdateTiles_bounded_step_counterexample :
    (tileMaxLevel darkWorld (darkWorld.psMapTiles 0) = 50 ∧
      (darkWorld.psMapTiles 0).level = 10 ∧ (10 : ℚ) + 20 ≤ 50 ∧
      ((avUpdateTiles darkWorld 20).psMapTiles 0).level = 10) ∧
    (tileMaxLevel dimWorld (dimWorld.psMapTiles 0) = 50 ∧
      (dimWorld.psMapTiles 0).level = 10 ∧ F32.IsF32 oneTenth ∧
      ((avUpdateTiles dimWorld oneTenth).psMapTiles 0).level = 5295309 / 524288 ∧
      ¬ (|((avUpdateTiles dimWorld oneTenth).psMapTiles 0).level - (dimWorld.psMapTiles 0).level|
        ≤ oneTenth)) := by
  have hdark : ((avUpdateTiles darkWorld 20).psMapTiles 0).level = 10 := by
    rw [avUpdateTiles_tile, if_pos (by decide), avUpdateTile_of_not_seen]
    · rfl
    · have e : darkWorld.psMapTiles 0 = darkTile := rfl
      rw [e]
      simp [tileSeen, darkTile, scenarioTile, MIN_ILLUM, playermask, darkWorld, oneTileWorld]
      norm_num
  have hdim : ((avUpdateTiles dimWorld oneTenth).psMapTiles 0).level = 5295309 / 524288 := by
    have e : dimWorld.psMapTiles 0 = dimTile := rfl
    have hl : dimTile.level = 10 := rfl
    rw [avUpdateTiles_tile, if_pos (by decide), e,
      avUpdateTile_level_of_lt _ _ _ dimTile_seen (by rw [dimTile_max, hl]; norm_num),
      dimTile_max, hl]
    have hr : F32.rnd (10 + oneTenth) = 5295309 / 524288 :=
      F32.rnd_eq_of_near 129 10590618 _ (by norm_num [oneTenth]) (by norm_num [oneTenth])
        (by norm_num [oneTenth]) (by rw [abs_lt]; constructor <;> norm_num [oneTenth])
        (by norm_num)
    simp only [MIN, F32.add]
    rw [hr, if_pos (by norm_num)]
  refine ⟨⟨darkTile_max, rfl, by norm_num, hdark⟩,
    ⟨dimTile_max, rfl, ?_, hdim, ?_⟩⟩
  · refine ⟨F32.rnd_eq_of_near 122 13421773 _ (by norm_num [oneTenth])
      (by norm_num [oneTenth]) (by norm_num [oneTenth])
      (by rw [abs_lt]; constructor <;> norm_num [oneTenth]) (by norm_num [oneTenth]), ?_⟩
    rw [abs_lt]; constructor <;> norm_num [oneTenth]
  · rw [hdim]
    have e : (dimWorld.psMapTiles 0).level = 10 := rfl
    rw [e, abs_of_nonneg (by norm_num)]
    norm_num [oneTenth]

/-- Claim C8, amended.  For a tile of the map with a float level and an increment
`>= 0`: (1) a tile that is not seen keeps its level; (2) a seen tile above its
target gets the level `max (fl (level - increment)) target`, (3) a seen tile
below its target gets `min (fl (level + increment)) target`, `fl` being the
rounding to `float`, and (4) a tile on its target keeps its level; (5) the level
never moves by more than its distance to the target; (6) whenever the float
subtraction and addition of the increment are exact, the level changes by at
most the increment, and a seen tile moves by exactly the increment unless that
would pass the target, in which case the level becomes the target. -/
theorem avUpdateTiles_bounded_step (w : World) (increment : ℚ) (k : ℕ)
    (hk : k < w.mapHeight * w.mapWidth) (hinc : 0 ≤ increment)
    (hlevel : F32.IsF32 (w.psMapTiles k).level) :
    (¬ tileSeen w (w.psMapTiles k) →
      ((avUpdateTiles w increment).psMapTiles k).level = (w.psMapTiles k).level) ∧
    (tileSeen w (w.psMapTiles k) →
      tileMaxLevel w (w.psMapTiles k) < (w.psMapTiles k).level →
      ((avUpdateTiles w increment).psMapTiles k).level =
        max (F32.sub (w.psMapTiles k).level increment) (tileMaxLevel w (w.psMapTiles k))) ∧
    (tileSeen w (w.psMapTiles k) →
      (w.psMapTiles k).level < tileMaxLevel w (w.psMapTiles k) →
      ((avUpdateTiles w increment).psMapTiles k).level =
        min (F32.add (w.psMapTiles k).level increment) (tileMaxLevel w (w.psMapTiles k))) ∧
    ((w.psMapTiles k).level = tileMaxLevel w (w.psMapTiles k) →
      ((avUpdateTiles w increment).psMapTiles k).level = (w.psMapTiles k).level) ∧
    |((avUpdateTiles w increment).psMapTiles k).level - (w.psMapTiles k).level|
      ≤ |tileMaxLevel w (w.psMapTiles k) - (w.psMapTiles k).level| ∧
    (F32.sub (w.psMapTiles k).level increment = (w.psMapTiles k).level - increment →
      F32.add (w.psMapTiles k).level increment = (w.psMapTiles k).level + increment →
      |((avUpdateTiles w increment).psMapTiles k).level - (w.psMapTiles k).level|
          ≤ increment ∧
        (tileSeen w (w.psMapTiles k) →
          tileMaxLevel w (w.psMapTiles k) ≤ (w.psMapTiles k).level - increment →
          ((avUpdateTiles w increment).psMapTiles k).level
            = (w.psMapTiles k).level - increment) ∧
        (tileSeen w (w.psMapTiles k) →
          (w.psMapTiles k).level + increment ≤ tileMaxLevel w (w.psMapTiles k) →
          ((avUpdateTiles w increment).psMapTiles k).level
            = (w.psMapTiles k).level + increment) ∧
        (tileSeen w (w.psMapTiles k) →
          (w.psMapTiles k).level - increment ≤ tileMaxLevel w (w.psMapTiles k) →
          tileMaxLevel w (w.psMapTiles k) ≤ (w.psMapTiles k).level + increment →
          ((avUpdateTiles w increment).psMapTiles k).level
            = tileMaxLevel w (w.psMapTiles k))) := by
  rw [avUpdateTiles_tile, if_pos hk]
  generalize w.psMapTiles k = t at hlevel ⊢
  have hbetween := avUpdateTile_level_between w increment t hinc hlevel.1
  have h1 : ¬ tileSeen w t → (avUpdateTile w increment t).level = t.level := by
    intro hs; rw [avUpdateTile_of_not_seen w increment t hs]
  have h2 : tileSeen w t → tileMaxLevel w t < t.level →
      (avUpdateTile w increment t).level
        = max (F32.sub t.level increment) (tileMaxLevel w t) := by
    intro hs h; rw [avUpdateTile_level_of_gt w increment t hs h, MAX_eq_max]
  have h3 : tileSeen w t → t.level < tileMaxLevel w t →
      (avUpdateTile w increment t).level
        = min (F32.add t.level increment) (tileMaxLevel w t) := by
    intro hs h; rw [avUpdateTile_level_of_lt w increment t hs h, MIN_eq_min]
  have h4 : t.level = tileMaxLevel w t → (avUpdateTile w increment t).level = t.level := by
    intro h; rw [avUpdateTile_of_eq w increment t h]
  refine ⟨h1, h2, h3, h4, ?_, ?_⟩
  · rcases le_total t.level (tileMaxLevel w t) with hle | hle
    · rw [min_eq_left hle, max_eq_right hle] at hbetween
      rw [abs_of_nonneg (by linarith), abs_of_nonneg (by linarith)]
      linarith
    · rw [min_eq_right hle, max_eq_left hle] at hbetween
      rw [abs_of_nonpos (by linarith), abs_of_nonpos (by linarith)]
      linarith
  · intro hsub hadd
    have key : ∀ hs : tileSeen w t,
        (tileMaxLevel w t ≤ t.level - increment →
          (avUpdateTile w increment t).level = t.level - increment) ∧
        (t.level + increment ≤ tileMaxLevel w t →
          (avUpdateTile w increment t).level = t.level + increment) ∧
        (t.level - increment ≤ tileMaxLevel w t →
          tileMaxLevel w t ≤ t.level + increment →
          (avUpdateTile w increment t).level = tileMaxLevel w t) := by
      intro hs
      rcases lt_trichotomy t.level (tileMaxLevel w t) with hlt | heq | hgt
      · rw [h3 hs hlt, hadd]
        refine ⟨fun h => ?_, fun h => min_eq_left h, fun _ h => min_eq_right h⟩
        exfalso; linarith
      · rw [h4 heq]
        refine ⟨fun h => by linarith, fun h => by linarith, fun _ _ => heq⟩
      · rw [h2 hs hgt, hsub]
        refine ⟨fun h => max_eq_left h, fun h => ?_, fun h _ => max_eq_right h⟩
        exfalso; linarith
    refine ⟨?_, fun hs => (key hs).1, fun hs => (key hs).2.1, fun hs => (key hs).2.2⟩
    by_cases hs : tileSeen w t
    · rcases lt_trichotomy t.level (tileMaxLevel w t) with hlt | heq | hgt
      · rw [h3 hs hlt, hadd]
        rcases min_cases (t.level + increment) (tileMaxLevel w t) with ⟨e, he⟩ | ⟨e, he⟩
        · rw [e, abs_of_nonneg (by linarith)]; linarith
        · rw [e, abs_of_nonneg (by linarith)]; linarith
      · rw [h4 heq]; simpa using hinc
      · rw [h2 hs hgt, hsub]
        rcases max_cases (t.level - increment) (tileMaxLevel w t) with ⟨e, he⟩ | ⟨e, he⟩
        · rw [e, abs_of_nonpos (by linarith)]; linarith
        · rw [e, abs_of_nonpos (by linarith)]; linarith
    · rw [h1 hs]; simpa using hinc

theorem avUpdateTiles_bounded_step_witness :
    0 < scenarioWorld.mapHeight * scenarioWorld.mapWidth ∧ (0 : ℚ) ≤ 20 ∧
      F32.IsF32 (scenarioWorld.psMapTiles 0).level ∧
      |((avUpdateTiles scenarioWorld 20).psMapTiles 0).level
          - (scenarioWorld.psMapTiles 0).level|
        ≤ |tileMaxLevel scenarioWorld (scenarioWorld.psMapTiles 0)
          - (scenarioWorld.psMapTiles 0).level| ∧
      ((avUpdateTiles scenarioWorld 20).psMapTiles 0).level
        = (scenarioWorld.psMapTiles 0).level + 20 := by
  have h0 : F32.IsF32 (scenarioWorld.psMapTiles 0).level := by
    simpa [scenarioWorld, oneTileWorld, scenarioTile] using F32.isF32_natCast 0 (by norm_num)
  have h20 : F32.rnd (20 : ℚ) = 20 := F32.rnd_ofNat_lit 20 (by norm_num)
  have hl : (scenarioWorld.psMapTiles 0).level = 0 := rfl
  have h := avUpdateTiles_bounded_step scenarioWorld 20 0 (by decide) (by norm_num) h0
  refine ⟨by decide, by norm_num, h0, h.2.2.2.2.1, ?_⟩
  refine (h.2.2.2.2.2 ?_ ?_).2.2.1 (scenarioTile_seen 0) ?_
  · rw [hl]; unfold F32.sub; norm_num
    have := F32.rnd_neg 20
    rw [h20] at this
    exact this
  · rw [hl]; unfold F32.add; norm_num [h20]
  · rw [hl]
    have hm : tileMaxLevel scenarioWorld (scenarioWorld.psMapTiles 0) = 50 :=
      scenarioTile_max 0
    rw [hm]; norm_num
/-! ## Tiles that are not seen -/

/-- Claim C9 (unknown tiles are untouched): for a selected player below 32, where
the mask `1 << selectedPlayer` of the loop is defined, a tile whose level is at
most `MIN_ILLUM = 45` and whose explored bit for the selected player is clear is
left exactly as it was by `avUpdateTiles`, for every increment, god-mode setting
and sensor coverage. -/
theorem avUpdateTiles_unknown_untouched (w : World) (increment : ℚ) (k : ℕ)
    (hsp : w.selectedPlayer < 32)
    (hlevel : (w.psMapTiles k).level ≤ MIN_ILLUM)
    (hexp : (w.psMapTiles k).tileExploredBits &&& (1 <<< w.selectedPlayer) = 0) :
    (avUpdateTiles w increment).psMapTiles k = w.psMapTiles k ∧
      ((avUpdateTiles w increment).psMapTiles k).level = (w.psMapTiles k).level ∧
      MIN_ILLUM = 45 := by
  have hs : ¬ tileSeen w (w.psMapTiles k) := by
    unfold tileSeen
    rw [playermask_of_lt w hsp]
    rintro (h | h)
    · exact absurd hlevel (not_le.2 h)
    · exact h hexp
  have h : (avUpdateTiles w increment).psMapTiles k = w.psMapTiles k := by
    rw [avUpdateTiles_tile]
    split_ifs
    · exact avUpdateTile_of_not_seen w increment _ hs
    · rfl
  exact ⟨h, by rw [h], rfl⟩

theorem avUpdateTiles_unknown_untouched_witness :
    darkWorld.selectedPlayer < 32 ∧
      (darkWorld.psMapTiles 0).level ≤ MIN_ILLUM ∧
      (darkWorld.psMapTiles 0).tileExploredBits &&& (1 <<< darkWorld.selectedPlayer) = 0 ∧
      (avUpdateTiles darkWorld 20).psMapTiles 0 = darkWorld.psMapTiles 0 := by
  have h1 : (darkWorld.psMapTiles 0).level ≤ MIN_ILLUM := by
    have e : (darkWorld.psMapTiles 0).level = 10 := rfl
    rw [e]; norm_num [MIN_ILLUM]
  have h2 : (darkWorld.psMapTiles 0).tileExploredBits &&& (1 <<< darkWorld.selectedPlayer) = 0 := by
    decide
  exact ⟨by decide, h1, h2,
    (avUpdateTiles_unknown_untouched darkWorld 20 0 (by decide) h1 h2).1⟩

/-! ## The range of the level -/

theorem preProcessTile_level_range (w : World) (k : ℕ) (t : MAPTILE) (M : ℚ)
    (h0 : 0 ≤ getTileIllumination w.terrainShaderType t)
    (hM : getTileIllumination w.terrainShaderType t ≤ M)
    (hf : F32.rnd (getTileIllumination w.terrainShaderType t) =
      getTileIllumination w.terrainShaderType t) :
    0 ≤ (preProcessTile w k t).level ∧ (preProcessTile w k t).level ≤ M := by
  cases hvis : w.tileVisible k
  · rw [preProcessTile_level_hidden w k t hvis]
    split_ifs
    · rw [MIN_eq_min]
      have hq0 : 0 ≤ F32.div (getTileIllumination w.terrainShaderType t) 4 :=
        F32.rnd_nonneg (by positivity)
      have hqM : F32.div (getTileIllumination w.terrainShaderType t) 4 ≤ M := by
        have := F32.rnd_mono
          (show getTileIllumination w.terrainShaderType t / 4
            ≤ getTileIllumination w.terrainShaderType t by linarith)
        rw [hf] at this
        exact le_trans this hM
      exact ⟨le_min (by norm_num [MIN_ILLUM]) hq0, le_trans (min_le_right _ _) hqM⟩
    · exact ⟨le_rfl, le_trans h0 hM⟩
  · rw [preProcessTile_level_visible w k t hvis]
    exact ⟨h0, hM⟩

theorem tileMaxLevel_range (w : World) (t : MAPTILE) (M : ℚ)
    (h0 : 0 ≤ getTileIllumination w.terrainShaderType t)
    (hM : getTileIllumination w.terrainShaderType t ≤ M)
    (hf : F32.rnd (getTileIllumination w.terrainShaderType t) =
      getTileIllumination w.terrainShaderType t) :
    0 ≤ tileMaxLevel w t ∧ tileMaxLevel w t ≤ M := by
  unfold tileMaxLevel
  split_ifs
  · refine ⟨F32.rnd_nonneg (by positivity), ?_⟩
    have := F32.rnd_mono
      (show getTileIllumination w.terrainShaderType t / 2
        ≤ getTileIllumination w.terrainShaderType t by linarith)
    unfold F32.div
    rw [hf] at this
    exact le_trans this hM
  · exact ⟨h0, hM⟩

/-- Claim C10 (level range invariant): if on every tile of the map the tile
illumination and the level are floats in `[0, M]`, then after
`preProcessVisibility`, whatever the reveal flag, and after `avUpdateTiles` with
any increment `>= 0`, the level of every tile of the map is still in `[0, M]`. -/
theorem level_range_invariant (w : World) (M : ℚ)
    (h : ∀ k, k < w.mapWidth * w.mapHeight →
      F32.IsF32 (getTileIllumination w.terrainShaderType (w.psMapTiles k)) ∧
      F32.IsF32 (w.psMapTiles k).level ∧
      0 ≤ getTileIllumination w.terrainShaderType (w.psMapTiles k) ∧
      getTileIllumination w.terrainShaderType (w.psMapTiles k) ≤ M ∧
      0 ≤ (w.psMapTiles k).level ∧ (w.psMapTiles k).level ≤ M) :
    (∀ k, k < w.mapWidth * w.mapHeight →
      0 ≤ ((preProcessVisibility w).psMapTiles k).level ∧
        ((preProcessVisibility w).psMapTiles k).level ≤ M) ∧
    (∀ increment : ℚ, 0 ≤ increment → ∀ k, k < w.mapWidth * w.mapHeight →
      0 ≤ ((avUpdateTiles w increment).psMapTiles k).level ∧
        ((avUpdateTiles w increment).psMapTiles k).level ≤ M) := by
  constructor
  · intro k hk
    obtain ⟨hfi, -, hi0, hiM, -, -⟩ := h k hk
    rw [preProcessVisibility_tile, if_pos hk]
    exact preProcessTile_level_range w k _ M hi0 hiM hfi.1
  · intro increment hinc k hk
    obtain ⟨hfi, hfl, hi0, hiM, hl0, hlM⟩ := h k hk
    rw [avUpdateTiles_tile, if_pos (by rwa [Nat.mul_comm])]
    have hb := avUpdateTile_level_between w increment (w.psMapTiles k) hinc hfl.1
    have ht := tileMaxLevel_range w (w.psMapTiles k) M hi0 hiM hfi.1
    exact ⟨le_trans (le_min hl0 ht.1) hb.1, le_trans hb.2 (max_le hlM ht.2)⟩

theorem level_range_invariant_witness :
    (∀ k, k < scenarioWorld.mapWidth * scenarioWorld.mapHeight →
      F32.IsF32 (getTileIllumination scenarioWorld.terrainShaderType
        (scenarioWorld.psMapTiles k)) ∧
      F32.IsF32 (scenarioWorld.psMapTiles k).level ∧
      0 ≤ getTileIllumination scenarioWorld.terrainShaderType (scenarioWorld.psMapTiles k) ∧
      getTileIllumination scenarioWorld.terrainShaderType (scenarioWorld.psMapTiles k) ≤ 100 ∧
      0 ≤ (scenarioWorld.psMapTiles k).level ∧ (scenarioWorld.psMapTiles k).level ≤ 100) ∧
    (0 ≤ ((preProcessVisibility scenarioWorld).psMapTiles 0).level ∧
      ((preProcessVisibility scenarioWorld).psMapTiles 0).level ≤ 100) ∧
    (0 ≤ ((avUpdateTiles scenarioWorld 20).psMapTiles 0).level ∧
      ((avUpdateTiles scenarioWorld 20).psMapTiles 0).level ≤ 100) := by
  have hyp : ∀ k, k < scenarioWorld.mapWidth * scenarioWorld.mapHeight →
      F32.IsF32 (getTileIllumination scenarioWorld.terrainShaderType
        (scenarioWorld.psMapTiles k)) ∧
      F32.IsF32 (scenarioWorld.psMapTiles k).level ∧
      0 ≤ getTileIllumination scenarioWorld.terrainShaderType (scenarioWorld.psMapTiles k) ∧
      getTileIllumination scenarioWorld.terrainShaderType (scenarioWorld.psMapTiles k) ≤ 100 ∧
      0 ≤ (scenarioWorld.psMapTiles k).level ∧ (scenarioWorld.psMapTiles k).level ≤ 100 := by
    intro k _
    have e1 : getTileIllumination scenarioWorld.terrainShaderType
        (scenarioWorld.psMapTiles k) = 100 := rfl
    have e2 : (scenarioWorld.psMapTiles k).level = 0 := rfl
    rw [e1, e2]
    refine ⟨by simpa using F32.isF32_natCast 100 (by norm_num),
      by simpa using F32.isF32_natCast 0 (by norm_num), ?_, ?_, ?_, ?_⟩ <;> norm_num
  have h := level_range_invariant scenarioWorld 100 hyp
  exact ⟨hyp, h.1 0 (by decide), h.2 20 (by norm_num) 0 (by decide)⟩

/-! ## An observer beyond the player slots -/

theorem tileMaxLevel_of_no_alliance (w : World) (t : MAPTILE)
    (hslot : w.MAX_PLAYER_SLOTS ≤ w.selectedPlayer) (hgod : w.godMode = false) :
    tileMaxLevel w t = F32.div (getTileIllumination w.terrainShaderType t) 2 := by
  have hbits : playerAllianceBits w = 0 := by
    unfold playerAllianceBits
    rw [if_neg (by omega)]
  have hu : tileUnwatched w t := by
    unfold tileUnwatched
    rw [hbits]
    exact ⟨hgod, Nat.zero_and _⟩
  unfold tileMaxLevel
  rw [if_pos hu]

theorem avUpdateTile_congr (w w2 : World) (increment : ℚ) (t : MAPTILE)
    (hseen : tileSeen w2 t ↔ tileSeen w t) (hmax : tileMaxLevel w2 t = tileMaxLevel w t) :
    avUpdateTile w2 increment t = avUpdateTile w increment t := by
  unfold avUpdateTile
  rw [hmax]
  by_cases hs : tileSeen w t
  · rw [if_pos hs, if_pos (hseen.2 hs)]
  · rw [if_neg hs, if_neg (fun h => hs (hseen.1 h))]

/-- Claim C11, refuted as stated, in a one-tile world with 8 player slots and the
selected player 40, god mode off.  The index is beyond the player slots, yet the
call is not free of failure: the shift `1 << selectedPlayer` of the first line
of `avUpdateTiles`, which is not guarded as the read of the alliance table is,
has no value in C++ for a count of 40.  With the count taken modulo 32, as on
x86, the mask is the bit of player 8, and the tile, which is dark (level 0, not
above `MIN_ILLUM`) and whose explored bit for player 40 is clear, is taken for
explored on behalf of player 8 and faded to level 20. -/
theorem avUpdateTiles_out_of_range_observer_counterexample :
    farSpectatorWorld.MAX_PLAYER_SLOTS ≤ farSpectatorWorld.selectedPlayer ∧
    farSpectatorWorld.godMode = false ∧
    playermaskChecked farSpectatorWorld = none ∧
    (farSpectatorWorld.psMapTiles 0).level ≤ MIN_ILLUM ∧
    (farSpectatorWorld.psMapTiles 0).tileExploredBits
      &&& (1 <<< farSpectatorWorld.selectedPlayer) = 0 ∧
    playermask farSpectatorWorld = 256 ∧
    ((avUpdateTiles farSpectatorWorld 20).psMapTiles 0).level = 20 := by
  have h50 : F32.rnd (50 : ℚ) = 50 := F32.rnd_ofNat_lit 50 (by norm_num)
  have h20 : F32.rnd (20 : ℚ) = 20 := F32.rnd_ofNat_lit 20 (by norm_num)
  have e0 : farSpectatorWorld.psMapTiles 0 = neighbourTile := rfl
  have hl : neighbourTile.level = 0 := rfl
  have hmax : tileMaxLevel farSpectatorWorld neighbourTile = 50 := by
    simp [tileMaxLevel, tileUnwatched, playerAllianceBits, farSpectatorWorld,
      neighbourTile, getTileIllumination, F32.div]
    norm_num [h50]
  have hseen : tileSeen farSpectatorWorld neighbourTile := Or.inr (by decide)
  refine ⟨by decide, rfl, by decide, ?_, by decide, by decide, ?_⟩
  · rw [e0, hl]; norm_num [MIN_ILLUM]
  · rw [avUpdateTiles_tile, if_pos (by decide), e0,
      avUpdateTile_level_of_lt _ _ _ hseen (by rw [hmax, hl]; norm_num), hmax, hl]
    unfold MIN F32.add
    norm_num [h20]

/-- Claim C11, amended: when the index of the selected player is at least
`MAX_PLAYER_SLOTS` and below 32, the width of the `int` that
`1 << selectedPlayer` shifts, and god mode is off, the shift has a value, the bit
of the selected player, the alliance bits of the observer are taken as 0, the
target of every tile is the float half of its illumination whatever the
satellite-uplink bits and the sensor bits of the tile are, every known tile of
the map (level above `MIN_ILLUM` or explored bit of the selected player set)
steps toward that half, and the result of the call does not depend on the
alliance table or on the satellite-uplink bits: the table is not read. -/
theorem avUpdateTiles_out_of_range_observer (w : World) (increment : ℚ) (k : ℕ)
    (hslot : w.MAX_PLAYER_SLOTS ≤ w.selectedPlayer) (hsp : w.selectedPlayer < 32)
    (hgod : w.godMode = false) :
    playermaskChecked w = some (1 <<< w.selectedPlayer) ∧
    playermask w = 1 <<< w.selectedPlayer ∧
    playerAllianceBits w = 0 ∧
    (∀ t : MAPTILE,
      tileMaxLevel w t = F32.div (getTileIllumination w.terrainShaderType t) 2) ∧
    (k < w.mapHeight * w.mapWidth →
      ((w.psMapTiles k).level > MIN_ILLUM ∨
        (w.psMapTiles k).tileExploredBits &&& (1 <<< w.selectedPlayer) ≠ 0) →
      ((avUpdateTiles w increment).psMapTiles k).level =
        if (w.psMapTiles k).level >
            F32.div (getTileIllumination w.terrainShaderType (w.psMapTiles k)) 2 then
          MAX (F32.sub (w.psMapTiles k).level increment)
            (F32.div (getTileIllumination w.terrainShaderType (w.psMapTiles k)) 2)
        else if (w.psMapTiles k).level <
            F32.div (getTileIllumination w.terrainShaderType (w.psMapTiles k)) 2 then
          MIN (F32.add (w.psMapTiles k).level increment)
            (F32.div (getTileIllumination w.terrainShaderType (w.psMapTiles k)) 2)
        else (w.psMapTiles k).level) ∧
    (∀ (a : ℕ → ℕ) (s : ℕ),
      (avUpdateTiles { w with alliancebits := a, satuplinkbits := s } increment).psMapTiles
        = (avUpdateTiles w increment).psMapTiles) := by
  refine ⟨?_, playermask_of_lt w hsp, ?_,
    fun t => tileMaxLevel_of_no_alliance w t hslot hgod, ?_, ?_⟩
  · unfold playermaskChecked
    rw [if_pos hsp]
  · unfold playerAllianceBits
    rw [if_neg (by omega)]
  · intro hk hseen
    have hs : tileSeen w (w.psMapTiles k) := by
      unfold tileSeen
      rw [playermask_of_lt w hsp]
      exact hseen
    rw [avUpdateTiles_tile, if_pos hk]
    unfold avUpdateTile
    rw [if_pos hs, tileMaxLevel_of_no_alliance w _ hslot hgod]
    dsimp only
    split_ifs <;> rfl
  · intro a s
    funext j
    rw [avUpdateTiles_tile, avUpdateTiles_tile]
    have e : avUpdateTile { w with alliancebits := a, satuplinkbits := s } increment
        (w.psMapTiles j) = avUpdateTile w increment (w.psMapTiles j) := by
      apply avUpdateTile_congr
      · exact Iff.rfl
      · rw [tileMaxLevel_of_no_alliance w _ hslot hgod,
          tileMaxLevel_of_no_alliance { w with alliancebits := a, satuplinkbits := s } _
            hslot hgod]
    show (if j < w.mapHeight * w.mapWidth then
        avUpdateTile { w with alliancebits := a, satuplinkbits := s } increment
          (w.psMapTiles j) else w.psMapTiles j) = _
    rw [e]

theorem avUpdateTiles_out_of_range_observer_witness :
    spectatorWorld.MAX_PLAYER_SLOTS ≤ spectatorWorld.selectedPlayer ∧
      spectatorWorld.selectedPlayer < 32 ∧
      spectatorWorld.godMode = false ∧
      playermaskChecked spectatorWorld = some (1 <<< spectatorWorld.selectedPlayer) ∧
      playerAllianceBits spectatorWorld = 0 ∧
      tileMaxLevel spectatorWorld (spectatorWorld.psMapTiles 0) = 50 ∧
      ((avUpdateTiles spectatorWorld 20).psMapTiles 0).level = 20 := by
  have h := avUpdateTiles_out_of_range_observer spectatorWorld 20 0 (by decide) (by decide) rfl
  have h50 : F32.rnd (50 : ℚ) = 50 := F32.rnd_ofNat_lit 50 (by norm_num)
  have h20 : F32.rnd (20 : ℚ) = 20 := F32.rnd_ofNat_lit 20 (by norm_num)
  have hi : getTileIllumination spectatorWorld.terrainShaderType
      (spectatorWorld.psMapTiles 0) = 100 := rfl
  have hl : (spectatorWorld.psMapTiles 0).level = 0 := rfl
  have hhalf : F32.div (100 : ℚ) 2 = 50 := by
    unfold F32.div; norm_num [h50]
  refine ⟨by decide, by decide, rfl, h.1, h.2.2.1, ?_, ?_⟩
  · rw [h.2.2.2.1, hi, hhalf]
  · rw [h.2.2.2.2.1 (by decide) (Or.inr (by decide)), hi, hl, hhalf]
    rw [if_neg (by norm_num), if_pos (by norm_num)]
    unfold MIN F32.add
    norm_num [h20]

/-! ## What the two passes write -/

theorem preProcessTile_eq (w : World) (k : ℕ) (t : MAPTILE) :
    preProcessTile w k t = { t with level := (preProcessTile w k t).level } := by
  unfold preProcessTile
  dsimp only
  split_ifs <;> rfl

/-- Claim C12 (only the level is written): `avUpdateTiles` and
`preProcessVisibility` leave the explored bits, the sensor bits, the ambient
occlusion and the static illumination of every tile as they were, and so the
map dimensions, the reveal flag and every other global; the only thing either
of them changes is the level of tiles. -/
theorem only_level_written (w : World) (increment : ℚ) (k : ℕ) :
    (((avUpdateTiles w increment).psMapTiles k).tileExploredBits
        = (w.psMapTiles k).tileExploredBits ∧
      ((avUpdateTiles w increment).psMapTiles k).sensorBits = (w.psMapTiles k).sensorBits ∧
      ((avUpdateTiles w increment).psMapTiles k).ambientOcclusion
        = (w.psMapTiles k).ambientOcclusion ∧
      ((avUpdateTiles w increment).psMapTiles k).illumination
        = (w.psMapTiles k).illumination ∧
      (avUpdateTiles w increment).mapWidth = w.mapWidth ∧
      (avUpdateTiles w increment).mapHeight = w.mapHeight ∧
      (avUpdateTiles w increment).bRevealActive = w.bRevealActive ∧
      (avUpdateTiles w increment).psMapTiles k =
        { w.psMapTiles k with level := ((avUpdateTiles w increment).psMapTiles k).level } ∧
      avUpdateTiles w increment =
        { w with psMapTiles := (avUpdateTiles w increment).psMapTiles }) ∧
    (((preProcessVisibility w).psMapTiles k).tileExploredBits
        = (w.psMapTiles k).tileExploredBits ∧
      ((preProcessVisibility w).psMapTiles k).sensorBits = (w.psMapTiles k).sensorBits ∧
      ((preProcessVisibility w).psMapTiles k).ambientOcclusion
        = (w.psMapTiles k).ambientOcclusion ∧
      ((preProcessVisibility w).psMapTiles k).illumination
        = (w.psMapTiles k).illumination ∧
      (preProcessVisibility w).mapWidth = w.mapWidth ∧
      (preProcessVisibility w).mapHeight = w.mapHeight ∧
      (preProcessVisibility w).bRevealActive = w.bRevealActive ∧
      (preProcessVisibility w).psMapTiles k =
        { w.psMapTiles k with level := ((preProcessVisibility w).psMapTiles k).level } ∧
      preProcessVisibility w =
        { w with psMapTiles := (preProcessVisibility w).psMapTiles }) := by
  have h1 : (avUpdateTiles w increment).psMapTiles k =
      { w.psMapTiles k with level := ((avUpdateTiles w increment).psMapTiles k).level } := by
    rw [avUpdateTiles_tile]
    split_ifs
    · exact avUpdateTile_eq w increment _
    · rfl
  have h2 : (preProcessVisibility w).psMapTiles k =
      { w.psMapTiles k with level := ((preProcessVisibility w).psMapTiles k).level } := by
    rw [preProcessVisibility_tile]
    split_ifs
    · exact preProcessTile_eq w k _
    · rfl
  refine ⟨⟨?_, ?_, ?_, ?_, rfl, rfl, rfl, h1, rfl⟩, ⟨?_, ?_, ?_, ?_, rfl, rfl, rfl, h2, rfl⟩⟩
  · rw [h1]
  · rw [h1]
  · rw [h1]
  · rw [h1]
  · rw [h2]
  · rw [h2]
  · rw [h2]
  · rw [h2]

/-! ## The reveal flag -/

/-- Claim C13 (reveal flag accessors): the reveal flag is initially true;
`getRevealStatus` after `setRevealStatus val` returns `val`; and
`setRevealStatus` changes nothing but the flag, so no tile and no level. -/
theorem reveal_status_accessors (w : World) (val : Bool) :
    bRevealActive_init = true ∧
    getRevealStatus (setRevealStatus w val) = val ∧
    (setRevealStatus w val).psMapTiles = w.psMapTiles ∧
    (∀ k, ((setRevealStatus w val).psMapTiles k).level = (w.psMapTiles k).level) ∧
    setRevealStatus w val = { w with bRevealActive := val } ∧
    getRevealStatus w = w.bRevealActive :=
  ⟨rfl, rfl, rfl, fun _ => rfl, rfl, rfl⟩

/-! ## Target selection -/

theorem targetCost_droid (c : GameObject) (h : c.type = ObjectType.DROID) :
    targetCost c =
      (c.tileDistance : ℚ) * 11 - (100 - c.healthFraction * 100) / 10 * 11
        + (if c.isCurrentlyVisibleToObserver then 0 else 10)
        + (match c.role with
          | ObjectRole.SERVICE => -55
          | ObjectRole.WEAPON => -33
          | ObjectRole.WEAPON_STRUCTURE => -33
          | ObjectRole.RESOURCE_STRUCTURE => -77
          | ObjectRole.GENERIC => 0
          | ObjectRole.MILITARY_STRUCTURE => 0) := by
  unfold targetCost
  rw [h]
  cases c.role <;> cases c.isCurrentlyVisibleToObserver <;>
    norm_num [WEIGHT_DIST_TILE_DROID, WEIGHT_HEALTH_DROID, WEIGHT_DIST_TILE,
      WEIGHT_NOT_VISIBLE_F, WEIGHT_SERVICE_DROIDS, WEIGHT_WEAPON_DROIDS, WEIGHT_WEAPON_STRUCT,
      WEIGHT_DERRICK_STRUCT, WEIGHT_DIST_TILE_STRUCT] <;> ring

theorem targetCost_structure (c : GameObject) (h : c.type = ObjectType.STRUCTURE) :
    targetCost c =
      (c.tileDistance : ℚ) * 11 - (100 - c.healthFraction * 100) / 10 * 11
        + (if c.isCurrentlyVisibleToObserver then 0 else 10)
        + (match c.role with
          | ObjectRole.SERVICE => -55
          | ObjectRole.WEAPON => -33
          | ObjectRole.WEAPON_STRUCTURE => -33
          | ObjectRole.RESOURCE_STRUCTURE => -77
          | ObjectRole.GENERIC => 0
          | ObjectRole.MILITARY_STRUCTURE => 0)
        + 8 * (1 - c.buildCompletionFraction) := by
  unfold targetCost
  rw [h]
  cases c.role <;> cases c.isCurrentlyVisibleToObserver <;>
    norm_num [WEIGHT_DIST_TILE_DROID, WEIGHT_HEALTH_STRUCT, WEIGHT_DIST_TILE,
      WEIGHT_NOT_VISIBLE_F, WEIGHT_SERVICE_DROIDS, WEIGHT_WEAPON_DROIDS, WEIGHT_WEAPON_STRUCT,
      WEIGHT_DERRICK_STRUCT, WEIGHT_DIST_TILE_STRUCT, WEIGHT_STRUCT_NOTBUILT_F] <;> ring

/-- The selection among two eligible candidates. -/
theorem selectBestTarget_pair (eligible : GameObject → Bool) (a b : GameObject)
    (ha : eligible a = true) (hb : eligible b = true) :
    selectBestTarget eligible [a, b] =
      if targetCost b < targetCost a then some (b, targetCost b) else some (a, targetCost a) := by
  unfold selectBestTarget
  simp [List.filter, ha, hb]

/-- Claim C14 (hysteresis): with an existing target of cost `C` and a new best
candidate of cost `C - k`, the scorer keeps the existing target if
`k ≤ OLD_TARGET_THRESHOLD` and switches if `k > OLD_TARGET_THRESHOLD`; and
`OLD_TARGET_THRESHOLD` is `4 * WEIGHT_DIST_TILE = 44`. -/
theorem target_switch_hysteresis (C k : ℚ) :
    (k ≤ (OLD_TARGET_THRESHOLD : ℚ) → switchesTarget C (C - k) = false) ∧
    ((OLD_TARGET_THRESHOLD : ℚ) < k → switchesTarget C (C - k) = true) ∧
    OLD_TARGET_THRESHOLD = 4 * WEIGHT_DIST_TILE ∧ OLD_TARGET_THRESHOLD = 44 := by
  have e : C - (C - k) = k := by ring
  refine ⟨?_, ?_, by decide, by decide⟩
  · intro h
    unfold switchesTarget
    rw [e]
    exact decide_eq_false (not_lt.2 h)
  · intro h
    unfold switchesTarget
    rw [e]
    exact decide_eq_true h

/-- Claim C15, refuted as stated: the full-health, not-visible SERVICE droid of
the scenario, at tile distance 5, costs `11 * 5 + 10 - 55 = 10`, not `-10`. -/
theorem service_droid_scenario_counterexample :
    targetCost (hiddenDroid ObjectRole.SERVICE 5) = 10 ∧
      targetCost (hiddenDroid ObjectRole.SERVICE 5) ≠ -10 ∧
      (11 : ℚ) * 5 + 10 - 55 = 10 := by
  have h : targetCost (hiddenDroid ObjectRole.SERVICE 5) = 10 := by
    rw [targetCost_droid _ rfl]
    norm_num [hiddenDroid]
  refine ⟨h, ?_, by norm_num⟩
  rw [h]; norm_num

/-- Claim C15, amended (service-droid preference): a full-health, not-visible
SERVICE droid at tile distance `d` costs `11 * d + 10 - 55` and a full-health,
not-visible generic droid at tile distance `e` costs `11 * e + 10`; the SERVICE
droid has the strictly lower cost exactly when `d < e + 5`, and exactly then it
is the selected target in whichever order the two candidates are scanned.  In
the scenario (distances 5 and 6) the costs are `10` and `76`. -/
theorem service_droid_preference (eligible : GameObject → Bool) (s g : GameObject)
    (hs1 : s.type = ObjectType.DROID) (hs2 : s.role = ObjectRole.SERVICE)
    (hs3 : s.healthFraction = 1) (hs4 : s.isCurrentlyVisibleToObserver = false)
    (hg1 : g.type = ObjectType.DROID) (hg2 : g.role = ObjectRole.GENERIC)
    (hg3 : g.healthFraction = 1) (hg4 : g.isCurrentlyVisibleToObserver = false)
    (hes : eligible s = true) (heg : eligible g = true) :
    targetCost s = 11 * (s.tileDistance : ℚ) + 10 - 55 ∧
    targetCost g = 11 * (g.tileDistance : ℚ) + 10 ∧
    (targetCost s < targetCost g ↔ s.tileDistance < g.tileDistance + 5) ∧
    ((selectBestTarget eligible [s, g] = some (s, targetCost s) ∧
        selectBestTarget eligible [g, s] = some (s, targetCost s)) ↔
      s.tileDistance < g.tileDistance + 5) ∧
    WEIGHT_DIST_TILE = 11 ∧ WEIGHT_NOT_VISIBLE_F = 10 ∧ WEIGHT_SERVICE_DROIDS = 55 := by
  have hcs : targetCost s = 11 * (s.tileDistance : ℚ) + 10 - 55 := by
    rw [targetCost_droid s hs1, hs2, hs3, hs4]; norm_num; ring
  have hcg : targetCost g = 11 * (g.tileDistance : ℚ) + 10 := by
    rw [targetCost_droid g hg1, hg2, hg3, hg4]; norm_num; ring
  have hlt : targetCost s < targetCost g ↔ s.tileDistance < g.tileDistance + 5 := by
    rw [hcs, hcg]
    constructor
    · intro h
      have h2 : (s.tileDistance : ℚ) < ((g.tileDistance + 5 : ℕ) : ℚ) := by
        push_cast; linarith
      exact_mod_cast h2
    · intro h
      have h2 : (s.tileDistance : ℚ) < ((g.tileDistance + 5 : ℕ) : ℚ) := by exact_mod_cast h
      push_cast at h2
      linarith
  have hne : g ≠ s := by
    intro h
    rw [h, hs2] at hg2
    exact absurd hg2 (by decide)
  refine ⟨hcs, hcg, hlt, ?_, by decide, by decide, by decide⟩
  rw [selectBestTarget_pair eligible s g hes heg, selectBestTarget_pair eligible g s heg hes,
    ← hlt]
  constructor
  · rintro ⟨-, h2⟩
    by_contra hcon
    rw [if_neg hcon] at h2
    simp only [Option.some.injEq, Prod.mk.injEq] at h2
    exact hne h2.1
  · intro h
    rw [if_neg (not_lt.2 h.le), if_pos h]
    exact ⟨rfl, rfl⟩

theorem service_droid_preference_witness :
    (hiddenDroid ObjectRole.SERVICE 5).type = ObjectType.DROID ∧
      (hiddenDroid ObjectRole.SERVICE 5).role = ObjectRole.SERVICE ∧
      (hiddenDroid ObjectRole.SERVICE 5).healthFraction = 1 ∧
      (hiddenDroid ObjectRole.SERVICE 5).isCurrentlyVisibleToObserver = false ∧
      (hiddenDroid ObjectRole.GENERIC 6).type = ObjectType.DROID ∧
      (hiddenDroid ObjectRole.GENERIC 6).role = ObjectRole.GENERIC ∧
      (hiddenDroid ObjectRole.GENERIC 6).healthFraction = 1 ∧
      (hiddenDroid ObjectRole.GENERIC 6).isCurrentlyVisibleToObserver = false ∧
      targetCost (hiddenDroid ObjectRole.SERVICE 5) = 10 ∧
      targetCost (hiddenDroid ObjectRole.GENERIC 6) = 76 ∧
      selectBestTarget (fun _ => true)
          [hiddenDroid ObjectRole.SERVICE 5, hiddenDroid ObjectRole.GENERIC 6]
        = some (hiddenDroid ObjectRole.SERVICE 5, 10) ∧
      selectBestTarget (fun _ => true)
          [hiddenDroid ObjectRole.GENERIC 6, hiddenDroid ObjectRole.SERVICE 5]
        = some (hiddenDroid ObjectRole.SERVICE 5, 10) := by
  have h := service_droid_preference (fun _ => true) (hiddenDroid ObjectRole.SERVICE 5)
    (hiddenDroid ObjectRole.GENERIC 6) rfl rfl rfl rfl rfl rfl rfl rfl rfl rfl
  have hd : (hiddenDroid ObjectRole.SERVICE 5).tileDistance = 5 := rfl
  have he : (hiddenDroid ObjectRole.GENERIC 6).tileDistance = 6 := rfl
  have hcs : targetCost (hiddenDroid ObjectRole.SERVICE 5) = 10 := by
    rw [h.1, hd]; norm_num
  have hcg : targetCost (hiddenDroid ObjectRole.GENERIC 6) = 76 := by
    rw [h.2.1, he]; norm_num
  have hsel := h.2.2.2.1.2 (by rw [hd, he]; norm_num)
  rw [hcs] at hsel
  exact ⟨rfl, rfl, rfl, rfl, rfl, rfl, rfl, rfl, hcs, hcg, hsel.1, hsel.2⟩

/-- Claim C16, refuted as stated: a derrick at tile distance 5 and a weapon
structure at tile distance 1, both fully built, visible and at full health, cost
`11 * 5 - 77 = -22` and `11 * 1 - 33 = -22`: the derrick four tiles farther
away has the same cost, not a strictly lower one. -/
theorem derrick_preference_counterexample :
    (builtStructure ObjectRole.RESOURCE_STRUCTURE 5).tileDistance
      = (builtStructure ObjectRole.WEAPON_STRUCTURE 1).tileDistance + 4 ∧
    (builtStructure ObjectRole.RESOURCE_STRUCTURE 5).healthFraction
      = (builtStructure ObjectRole.WEAPON_STRUCTURE 1).healthFraction ∧
    (builtStructure ObjectRole.RESOURCE_STRUCTURE 5).isCurrentlyVisibleToObserver
      = (builtStructure ObjectRole.WEAPON_STRUCTURE 1).isCurrentlyVisibleToObserver ∧
    (builtStructure ObjectRole.RESOURCE_STRUCTURE 5).buildCompletionFraction
      = (builtStructure ObjectRole.WEAPON_STRUCTURE 1).buildCompletionFraction ∧
    targetCost (builtStructure ObjectRole.RESOURCE_STRUCTURE 5) = -22 ∧
    targetCost (builtStructure ObjectRole.WEAPON_STRUCTURE 1) = -22 ∧
    ¬ (targetCost (builtStructure ObjectRole.RESOURCE_STRUCTURE 5)
      < targetCost (builtStructure ObjectRole.WEAPON_STRUCTURE 1)) := by
  have hd : targetCost (builtStructure ObjectRole.RESOURCE_STRUCTURE 5) = -22 := by
    rw [targetCost_structure _ rfl]
    norm_num [builtStructure]
  have hw : targetCost (builtStructure ObjectRole.WEAPON_STRUCTURE 1) = -22 := by
    rw [targetCost_structure _ rfl]
    norm_num [builtStructure]
  refine ⟨rfl, rfl, rfl, rfl, hd, hw, ?_⟩
  rw [hd, hw]; norm_num

/-- Claim C16, amended (derrick preference): for a derrick `d` and a weapon
structure `s` equal in health, visibility and build completion, the costs
differ by `11 * (distance of d - distance of s) - 44`; the derrick has the
strictly lower cost exactly when it is fewer than 4 tiles farther away, and then
it is the selected target in whichever order the two are scanned; at exactly 4
tiles farther away the two costs are equal.  `WEIGHT_DERRICK_STRUCT` is 77, the
weapon-structure weight plus four tiles of distance cost, and exceeds four tiles
of distance cost, 44. -/
theorem derrick_preference (eligible : GameObject → Bool) (d s : GameObject)
    (hd1 : d.type = ObjectType.STRUCTURE) (hd2 : d.role = ObjectRole.RESOURCE_STRUCTURE)
    (hs1 : s.type = ObjectType.STRUCTURE) (hs2 : s.role = ObjectRole.WEAPON_STRUCTURE)
    (hh : d.healthFraction = s.healthFraction)
    (hv : d.isCurrentlyVisibleToObserver = s.isCurrentlyVisibleToObserver)
    (hb : d.buildCompletionFraction = s.buildCompletionFraction)
    (hed : eligible d = true) (hes : eligible s = true) :
    targetCost d - targetCost s
      = 11 * ((d.tileDistance : ℚ) - (s.tileDistance : ℚ)) - 44 ∧
    (targetCost d < targetCost s ↔ d.tileDistance < s.tileDistance + 4) ∧
    (d.tileDistance = s.tileDistance + 4 → targetCost d = targetCost s) ∧
    (d.tileDistance < s.tileDistance + 4 →
      selectBestTarget eligible [d, s] = some (d, targetCost d) ∧
      selectBestTarget eligible [s, d] = some (d, targetCost d)) ∧
    WEIGHT_DERRICK_STRUCT = 77 ∧ 4 * WEIGHT_DIST_TILE_STRUCT = 44 ∧
    WEIGHT_DERRICK_STRUCT = WEIGHT_WEAPON_STRUCT + 4 * WEIGHT_DIST_TILE_STRUCT ∧
    4 * WEIGHT_DIST_TILE_STRUCT < WEIGHT_DERRICK_STRUCT := by
  have hdiff : targetCost d - targetCost s
      = 11 * ((d.tileDistance : ℚ) - (s.tileDistance : ℚ)) - 44 := by
    rw [targetCost_structure d hd1, targetCost_structure s hs1, hd2, hs2, hh, hv, hb]
    ring
  have hlt : targetCost d < targetCost s ↔ d.tileDistance < s.tileDistance + 4 := by
    constructor
    · intro h
      have h2 : (d.tileDistance : ℚ) < ((s.tileDistance + 4 : ℕ) : ℚ) := by
        push_cast; linarith
      exact_mod_cast h2
    · intro h
      have h2 : (d.tileDistance : ℚ) < ((s.tileDistance + 4 : ℕ) : ℚ) := by exact_mod_cast h
      push_cast at h2
      linarith
  refine ⟨hdiff, hlt, ?_, ?_, by decide, by decide, by decide, by decide⟩
  · intro h
    have h2 : (d.tileDistance : ℚ) = ((s.tileDistance + 4 : ℕ) : ℚ) := by exact_mod_cast h
    push_cast at h2
    linarith
  · intro h
    have hc := hlt.2 h
    rw [selectBestTarget_pair eligible d s hed hes, selectBestTarget_pair eligible s d hes hed,
      if_neg (not_lt.2 hc.le), if_pos hc]
    exact ⟨rfl, rfl⟩

theorem derrick_preference_witness :
    (builtStructure ObjectRole.RESOURCE_STRUCTURE 4).type = ObjectType.STRUCTURE ∧
      (builtStructure ObjectRole.RESOURCE_STRUCTURE 4).role = ObjectRole.RESOURCE_STRUCTURE ∧
      (builtStructure ObjectRole.WEAPON_STRUCTURE 1).type = ObjectType.STRUCTURE ∧
      (builtStructure ObjectRole.WEAPON_STRUCTURE 1).role = ObjectRole.WEAPON_STRUCTURE ∧
      (builtStructure ObjectRole.RESOURCE_STRUCTURE 4).tileDistance
        < (builtStructure ObjectRole.WEAPON_STRUCTURE 1).tileDistance + 4 ∧
      targetCost (builtStructure ObjectRole.RESOURCE_STRUCTURE 4)
        < targetCost (builtStructure ObjectRole.WEAPON_STRUCTURE 1) ∧
      selectBestTarget (fun _ => true)
          [builtStructure ObjectRole.RESOURCE_STRUCTURE 4,
            builtStructure ObjectRole.WEAPON_STRUCTURE 1]
        = some (builtStructure ObjectRole.RESOURCE_STRUCTURE 4,
          targetCost (builtStructure ObjectRole.RESOURCE_STRUCTURE 4)) ∧
      selectBestTarget (fun _ => true)
          [builtStructure ObjectRole.WEAPON_STRUCTURE 1,
            builtStructure ObjectRole.RESOURCE_STRUCTURE 4]
        = some (builtStructure ObjectRole.RESOURCE_STRUCTURE 4,
          targetCost (builtStructure ObjectRole.RESOURCE_STRUCTURE 4)) := by
  have h := derrick_preference (fun _ => true) (builtStructure ObjectRole.RESOURCE_STRUCTURE 4)
    (builtStructure ObjectRole.WEAPON_STRUCTURE 1) rfl rfl rfl rfl rfl rfl rfl rfl rfl
  have hlt : (builtStructure ObjectRole.RESOURCE_STRUCTURE 4).tileDistance
      < (builtStructure ObjectRole.WEAPON_STRUCTURE 1).tileDistance + 4 := by decide
  exact ⟨rfl, rfl, rfl, rfl, hlt, h.2.1.2 hlt, (h.2.2.2.1 hlt).1, (h.2.2.2.1 hlt).2⟩

/-! ## Tiles that stay unseen -/

theorem avUpdateTile_of_dark (w : World) (increment : ℚ) (t : MAPTILE)
    (hle : t.level ≤ MIN_ILLUM) (hexp : t.tileExploredBits &&& playermask w = 0) :
    avUpdateTile w increment t = t := by
  apply avUpdateTile_of_not_seen
  unfold tileSeen
  rintro (h | h)
  · exact absurd hle (not_le.2 h)
  · exact h hexp

theorem avUpdateTiles_of_dark (w : World) (increment : ℚ) (k : ℕ)
    (hle : (w.psMapTiles k).level ≤ MIN_ILLUM)
    (hexp : (w.psMapTiles k).tileExploredBits &&& playermask w = 0) :
    (avUpdateTiles w increment).psMapTiles k = w.psMapTiles k := by
  rw [avUpdateTiles_tile]
  split_ifs
  · exact avUpdateTile_of_dark w increment _ hle hexp
  · rfl

theorem iterate_stall (w : World) (increment : ℚ) (t : MAPTILE)
    (hexp : t.tileExploredBits &&& playermask w = 0) (n j : ℕ)
    (hle : ((avUpdateTile w increment)^[n] t).level ≤ MIN_ILLUM) :
    (avUpdateTile w increment)^[n + j] t = (avUpdateTile w increment)^[n] t := by
  have hfix : avUpdateTile w increment ((avUpdateTile w increment)^[n] t)
      = (avUpdateTile w increment)^[n] t :=
    avUpdateTile_of_dark w increment _ hle (by rw [exploredBits_iterate]; exact hexp)
  rw [Nat.add_comm, Function.iterate_add_apply]
  exact Function.iterate_fixed hfix j

theorem stallWorld_levels (n : ℕ) (hn : 1 ≤ n) :
    ((avUpdateTilesN stallWorld 20 n).psMapTiles 0).level = 40 := by
  obtain ⟨j, rfl⟩ : ∃ j, n = 1 + j := ⟨n - 1, by omega⟩
  have e0 : stallWorld.psMapTiles 0 = stallTile := rfl
  have h1 : (avUpdateTile stallWorld 20)^[1] stallTile = { stallTile with level := 40 } := by
    rw [Function.iterate_succ_apply', Function.iterate_zero_apply, stallTile_step]
  rw [avUpdateTilesN_tile, if_pos (by decide), e0,
    iterate_stall stallWorld 20 stallTile (by decide) 1 j (by rw [h1]; norm_num [MIN_ILLUM]),
    h1]

/-- Claim C17 (the fade of an unexplored tile stalls at the threshold).  (1) For
a selected player below 32, where the mask `1 << selectedPlayer` of the loop is
defined, and a tile whose explored bit for the selected player is clear, with a
constant increment: once the level after some frame is at most `MIN_ILLUM = 45`, the
level after every later frame is the same, whatever the target.  (2) In the
one-tile world with level 60, illumination 40, no coverage, god mode off and
increment 20 the target is 20, and the level is 40 after the first frame and
after every later frame. -/
theorem avUpdateTiles_unexplored_stall :
    (∀ (w : World) (increment : ℚ) (i : ℕ), w.selectedPlayer < 32 →
      (w.psMapTiles i).tileExploredBits &&& (1 <<< w.selectedPlayer) = 0 →
      ∀ n m : ℕ, n ≤ m →
        ((avUpdateTilesN w increment n).psMapTiles i).level ≤ MIN_ILLUM →
        ((avUpdateTilesN w increment m).psMapTiles i).level
          = ((avUpdateTilesN w increment n).psMapTiles i).level) ∧
    MIN_ILLUM = 45 ∧
    (stallWorld.selectedPlayer < 32 ∧
      (stallWorld.psMapTiles 0).tileExploredBits &&& (1 <<< stallWorld.selectedPlayer) = 0 ∧
      (stallWorld.psMapTiles 0).level = 60 ∧
      tileMaxLevel stallWorld (stallWorld.psMapTiles 0) = 20 ∧
      ∀ n : ℕ, 1 ≤ n →
        ((avUpdateTilesN stallWorld 20 n).psMapTiles 0).level = 40 ∧
        ((avUpdateTilesN stallWorld 20 n).psMapTiles 0).level
          ≠ tileMaxLevel stallWorld (stallWorld.psMapTiles 0)) := by
  have hmax : tileMaxLevel stallWorld (stallWorld.psMapTiles 0) = 20 := by
    have h20 : F32.rnd (20 : ℚ) = 20 := F32.rnd_ofNat_lit 20 (by norm_num)
    simp [tileMaxLevel, tileUnwatched, playerAllianceBits, stallWorld, oneTileWorld,
      stallTile, getTileIllumination, F32.div]
    norm_num [h20]
  refine ⟨?_, rfl, by decide, by decide, rfl, hmax, ?_⟩
  · intro w increment i hsp hexp n m hnm hle
    rw [← playermask_of_lt w hsp] at hexp
    obtain ⟨j, rfl⟩ : ∃ j, m = n + j := ⟨m - n, by omega⟩
    rw [avUpdateTilesN_tile] at hle ⊢
    rw [avUpdateTilesN_tile]
    split_ifs with hi
    · rw [if_pos hi] at hle
      rw [iterate_stall w increment _ hexp n j hle]
    · rfl
  · intro n hn
    rw [stallWorld_levels n hn, hmax]
    exact ⟨rfl, by norm_num⟩

theorem avUpdateTilesSeq_of_dark (increments : List ℚ) (w : World) (k : ℕ)
    (hle : (w.psMapTiles k).level ≤ MIN_ILLUM)
    (hexp : (w.psMapTiles k).tileExploredBits &&& playermask w = 0) :
    (avUpdateTilesSeq w increments).psMapTiles k = w.psMapTiles k := by
  induction increments generalizing w with
  | nil => rfl
  | cons increment rest ih =>
    have h1 := avUpdateTiles_of_dark w increment k hle hexp
    have h2 : avUpdateTilesSeq w (increment :: rest)
        = avUpdateTilesSeq (avUpdateTiles w increment) rest := rfl
    rw [h2, ih (avUpdateTiles w increment) (by rw [h1]; exact hle) (by rw [h1]; exact hexp), h1]

/-- Claim C18 (the fog set by pre-processing is stable): for a selected player
below 32, where the mask `1 << selectedPlayer` of `avUpdateTiles` is defined, on
a tile of the map that is not visible to the selected player and whose explored
bit for the selected player is clear, the level written by `preProcessVisibility` is 0 or
`min(MIN_ILLUM, illumination / 4)` (the float quotient) and at most `MIN_ILLUM`,
and every run of `avUpdateTiles` calls that follows, with any increments, leaves
the tile, and so its level, as `preProcessVisibility` left it. -/
theorem preProcessed_fog_stable (w : World) (k : ℕ)
    (hk : k < w.mapWidth * w.mapHeight) (hvis : w.tileVisible k = false)
    (hsp : w.selectedPlayer < 32)
    (hexp : (w.psMapTiles k).tileExploredBits &&& (1 <<< w.selectedPlayer) = 0) :
    ((preProcessVisibility w).psMapTiles k).level ≤ MIN_ILLUM ∧
    (((preProcessVisibility w).psMapTiles k).level = 0 ∨
      ((preProcessVisibility w).psMapTiles k).level =
        min MIN_ILLUM (F32.div (getTileIllumination w.terrainShaderType (w.psMapTiles k)) 4)) ∧
    (∀ increments : List ℚ,
      (avUpdateTilesSeq (preProcessVisibility w) increments).psMapTiles k
          = (preProcessVisibility w).psMapTiles k ∧
        ((avUpdateTilesSeq (preProcessVisibility w) increments).psMapTiles k).level
          = ((preProcessVisibility w).psMapTiles k).level) := by
  have hlevel : ((preProcessVisibility w).psMapTiles k).level =
      if w.bRevealActive then
        MIN MIN_ILLUM (F32.div (getTileIllumination w.terrainShaderType (w.psMapTiles k)) 4)
      else 0 := by
    rw [preProcessVisibility_tile, if_pos hk, preProcessTile_level_hidden w k _ hvis]
  have hle : ((preProcessVisibility w).psMapTiles k).level ≤ MIN_ILLUM := by
    rw [hlevel]
    split_ifs
    · rw [MIN_eq_min]; exact min_le_left _ _
    · norm_num [MIN_ILLUM]
  have hmask : playermask (preProcessVisibility w) = 1 <<< w.selectedPlayer :=
    playermask_of_lt (preProcessVisibility w) hsp
  have hbits : ((preProcessVisibility w).psMapTiles k).tileExploredBits
      &&& playermask (preProcessVisibility w) = 0 := by
    rw [hmask, preProcessVisibility_tile, if_pos hk, preProcessTile_eq]
    exact hexp
  refine ⟨hle, ?_, ?_⟩
  · rw [hlevel]
    split_ifs
    · right; rw [MIN_eq_min]
    · left; rfl
  · intro increments
    have h := avUpdateTilesSeq_of_dark increments (preProcessVisibility w) k hle hbits
    exact ⟨h, by rw [h]⟩

theorem preProcessed_fog_stable_witness :
    0 < darkWorld.mapWidth * darkWorld.mapHeight ∧ darkWorld.tileVisible 0 = false ∧
      darkWorld.selectedPlayer < 32 ∧
      (darkWorld.psMapTiles 0).tileExploredBits &&& (1 <<< darkWorld.selectedPlayer) = 0 ∧
      ((preProcessVisibility darkWorld).psMapTiles 0).level ≤ MIN_ILLUM ∧
      ((avUpdateTilesSeq (preProcessVisibility darkWorld) [20, 5, 7]).psMapTiles 0).level
        = ((preProcessVisibility darkWorld).psMapTiles 0).level :=
  ⟨by decide, rfl, by decide, by decide,
    (preProcessed_fog_stable darkWorld 0 (by decide) rfl (by decide) (by decide)).1,
    ((preProcessed_fog_stable darkWorld 0 (by decide) rfl (by decide) (by decide)).2.2
      [20, 5, 7]).2⟩

/-! ## Monotonicity of the light level -/

theorem ofNat_mono {a b : ℕ} (h : a ≤ b) : F32.ofNat a ≤ F32.ofNat b := by
  unfold F32.ofNat
  exact F32.rnd_mono (by exact_mod_cast h)

theorem div255_mono {v1 v2 : ℕ} (h : v1 ≤ v2) :
    F32.div (F32.ofNat v1) 255 ≤ F32.div (F32.ofNat v2) 255 := by
  unfold F32.div
  apply F32.rnd_mono
  exact div_le_div_of_nonneg_right (ofNat_mono h) (by norm_num)

theorem scaled_mono {v1 v2 b1 b2 : ℕ} (hv : v1 ≤ v2) (hb : b1 ≤ b2) :
    F32.mul (F32.div (F32.ofNat v1) 255) (F32.ofNat b1)
      ≤ F32.mul (F32.div (F32.ofNat v2) 255) (F32.ofNat b2) := by
  unfold F32.mul
  apply F32.rnd_mono
  exact mul_le_mul (div255_mono hv) (ofNat_mono hb)
    (F32.rnd_nonneg (by positivity)) (div255_nonneg v2)

/-- The largest base level whose conversion to `float` stays below `2 ^ 32`. -/
theorem ofNat_lt_two_pow_32 (b : ℕ) (hb : b ≤ 4294967167) : F32.ofNat b < 2 ^ 32 := by
  have h1 : F32.ofNat 4294967167 = 4294967040 := by
    unfold F32.ofNat
    exact F32.rnd_eq_of_near 157 16777215 _ (by norm_num) (by norm_num) (by norm_num)
      (by rw [abs_lt]; constructor <;> norm_num) (by norm_num)
  have h2 := ofNat_mono hb
  rw [h1] at h2
  exact lt_of_le_of_lt h2 (by norm_num)

/-- Claim C19, refuted as stated: for base level `4294967295 = 2 ^ 32 - 1` the
conversion to `float` gives `2 ^ 32`; visibility 254 returns `4278124288`, while
for visibility 255 the scaled level is `2 ^ 32`, whose conversion to
`unsigned int` is undefined, so that the call has no defined value to compare
with. -/
theorem avGetObjLightLevel_monotone_counterexample :
    avGetObjLightLevel 254 4294967295 = some 4278124288 ∧
      avGetObjLightLevel 255 4294967295 = none := by
  have h1 : F32.rnd (1 : ℚ) = 1 := by simpa using F32.rnd_natCast 1 (by norm_num)
  have hd255 : F32.div (F32.ofNat 255) 255 = 1 := by
    rw [div255_eq 255 (by norm_num)]
    norm_num [h1]
  have hd254 : F32.div (F32.ofNat 254) 255 = 16711423 / 16777216 := by
    rw [div255_eq 254 (by norm_num)]
    have := rnd_div255 254 7 (by norm_num) (by norm_num) (by norm_num) (by norm_num)
    norm_num at this ⊢
    exact this
  have hb : F32.ofNat 4294967295 = 4294967296 := by
    unfold F32.ofNat
    exact F32.rnd_eq_of_near 157 16777216 _ (by norm_num) (by norm_num) (by norm_num)
      (by rw [abs_lt]; constructor <;> norm_num) (by norm_num)
  have hp254 : F32.mul (16711423 / 16777216) 4294967296 = 4278124288 := by
    unfold F32.mul
    have h := F32.rnd_natMant 16711423 157 (by norm_num)
    have e : ((16711423 : ℕ) : ℚ) * 2 ^ 157 / 2 ^ 149 = 16711423 / 16777216 * 4294967296 := by
      norm_num
    rw [e] at h
    rw [h]; norm_num
  have hp255 : F32.mul 1 4294967296 = 4294967296 := by
    unfold F32.mul
    have h := F32.rnd_natMant 1 181 (by norm_num)
    have e : ((1 : ℕ) : ℚ) * 2 ^ 181 / 2 ^ 149 = 1 * 4294967296 := by norm_num
    rw [e] at h
    rw [h]; norm_num
  constructor
  · rw [avGetObjLightLevel_eq, hd254, hb, hp254]
    have hf : ⌊(4278124288 : ℚ)⌋₊ = 4278124288 := by simp
    rw [hf]
    norm_num [START_DIVIDE]
  · rw [avGetObjLightLevel_eq, hd255, hb, hp255]
    have hf : ⌊(4294967296 : ℚ)⌋₊ = 4294967296 := by simp
    rw [hf]
    norm_num

/-- Claim C19, amended (the light level is monotone where it is defined): for
visibility values `v1 ≤ v2` in `[0, 255]` and base levels `b1 ≤ b2`, (1) values
returned by the two calls are ordered, `r1 ≤ r2`; (2) if `b2` rounded to `float`
is below `2 ^ 32` both calls return a value, and these are ordered; (3) every
`b2 ≤ 4294967167` rounds to a `float` below `2 ^ 32`.  With `b1 = b2` this is
the monotonicity in the visibility, with `v1 = v2` the one in the base
level. -/
theorem avGetObjLightLevel_monotone (v1 v2 b1 b2 : ℕ) (hv : v1 ≤ v2) (hv2 : v2 ≤ 255)
    (hb : b1 ≤ b2) :
    (∀ r1 r2, avGetObjLightLevel v1 b1 = some r1 → avGetObjLightLevel v2 b2 = some r2 →
      r1 ≤ r2) ∧
    (F32.ofNat b2 < 2 ^ 32 →
      ∃ r1 r2, avGetObjLightLevel v1 b1 = some r1 ∧ avGetObjLightLevel v2 b2 = some r2 ∧
        r1 ≤ r2) ∧
    (b2 ≤ 4294967167 → F32.ofNat b2 < 2 ^ 32) := by
  have hfloor : ⌊F32.mul (F32.div (F32.ofNat v1) 255) (F32.ofNat b1)⌋₊
      ≤ ⌊F32.mul (F32.div (F32.ofNat v2) 255) (F32.ofNat b2)⌋₊ :=
    Nat.floor_mono (scaled_mono hv hb)
  have hlow : b1 / START_DIVIDE ≤ b2 / START_DIVIDE := Nat.div_le_div_right hb
  have hord : ∀ r1 r2, avGetObjLightLevel v1 b1 = some r1 →
      avGetObjLightLevel v2 b2 = some r2 → r1 ≤ r2 := by
    intro r1 r2 h1 h2
    rw [avGetObjLightLevel_eq] at h1 h2
    split_ifs at h1 h2
    simp only [Option.some.injEq] at h1 h2
    subst h1; subst h2
    exact max_le_max hfloor hlow
  refine ⟨hord, ?_, ofNat_lt_two_pow_32 b2⟩
  intro hlt
  have hdef2 : ⌊F32.mul (F32.div (F32.ofNat v2) 255) (F32.ofNat b2)⌋₊ < 2 ^ 32 := by
    have h1 : (⌊F32.mul (F32.div (F32.ofNat v2) 255) (F32.ofNat b2)⌋₊ : ℚ)
        < ((2 ^ 32 : ℕ) : ℚ) := by
      push_cast
      exact lt_of_le_of_lt (le_trans (Nat.floor_le (scaled_nonneg v2 b2)) (scaled_le v2 b2 hv2))
        hlt
    exact_mod_cast h1
  have hdef1 : ⌊F32.mul (F32.div (F32.ofNat v1) 255) (F32.ofNat b1)⌋₊ < 2 ^ 32 :=
    lt_of_le_of_lt hfloor hdef2
  have e1 := avGetObjLightLevel_eq v1 b1
  have e2 := avGetObjLightLevel_eq v2 b2
  rw [if_pos hdef1] at e1
  rw [if_pos hdef2] at e2
  exact ⟨_, _, e1, e2, hord _ _ e1 e2⟩

theorem avGetObjLightLevel_monotone_witness :
    100 ≤ 200 ∧ 200 ≤ 255 ∧ 50 ≤ 120 ∧
      (∀ r1 r2, avGetObjLightLevel 100 50 = some r1 → avGetObjLightLevel 200 120 = some r2 →
        r1 ≤ r2) ∧
      ∃ r1 r2, avGetObjLightLevel 100 50 = some r1 ∧ avGetObjLightLevel 200 120 = some r2 ∧
        r1 ≤ r2 := by
  have h := avGetObjLightLevel_monotone 100 200 50 120 (by norm_num) (by norm_num)
    (by norm_num)
  exact ⟨by norm_num, by norm_num, by norm_num, h.1, h.2.1 (h.2.2 (by norm_num))⟩
